import Mathlib

/-!
Production quiz: submission validation and sanitisation, the quiz state machine, and
the export.

A shallow embedding of `src/server/middleware/security.js`, of the handlers of
`src/server/routes/api.js` (submission, key check, export) and of the quiz handlers of
`src/public/js/app.js`, together with the parts of the JavaScript language the files
lean on (`parseInt`, `String.prototype.trim`, the conversion of a value to a string)
and of the `validator` package (`escape`).

Strings are sequences of UTF-16 code units, as in JavaScript: `length`, `substring`
and the character tests of the source all work on code units.
-/

namespace Production

/-! ## Strings -/

/-- A JavaScript string: its UTF-16 code units. -/
abbrev JSString := List Nat

/-- The UTF-16 code units of one Unicode scalar value. -/
def utf16Char (c : Char) : List Nat :=
  if c.toNat < 0x10000 then [c.toNat]
  else [0xD800 + (c.toNat - 0x10000) / 0x400, 0xDC00 + (c.toNat - 0x10000) % 0x400]

/-- The JavaScript string written as the given literal. -/
def utf16 (s : String) : JSString := s.toList.flatMap utf16Char

/-- WhiteSpace and LineTerminator code points of ECMA-262: what `trim` and `parseInt`
strip. -/
def isWhiteSpace (c : Nat) : Bool :=
  c == 9 || c == 10 || c == 11 || c == 12 || c == 13 || c == 32 || c == 160 ||
  c == 5760 || (8192 ≤ c && c ≤ 8202) || c == 8232 || c == 8233 || c == 8239 ||
  c == 8287 || c == 12288 || c == 65279

/-- The method `String.prototype.trim`: leading and trailing white space removed. -/
def trim (s : JSString) : JSString :=
  (s.dropWhile isWhiteSpace).rdropWhile isWhiteSpace

/-- Decimal digits of `n`, most significant first, by repeated division; `fuel` bounds
the number of digits produced. -/
def decimalDigitsAux : Nat → Nat → List Nat
  | 0, _ => []
  | fuel + 1, n => if n < 10 then [n] else decimalDigitsAux fuel (n / 10) ++ [n % 10]

/-- Decimal digits of `n`, most significant first; `0` has the single digit `0`. -/
def decimalDigits (n : Nat) : List Nat := decimalDigitsAux (n + 1) n

/-- The code units `'0'..'9'` of a list of decimal digits. -/
def digitChars (ds : List Nat) : JSString := ds.map (· + 48)

/-- The decimal text of a natural number, as string concatenation `'' + n` gives it for
the small non-negative integers the source concatenates. -/
def natText (n : Nat) : JSString := digitChars (decimalDigits n)

/-- The decimal text of an integer: an optional minus sign and the decimal digits. -/
def intText (i : Int) : JSString :=
  (if i < 0 then [45] else []) ++ natText i.natAbs

/-! ## Numbers and values -/

/-- A Number value, presented by what `Number::toString` (ECMA-262 6.1.6.1.20) reads off
it: NaN, an infinity, a zero, or a finite non-zero value `± s × 10 ^ (n - k)` where the
integer `s` has the `k` decimal digits `digits` (the shortest digit string that
identifies the value). -/
inductive JSNumber where
  | nan
  | infinity (negative : Bool)
  | zero (negative : Bool)
  | finite (negative : Bool) (digits : List Nat) (n : Int)
deriving DecidableEq, Repr

/-- Digits without their trailing zeros. -/
def stripTrailingZeros (ds : List Nat) : List Nat := ds.rdropWhile (· == 0)

/-- The Number whose value is the integer `i`: significant digits without trailing
zeros, and the position of the decimal point after all digits of `i`. Every integer of
magnitude up to `2 ^ 53` is a Number, as is `10 ^ 21`. -/
def JSNumber.ofInt (i : Int) : JSNumber :=
  if i = 0 then .zero false
  else .finite (decide (i < 0)) (stripTrailingZeros (decimalDigits i.natAbs))
    (decimalDigits i.natAbs).length

/-- The operation `Number::toString` for radix 10: plain decimal text while the
decimal point position `n` lies in `-5 .. 21`, exponent form otherwise. -/
def JSNumber.toText : JSNumber → JSString
  | .nan => utf16 "NaN"
  | .zero _ => utf16 "0"
  | .infinity negative => (if negative then [45] else []) ++ utf16 "Infinity"
  | .finite negative ds n =>
    let k : Int := ds.length
    let s := digitChars ds
    let body :=
      if -5 ≤ n ∧ n ≤ 21 then
        if k ≤ n then s ++ List.replicate (n - k).toNat 48
        else if 0 < n then s.take n.toNat ++ 46 :: s.drop n.toNat
        else 48 :: 46 :: (List.replicate (-n).toNat 48 ++ s)
      else
        let e := (if n < 0 then 45 else 43) :: natText (n - 1).natAbs
        if ds.length = 1 then s ++ 101 :: e
        else s.take 1 ++ 46 :: (s.drop 1 ++ 101 :: e)
    (if negative then [45] else []) ++ body

/-- The values a handler can meet: `undefined` (an absent field) and what `JSON.parse`
produces. An object is the list of its own properties. -/
inductive JSVal where
  | undefined
  | null
  | bool (b : Bool)
  | num (x : JSNumber)
  | str (s : JSString)
  | arr (elems : List JSVal)
  | obj (fields : List (JSString × JSVal))

/-- An exception thrown by the language (here always a TypeError). -/
inductive Thrown where
  | typeError
deriving DecidableEq, Repr

deriving instance DecidableEq for Except

mutual
/-- The abstract operation `ToString`. An array is the comma-joined text of its
elements (`Array.prototype.toString`). An object read from JSON has no callable method
of its own: with an own property `toString` the conversion finds nothing to call that
returns a primitive and throws, without one it is `Object.prototype.toString`. -/
def ToString : JSVal → Except Thrown JSString
  | .undefined => .ok (utf16 "undefined")
  | .null => .ok (utf16 "null")
  | .bool b => .ok (if b then utf16 "true" else utf16 "false")
  | .num x => .ok x.toText
  | .str s => .ok s
  | .arr es => joinElems es
  | .obj fs =>
    if (fs.map Prod.fst).contains (utf16 "toString") then .error .typeError
    else .ok (utf16 "[object Object]")
/-- The method `Array.prototype.join` with the separator `','`: `undefined` and `null`
elements give the empty text. -/
def joinElems : List JSVal → Except Thrown JSString
  | [] => .ok []
  | e :: es =>
    let first : Except Thrown JSString :=
      match e with
      | .undefined => .ok []
      | .null => .ok []
      | v => ToString v
    match first, es, joinElems es with
    | .ok a, [], _ => .ok a
    | .ok a, _ :: _, .ok b => .ok (a ++ 44 :: b)
    | .error t, _, _ => .error t
    | _, _, .error t => .error t
end

/-- Truthiness (`ToBoolean`). -/
def JSVal.truthy : JSVal → Bool
  | .undefined => false
  | .null => false
  | .bool b => b
  | .num (.nan) => false
  | .num (.zero _) => false
  | .num _ => true
  | .str s => !s.isEmpty
  | .arr _ => true
  | .obj _ => true

/-! ## parseInt -/

/-- The value of a code unit as a digit in radix 36: `0-9`, `a-z`, `A-Z`. -/
def digitValue (c : Nat) : Option Nat :=
  if 48 ≤ c ∧ c ≤ 57 then some (c - 48)
  else if 97 ≤ c ∧ c ≤ 122 then some (c - 87)
  else if 65 ≤ c ∧ c ≤ 90 then some (c - 55)
  else none

/-- Whether a code unit is a digit of radix `R`. -/
def isRadixDigit (R c : Nat) : Bool :=
  match digitValue c with
  | some d => decide (d < R)
  | none => false

/-- The integer a string of radix-`R` digits denotes. -/
def radixValue (R : Nat) (Z : JSString) : Nat :=
  Z.foldl (fun acc c => acc * R + (digitValue c).getD 0) 0

/-- The part of `parseInt` that works on the text (steps 2 to 16 of ECMA-262 19.2.5):
`none` is NaN. The result is the mathematical integer; the two zeros are not told
apart, and a value beyond `2 ^ 53` is not rounded. `radix` 0 stands for an omitted
radix. -/
def parseIntText (inputString : JSString) (radix : Nat) : Option Int :=
  let S := inputString.dropWhile isWhiteSpace
  let negative := S.head? == some 45
  let S := if S.head? == some 45 || S.head? == some 43 then S.drop 1 else S
  if radix ≠ 0 ∧ (radix < 2 ∨ 36 < radix) then none
  else
    let hex := (radix == 0 || radix == 16) &&
      (S.take 2 == [48, 120] || S.take 2 == [48, 88])
    let R := if hex then 16 else if radix == 0 then 10 else radix
    let S := if hex then S.drop 2 else S
    let Z := S.takeWhile (isRadixDigit R)
    if Z.isEmpty then none
    else some (if negative then -(radixValue R Z : Int) else (radixValue R Z : Int))

/-- The global function `parseInt(string, radix)`: the argument is first converted to
a string, which can throw. -/
def parseInt (string : JSVal) (radix : Nat) : Except Thrown (Option Int) :=
  match ToString string with
  | .error t => .error t
  | .ok inputString => .ok (parseIntText inputString radix)

/-! ## security.js -/

/-- Replacement of every occurrence of one code unit by a text
(`str.replace(/c/g, text)`). -/
def replaceAll (c : Nat) (text : JSString) (str : JSString) : JSString :=
  str.flatMap fun x => if x = c then text else [x]

/-- Modelled from the spec: `validator.escape` belongs to the `validator` package, which
is not under `src/`. It replaces `&`, `"`, the apostrophe, `<`, `>`, `/`, the backslash
and the backtick by the entities `&amp;`, `&quot;`, `&#x27;`, `&lt;`, `&gt;`, `&#x2F;`,
`&#x5C;` and `&#96;`, one replacement pass after the other in this order. -/
def escape (str : JSString) : JSString :=
  replaceAll 96 (utf16 "&#96;")
    (replaceAll 92 (utf16 "&#x5C;")
      (replaceAll 47 (utf16 "&#x2F;")
        (replaceAll 62 (utf16 "&gt;")
          (replaceAll 60 (utf16 "&lt;")
            (replaceAll 39 (utf16 "&#x27;")
              (replaceAll 34 (utf16 "&quot;")
                (replaceAll 38 (utf16 "&amp;") str)))))))

/-- The function `sanitizeInput(input, maxLength = 200)` of security.js: the empty
string for a non-string, else trim, escape, cut to `maxLength` code units. -/
def sanitizeInput (input : JSVal) (maxLength : Nat := 200) : JSString :=
  match input with
  | .str s =>
    let clean := trim s
    let clean := escape clean
    if clean.length > maxLength then clean.take maxLength else clean
  | _ => []

/-- The function `validateAnswerIndex(index, max = 3)` of security.js: `.ok none` is the
returned `null`. `max` is a non-negative integer below `2 ^ 53`, as the callers pass. -/
def validateAnswerIndex (index : JSVal) (max : Nat := 3) : Except Thrown (Option Int) :=
  match parseInt index 10 with
  | .error t => .error t
  | .ok none => .ok none
  | .ok (some num) => if num < 0 ∨ num > (max : Int) then .ok none else .ok (some num)

/-! ## api.js: the submission handler -/

/-- The constant `TOTAL_QUESTIONS` of api.js. -/
def TOTAL_QUESTIONS : Nat := 8

/-- The constant `MAX_OPTIONS` of api.js. -/
def MAX_OPTIONS : Nat := 4

/-- The constant `QUESTIONS` of api.js: the option texts of the server's copy of the
question bank. -/
def QUESTIONS : List (List JSString) :=
  [ [utf16 "ไม่โอเคสิคะ", utf16 "ช่างมันเถอะ", utf16 "ตั้งคำถามกับระบบ",
      utf16 "ไม่เป็นไร เรามีแผนสำรอง"],
    [utf16 "เข้าไปชวนพูดคุย", utf16 "เอากระทะไฟฟ้าที่พกติดตัวไว้ออกมา", utf16 "เดินเลี่ยง",
      utf16 "ทำไมต้องเจอมันด้วยเนี่ย"],
    [utf16 "ใช้เน็ตตัวเองก็ได้", utf16 "เปิดปิดไวไฟ 22 ครั้ง", utf16 "ทำไมต้องจบที่เรา",
      utf16 "ไม่ได้ก็ไม่เอาแล้ว"],
    [utf16 "(sub-question)", utf16 "(sub-question)", utf16 "(sub-question)",
      utf16 "(sub-question)"],
    [utf16 "ต่อสู้กับความหนาว", utf16 "ยอมแพ้แล้วไปหาที่นั่งทำงานที่อื่น", utf16 "ตั้งคำถามในหัว",
      utf16 "นั่งไปเดี๋ยวก็ชิน"],
    [utf16 "ลูบหัว จุ๊บพุงเบา ๆ", utf16 "วิ่งไปหาเอง", utf16 "ทักทายเหมียว ๆ",
      utf16 "ลุกขึ้นเต้นแช่วับ"],
    [utf16 "ต้องยืนตลอด", utf16 "ไม่ได้ขึ้นซักกกกที", utf16 "ยืนรอด้วยความหวังลม ๆ แล้ง ๆ",
      utf16 "ขึ้นแล้ว ลงยังไง"],
    [utf16 "มีศิลปินวงโปรด", utf16 "นิทรรศการถ่ายรูปสวย", utf16 "มีกิจกรรมเล่นกับเพื่อน",
      utf16 "ตลาดเด็ด"] ]

/-- The fields `handleSubmit` reads from `req.body` (an absent field is `undefined`)
and `req.ip`. -/
structure Request where
  username : JSVal
  answers : JSVal
  items : JSVal
  suggestion : JSVal
  personalityType : JSVal
  personalityName : JSVal
  personalityScores : JSVal
  ip : Option JSString

/-- What the surroundings hand to one call of `handleSubmit`: the identifier
`generateSessionId()` returns, the two renderings of `new Date()`, and whether the two
file operations fail. -/
structure Env where
  sessionId : JSString
  timestamp : JSString
  fileTimestamp : JSString
  writeFails : Bool
  excelFails : Bool

/-- The object `cleanData` that `handleSubmit` persists. `personalityScores` lists the
properties of `cleanScores` in insertion order. -/
structure Record where
  sessionId : JSString
  username : JSString
  answers : List JSString
  rawAnswers : List Int
  items : List JSString
  personalityType : JSString
  personalityName : JSString
  personalityScores : List (JSString × Int)
  suggestion : JSString
  timestamp : JSString
  ip : JSString
deriving DecidableEq, Repr

/-- The reply: `res.status(status).json({success, message})`. -/
structure Response where
  status : Nat
  success : Bool
  message : JSString
deriving DecidableEq, Repr

/-- The effects of one call of `handleSubmit`: the reply, the file `writeFile` created
(name and content), the record handed to `appendToExcelFile` when it was called, and
whether that call succeeded. -/
structure Outcome where
  response : Response
  written : Option (JSString × Record)
  excel : Option Record
  excelSaved : Bool
deriving DecidableEq, Repr

/-- How the answer loop of `handleSubmit` ends: an early `return` with 400 at index `i`,
an exception, or both arrays filled. -/
inductive LoopResult where
  | rejected (i : Nat)
  | threw (t : Thrown)
  | done (validatedAnswers : List Int) (readableAnswers : List JSString)
deriving DecidableEq, Repr

/-- The text pushed to `readableAnswers` for question `i`: the option text of the bank
when the question and a non-empty option exist, else the placeholder. -/
def readableAnswer (i : Nat) (validIndex : Int) : JSString :=
  match QUESTIONS[i]? with
  | some options =>
    match options[validIndex.toNat]? with
    | some text => if text.isEmpty then utf16 "Unknown (" ++ intText validIndex ++ utf16 ")" else text
    | none => utf16 "Unknown (" ++ intText validIndex ++ utf16 ")"
  | none => utf16 "Unknown (" ++ intText validIndex ++ utf16 ")"

/-- The loop `for (var i = 0; i < answers.length; i++)` of `handleSubmit`, from index
`i` on, over the remaining elements of `answers`. -/
def answersLoop : Nat → List JSVal → List Int → List JSString → LoopResult
  | _, [], validatedAnswers, readableAnswers => .done validatedAnswers readableAnswers
  | i, a :: rest, validatedAnswers, readableAnswers =>
    match validateAnswerIndex a (MAX_OPTIONS - 1) with
    | .error t => .threw t
    | .ok none => .rejected i
    | .ok (some validIndex) =>
      answersLoop (i + 1) rest (validatedAnswers ++ [validIndex])
        (readableAnswers ++ [readableAnswer i validIndex])

/-- The four keys `validTypes`. -/
def validTypes : List JSString := [utf16 "C", utf16 "P", utf16 "F", utf16 "L"]

/-- The expression `validTypes.includes(personalityType) ? personalityType : ''`. -/
def cleanType (personalityType : JSVal) : JSString :=
  match personalityType with
  | .str s => if validTypes.contains s then s else []
  | _ => []

/-- Property access `personalityScores[t]` for one of the four keys: an own property
of an object, `undefined` on an array. -/
def getProperty (o : JSVal) (t : JSString) : JSVal :=
  match o with
  | .obj fields => (fields.lookup t).getD .undefined
  | _ => .undefined

/-- The expression `Math.max(0, Math.min(99, parseInt(v) || 0))`. -/
def cleanScore (v : JSVal) : Except Thrown Int :=
  match parseInt v 0 with
  | .error t => .error t
  | .ok none => .ok 0
  | .ok (some n) => .ok (max 0 (min 99 n))

/-- The object `cleanScores`: empty unless `personalityScores` is truthy and of type
`'object'`, else one clamped entry per key of `validTypes`. -/
def cleanScores (personalityScores : JSVal) : Except Thrown (List (JSString × Int)) :=
  match personalityScores with
  | .arr _ | .obj _ =>
    validTypes.mapM fun t =>
      match cleanScore (getProperty personalityScores t) with
      | .error e => .error e
      | .ok n => .ok (t, n)
  | _ => .ok []

/-- The expression `v || ''` handed to `sanitizeInput`. -/
def orEmpty (v : JSVal) : JSVal := if v.truthy then v else .str []

/-- The name of the durable record: `'resp_' + safeTimestamp + '_' + sessionId +
'.json'`, where `safeTimestamp` is `fileTimestamp` with every `:` and `.` replaced by
`-`. -/
def jsonFilename (fileTimestamp sessionId : JSString) : JSString :=
  let safeTimestamp := fileTimestamp.map fun c => if c = 58 ∨ c = 46 then 45 else c
  utf16 "resp_" ++ safeTimestamp ++ utf16 "_" ++ sessionId ++ utf16 ".json"

/-- A reply with `success: false`. -/
def failure (status : Nat) (message : JSString) : Outcome :=
  ⟨⟨status, false, message⟩, none, none, false⟩

/-- What the `catch` block of `handleSubmit` answers. -/
def submitFailed : Outcome := failure 500 (utf16 "เกิดข้อผิดพลาดในการบันทึกข้อมูล")

/-- The function `handleSubmit(req, res)` of api.js: validation with early 400
replies, sanitisation, the JSON write, the spreadsheet append whose failure is
swallowed, and the `catch` block answering 500 for anything thrown. -/
def handleSubmit (env : Env) (req : Request) : Outcome :=
  match req.username with
  | .str (u :: us) =>
    match req.answers with
    | .arr answers =>
      if answers.length ≠ TOTAL_QUESTIONS then
        failure 400 (utf16 "ต้องมีคำตอบ " ++ natText TOTAL_QUESTIONS ++ utf16 " ข้อ")
      else
        match answersLoop 0 answers [] [] with
        | .rejected i => failure 400 (utf16 "คำตอบข้อ " ++ natText (i + 1) ++ utf16 " ไม่ถูกต้อง")
        | .threw _ => submitFailed
        | .done validatedAnswers readableAnswers =>
          match req.items with
          | .arr items =>
            if items.length ≠ TOTAL_QUESTIONS then
              failure 400 (utf16 "ข้อมูลไอเทมไม่ถูกต้อง")
            else
              match cleanScores req.personalityScores, items.mapM ToString with
              | .ok scores, .ok itemTexts =>
                let cleanData : Record :=
                  { sessionId := env.sessionId
                    username := sanitizeInput (.str (u :: us)) 30
                    answers := readableAnswers
                    rawAnswers := validatedAnswers
                    items := itemTexts.map fun item => sanitizeInput (.str item) 100
                    personalityType := cleanType req.personalityType
                    personalityName := sanitizeInput (orEmpty req.personalityName) 50
                    personalityScores := scores
                    suggestion := sanitizeInput (orEmpty req.suggestion) 500
                    timestamp := env.timestamp
                    ip := match req.ip with
                      | some (c :: cs) => c :: cs
                      | _ => utf16 "unknown" }
                if env.writeFails then submitFailed
                else
                  ⟨⟨200, true, utf16 "บันทึกข้อมูลสำเร็จ! ขอบคุณที่ร่วมสนุก 🎉"⟩,
                    some (jsonFilename env.fileTimestamp env.sessionId, cleanData),
                    some cleanData, !env.excelFails⟩
              | _, _ => submitFailed
          | _ => failure 400 (utf16 "ข้อมูลไอเทมไม่ถูกต้อง")
    | _ => failure 400 (utf16 "ต้องมีคำตอบ " ++ natText TOTAL_QUESTIONS ++ utf16 " ข้อ")
  | _ => failure 400 (utf16 "กรุณาระบุชื่อผู้ใช้")

/-! ## Notions used in the statements -/

/-- The value of a list of decimal digits, most significant first. -/
def digitsValue (ds : List Nat) : Nat := ds.foldl (fun acc d => acc * 10 + d) 0

/-- Whether a code unit is one of `'0'..'9'`. -/
def isDecimalDigit (c : Nat) : Bool := decide (48 ≤ c ∧ c ≤ 57)

/-- After leading white space and an optional sign, the string starts with a decimal
digit. -/
def startsWithInteger (s : JSString) : Bool :=
  let S := s.dropWhile isWhiteSpace
  let S := if S.head? == some 45 || S.head? == some 43 then S.drop 1 else S
  match S.head? with
  | some c => isDecimalDigit c
  | none => false

/-- The replacement of one code unit as the specification words it: `&` becomes
`&amp;`, `<` becomes `&lt;`, `>` becomes `&gt;`, `"` becomes `&quot;`, `/` becomes
`&#x2F;`, the three further characters `validator.escape` handles (apostrophe,
backslash, backtick) become `&#x27;`, `&#x5C;`, `&#96;`, and every other code unit
stays. -/
def escapeChar (c : Nat) : JSString :=
  if c = 38 then utf16 "&amp;"
  else if c = 60 then utf16 "&lt;"
  else if c = 62 then utf16 "&gt;"
  else if c = 34 then utf16 "&quot;"
  else if c = 47 then utf16 "&#x2F;"
  else if c = 39 then utf16 "&#x27;"
  else if c = 92 then utf16 "&#x5C;"
  else if c = 96 then utf16 "&#96;"
  else [c]

/-- Whether escaping changes the code unit. -/
def isEscaped (c : Nat) : Bool :=
  c == 38 || c == 60 || c == 62 || c == 34 || c == 47 || c == 39 || c == 92 || c == 96

/-- Whether `s` starts with `text`. -/
def startsWith (text s : JSString) : Bool := s.take text.length == text

/-- What follows the `&` in the entities that escaping writes. -/
def entityBodies : List JSString :=
  [utf16 "amp;", utf16 "lt;", utf16 "gt;", utf16 "quot;", utf16 "#x2F;", utf16 "#x27;",
    utf16 "#x5C;", utf16 "#96;"]

/-- No markup character in raw form: none of `<`, `>`, `"`, `/` occurs, and every `&`
is the start of one of the entities. -/
def noRawMarkup : JSString → Bool
  | [] => true
  | c :: rest =>
    c != 60 && c != 62 && c != 34 && c != 47 &&
      (c != 38 || entityBodies.any fun body => startsWith body rest) && noRawMarkup rest

/-- The request body is valid in the sense of C1: `answers` is an array of exactly
`TOTAL_QUESTIONS` elements, each of which `validateAnswerIndex(., 3)` maps to an
integer in `[0, 3]`, and `items` is an array of exactly `TOTAL_QUESTIONS` elements. -/
def validBody (req : Request) : Prop :=
  (∃ l, req.answers = .arr l ∧ l.length = TOTAL_QUESTIONS ∧
    ∀ a ∈ l, ∃ n : Int, validateAnswerIndex a 3 = .ok (some n) ∧ 0 ≤ n ∧ n ≤ 3) ∧
  (∃ items, req.items = .arr items ∧ items.length = TOTAL_QUESTIONS)

/-- The Number of a small non-negative integer literal. -/
def numLit (n : Nat) : JSVal := .num (.ofInt n)

/-- The payload `validPayload` of api.test.js: ten answers and ten items. -/
def validPayload : Request where
  username := .str (utf16 "testuser")
  answers := .arr [numLit 0, numLit 1, numLit 2, numLit 3, numLit 0, numLit 1, numLit 2,
    numLit 3, numLit 0, numLit 1]
  items := .arr [.str (utf16 "item1"), .str (utf16 "item2"), .str (utf16 "item3"),
    .str (utf16 "item4"), .str (utf16 "item5"), .str (utf16 "item6"), .str (utf16 "item7"),
    .str (utf16 "item8"), .str (utf16 "item9"), .str (utf16 "item10")]
  suggestion := .str (utf16 "Great quiz!")
  personalityType := .undefined
  personalityName := .undefined
  personalityScores := .undefined
  ip := some (utf16 "127.0.0.1")

/-- A request with eight answers and eight items, as the handler requires. -/
def eightAnswers (username : JSVal) (answers : List JSVal) : Request where
  username := username
  answers := .arr answers
  items := .arr [.str (utf16 "item1"), .str (utf16 "item2"), .str (utf16 "item3"),
    .str (utf16 "item4"), .str (utf16 "item5"), .str (utf16 "item6"), .str (utf16 "item7"),
    .str (utf16 "item8")]
  suggestion := .str (utf16 "Great quiz!")
  personalityType := .undefined
  personalityName := .undefined
  personalityScores := .undefined
  ip := some (utf16 "127.0.0.1")

/-- An answer element read from the JSON text `\x7b"toString": null\x7d`: an object
whose own property `toString` is not callable. -/
def throwingAnswer : JSVal := .obj [(utf16 "toString", .null)]

/-- Eight answers within range, the first eight of the test payload. -/
def goodAnswers : List JSVal :=
  [numLit 0, numLit 1, numLit 2, numLit 3, numLit 0, numLit 1, numLit 2, numLit 3]

/-- Whether `validateAnswerIndex(a, 3)` returns an integer in `[0, 3]`. -/
def acceptsAnswer (a : JSVal) : Bool :=
  match validateAnswerIndex a 3 with
  | .ok (some n) => decide (0 ≤ n ∧ n ≤ 3)
  | _ => false

/-- Surroundings in which both file operations succeed. -/
def calmEnv : Env where
  sessionId := utf16 "0123456789abcdef"
  timestamp := utf16 "6/11/2569 08:41:00"
  fileTimestamp := utf16 "2026-11-06T01:41:00.000Z"
  writeFails := false
  excelFails := false

/-! ## app.js: the quiz state machine

The question bank `QUESTIONS` and the result table `PERSONALITY_RESULTS` live in
`public/js/data.js`, which is not under `src/`: the bank is a parameter
of every function below, and the table is taken to hold a result for each of the four
keys. The elements of the page that the handlers look up are taken to exist, as are the
display-only fields of a question (texts, prompts, images); where a handler would throw
on missing data it stops there, and the state is what it was at that point. -/

namespace App

/-- A reward record of the question bank. -/
structure Reward where
  name : JSString
  desc : JSString
  img : JSString
deriving DecidableEq, Repr

/-- A sub-question of the bank: option texts, one reward per option, and the optional
arrays and texts `selectAnswer` reads. -/
structure SubQuestion where
  options : List JSString
  rewards : List Reward
  types : Option (List JSString)
  revealSubtitle : Option JSString
deriving DecidableEq, Repr

/-- A top-level question of the bank, with its optional shared `subQuestion` or
per-option `subQuestions`. -/
structure Question where
  options : List JSString
  rewards : List Reward
  types : Option (List JSString)
  revealSubtitle : Option JSString
  subQuestion : Option SubQuestion
  subQuestions : Option (List SubQuestion)
deriving DecidableEq, Repr

/-- The object `personalityScores`: its four counters. Properties under other names
are not tracked. -/
structure Scores where
  C : Int
  P : Int
  F : Int
  L : Int
deriving DecidableEq, Repr

/-- The screens `goTo` switches between. -/
inductive Page where
  | cover
  | question
  | reveal
  | summary
  | suggest
  | final
deriving DecidableEq, Repr

/-- The module-level state of app.js, the screen that is active, the number of option
buttons `renderOptions` last put on the question screen, and the key of the result
`renderSummary` last displayed. -/
structure State where
  currentQuestion : Nat
  userName : JSString
  collectedItems : List (Option Reward)
  selectedAnswers : List Nat
  personalityScores : Scores
  isInSubQuestion : Bool
  subQuestionData : Option SubQuestion
  parentSelectionIndex : Int
  page : Page
  optionCount : Nat
  summaryType : Option JSString
deriving DecidableEq, Repr

/-- The state when the script has loaded: the initial values of the variables, the
cover screen, nothing rendered. -/
def initialState : State where
  currentQuestion := 0
  userName := []
  collectedItems := []
  selectedAnswers := []
  personalityScores := ⟨0, 0, 0, 0⟩
  isInSubQuestion := false
  subQuestionData := none
  parentSelectionIndex := -1
  page := .cover
  optionCount := 0
  summaryType := none

/-- Property read `personalityScores[key]`: `none` is `undefined`. -/
def Scores.get (scores : Scores) (key : JSString) : Option Int :=
  if key = utf16 "C" then some scores.C
  else if key = utf16 "P" then some scores.P
  else if key = utf16 "F" then some scores.F
  else if key = utf16 "L" then some scores.L
  else none

/-- The statements `if (personalityScores[pType] !== undefined) personalityScores[pType]++`. -/
def Scores.bump (scores : Scores) (pType : JSString) : Scores :=
  if pType = utf16 "C" then { scores with C := scores.C + 1 }
  else if pType = utf16 "P" then { scores with P := scores.P + 1 }
  else if pType = utf16 "F" then { scores with F := scores.F + 1 }
  else if pType = utf16 "L" then { scores with L := scores.L + 1 }
  else scores

/-- The array `typeKeys` of `renderSummary` and of `submitSuggestion`. -/
def typeKeys : List JSString := [utf16 "C", utf16 "P", utf16 "F", utf16 "L"]

/-- The loop of `renderSummary` that determines `maxType`: start from `'C'` and 0, and
take over each key whose counter is strictly greater than the maximum so far. -/
def renderSummaryType (personalityScores : Scores) : JSString :=
  (typeKeys.foldl
    (fun (acc : JSString × Int) key =>
      match personalityScores.get key with
      | some count => if count > acc.2 then (key, count) else acc
      | none => acc)
    (utf16 "C", 0)).1

/-- The loop of `submitSuggestion` that determines `maxType`, a second copy of the one
in `renderSummary`. -/
def submitSuggestionType (personalityScores : Scores) : JSString :=
  (typeKeys.foldl
    (fun (acc : JSString × Int) key =>
      match personalityScores.get key with
      | some count => if count > acc.2 then (key, count) else acc
      | none => acc)
    (utf16 "C", 0)).1

/-- The function `renderQuestion`: the sub-question state is reset first; then the
question is displayed, which throws when there is no question at `currentQuestion`
(the flag is `false` then); last the option buttons are rendered. -/
def renderQuestion (QUESTIONS : List Question) (s : State) : State × Bool :=
  let s := { s with isInSubQuestion := false, subQuestionData := none,
                    parentSelectionIndex := -1 }
  match QUESTIONS[s.currentQuestion]? with
  | none => (s, false)
  | some q => ({ s with optionCount := q.options.length }, true)

/-- The function `submitName`, on the text of the name field: an empty trimmed name is
refused (only `userName` has been assigned); else the name is cut to 30 code units, the
accumulators are reset, question 0 is rendered and the question screen shown. -/
def submitName (QUESTIONS : List Question) (s : State) (value : JSString) : State :=
  let userName := trim value
  if userName.isEmpty then { s with userName := userName }
  else
    let userName := if userName.length > 30 then userName.take 30 else userName
    let s := { s with userName := userName, currentQuestion := 0, collectedItems := [],
                      selectedAnswers := [], personalityScores := ⟨0, 0, 0, 0⟩ }
    match renderQuestion QUESTIONS s with
    | (s, true) => { s with page := .question }
    | (s, false) => s

/-- The function `renderSubQuestion(parentQ, selectedIndex)`: the per-option array is
indexed when present, else the shared sub-question is taken; the three state variables
are set; then the sub-question is displayed (which throws when there is none) and its
options rendered. -/
def renderSubQuestion (parentQ : Question) (selectedIndex : Nat) (s : State) : State :=
  let sub :=
    match parentQ.subQuestions with
    | some subQuestions => subQuestions[selectedIndex]?
    | none => parentQ.subQuestion
  let s := { s with isInSubQuestion := true, subQuestionData := sub,
                    parentSelectionIndex := selectedIndex }
  match sub with
  | none => s
  | some sub => { s with optionCount := sub.options.length }

/-- The second half of `selectAnswer`, from `var reward = activeQ.rewards[optionIndex]`
on, given the rewards of the active question, the value of `activeQ.types || q.types`
(`none` when evaluating it throws) and whether the subtitle can be read. The answer and
the reward are pushed, the counter of a recognised tag is raised, and, unless something
threw on the way (a missing reward throws at `reward.name`), the sub-question state is
reset and the reveal screen shown. -/
def reveal (s : State) (optionIndex : Nat) (rewards : List Reward)
    (types : Option (Option (List JSString))) (subtitleReadable : Bool) : State :=
  let reward := rewards[optionIndex]?
  let s := { s with selectedAnswers := s.selectedAnswers ++ [optionIndex],
                    collectedItems := s.collectedItems ++ [reward] }
  match types with
  | none => s
  | some types =>
    let s :=
      match types with
      | some types =>
        match types[optionIndex]? with
        | some pType =>
          if pType.isEmpty then s
          else { s with personalityScores := s.personalityScores.bump pType }
        | none => s
      | none => s
    if !subtitleReadable then s
    else
      match reward with
      | none => s
      | some _ =>
        { s with isInSubQuestion := false, subQuestionData := none,
                 parentSelectionIndex := -1, page := .reveal }

/-- Whether a text field is truthy. -/
def truthyText (t : Option JSString) : Bool :=
  match t with
  | some text => !text.isEmpty
  | none => false

/-- The function `selectAnswer(optionIndex)`. Outside a sub-question, a question that
declares `subQuestion` or `subQuestions` only opens the sub-question; otherwise the
active question (the sub-question when inside one) is scored by `reveal`. Reading a
property of a missing question or sub-question throws and leaves the state as it is. -/
def selectAnswer (QUESTIONS : List Question) (s : State) (optionIndex : Nat) : State :=
  match s.isInSubQuestion, QUESTIONS[s.currentQuestion]? with
  | false, none => s
  | false, some q =>
    if q.subQuestion.isSome || q.subQuestions.isSome then renderSubQuestion q optionIndex s
    else reveal s optionIndex q.rewards (some q.types) true
  | true, q =>
    match s.subQuestionData with
    | none => s
    | some activeQ =>
      reveal s optionIndex activeQ.rewards
        (match activeQ.types with
          | some types => some (some types)
          | none => q.map fun q => q.types)
        (truthyText activeQ.revealSubtitle || q.isSome)

/-- The function `nextQuestion`: the index is raised; below `QUESTIONS.length` the next
question is rendered and shown, else `renderSummary` displays the result of the key
its loop determines and the summary screen is shown. -/
def nextQuestion (QUESTIONS : List Question) (s : State) : State :=
  let s := { s with currentQuestion := s.currentQuestion + 1 }
  if s.currentQuestion < QUESTIONS.length then
    match renderQuestion QUESTIONS s with
    | (s, true) => { s with page := .question }
    | (s, false) => s
  else
    { s with summaryType := some (renderSummaryType s.personalityScores), page := .summary }

/-- The states the quiz can be in: the initial state, and what the three handlers make
of a reachable state when the control that calls them is on the active screen (the
name field and start button on the cover, the option buttons rendered on the question
screen, the next button on the reveal screen). -/
inductive Reachable (QUESTIONS : List Question) : State → Prop where
  | init : Reachable QUESTIONS initialState
  | start (s : State) (value : JSString) : Reachable QUESTIONS s → s.page = .cover →
      Reachable QUESTIONS (submitName QUESTIONS s value)
  | select (s : State) (optionIndex : Nat) : Reachable QUESTIONS s → s.page = .question →
      optionIndex < s.optionCount → Reachable QUESTIONS (selectAnswer QUESTIONS s optionIndex)
  | next (s : State) : Reachable QUESTIONS s → s.page = .reveal →
      Reachable QUESTIONS (nextQuestion QUESTIONS s)

/-- The invariant of the question model in the specification: every question and
sub-question has as many rewards as options, and a per-option array holds one
sub-question per option. -/
def WellFormed (QUESTIONS : List Question) : Prop :=
  ∀ q ∈ QUESTIONS, q.options.length = q.rewards.length ∧
    (∀ sub, q.subQuestion = some sub → sub.options.length = sub.rewards.length) ∧
    (∀ subs, q.subQuestions = some subs → subs.length = q.options.length ∧
      ∀ sub ∈ subs, sub.options.length = sub.rewards.length)

/-- The sum of the four counters. -/
def Scores.total (scores : Scores) : Int := scores.C + scores.P + scores.F + scores.L

/-- The first key, in the order C, P, F, L, whose counter equals the greatest of the
four counters. -/
def firstMaxKey (scores : Scores) : JSString :=
  let m := max (max scores.C scores.P) (max scores.F scores.L)
  if scores.C = m then utf16 "C"
  else if scores.P = m then utf16 "P"
  else if scores.F = m then utf16 "F"
  else utf16 "L"

/-- The tag that a resolved `types` array holds at an index: the element there, when
the array and the element exist and the element is not the empty string. -/
def tagAt (types : Option (List JSString)) (i : Nat) : Option JSString :=
  match types with
  | some ts =>
    match ts[i]? with
    | some pType => if pType.isEmpty then none else some pType
    | none => none
  | none => none

/-- The counters after a tag has been scored: the counter of a recognised tag raised by
one, nothing changed without a tag. -/
def scored (scores : Scores) (tag : Option JSString) : Scores :=
  match tag with
  | some pType => scores.bump pType
  | none => scores

/-- The sub-question that option `i` of a question opens: the entry of the per-option
array when the array is present, else the shared sub-question. -/
def subQuestionOf (q : Question) (i : Nat) : Option SubQuestion :=
  match q.subQuestions with
  | some subQuestions => subQuestions[i]?
  | none => q.subQuestion

/-- The value of `activeQ.types || q.types`: the array of the active question when it
has one, else the array of the top-level question. -/
def resolvedTypes (activeTypes parentTypes : Option (List JSString)) :
    Option (List JSString) :=
  match activeTypes with
  | some types => some types
  | none => parentTypes

/-- The counters are non-negative and their sum is at most the number of recorded
answers. -/
def ScoreInv (s : State) : Prop :=
  0 ≤ s.personalityScores.C ∧ 0 ≤ s.personalityScores.P ∧ 0 ≤ s.personalityScores.F ∧
    0 ≤ s.personalityScores.L ∧ s.personalityScores.total ≤ s.selectedAnswers.length

/-- Where the index stands on each screen: never beyond the bank, inside it while a
question or a reveal is shown, and on the cover of a non-empty quiz nothing has
happened yet. -/
def PageInv (QUESTIONS : List Question) (s : State) : Prop :=
  s.currentQuestion ≤ QUESTIONS.length ∧
    (s.page = .question ∨ s.page = .reveal → s.currentQuestion < QUESTIONS.length) ∧
    (s.page = .cover → QUESTIONS ≠ [] → s = initialState)

/-- The two lists have one entry per answered question: as many as the index on every
screen but the reveal, where the answer just given is already recorded; and on the
question screen the rendered buttons are those of the question or sub-question being
asked. -/
def CountInv (QUESTIONS : List Question) (s : State) : Prop :=
  s.selectedAnswers.length = s.collectedItems.length ∧
    (s.page = .reveal → s.selectedAnswers.length = s.currentQuestion + 1) ∧
    (s.page ≠ .reveal → s.selectedAnswers.length = s.currentQuestion) ∧
    (s.page = .question → ∃ q, QUESTIONS[s.currentQuestion]? = some q ∧
      (s.isInSubQuestion = false → s.optionCount = q.options.length) ∧
      (s.isInSubQuestion = true → ∃ sub, s.subQuestionData = some sub ∧
        s.optionCount = sub.options.length ∧ sub.options.length = sub.rewards.length))

/-- A reward named by one letter. -/
def sampleReward (name : String) : Reward := ⟨utf16 name, utf16 "desc", utf16 "img"⟩

/-- A question without sub-question, its options tagged `C` and `P`. -/
def plainQuestion : Question where
  options := [utf16 "a", utf16 "b"]
  rewards := [sampleReward "A", sampleReward "B"]
  types := some [utf16 "C", utf16 "P"]
  revealSubtitle := none
  subQuestion := none
  subQuestions := none

/-- A shared sub-question that has no `types` array of its own. -/
def untaggedSub : SubQuestion where
  options := [utf16 "e", utf16 "f"]
  rewards := [sampleReward "E", sampleReward "F"]
  types := none
  revealSubtitle := none

/-- A question tagged `F` and `L` whose options all lead to the shared sub-question
`untaggedSub`. -/
def sharedQuestion : Question where
  options := [utf16 "c", utf16 "d"]
  rewards := [sampleReward "C", sampleReward "D"]
  types := some [utf16 "F", utf16 "L"]
  revealSubtitle := none
  subQuestion := some untaggedSub
  subQuestions := none

/-- A question with one sub-question per option, each with its own tags (`X` is not a
trait key). -/
def perOptionQuestion : Question where
  options := [utf16 "g", utf16 "h"]
  rewards := [sampleReward "G", sampleReward "H"]
  types := some [utf16 "C", utf16 "C"]
  revealSubtitle := none
  subQuestion := none
  subQuestions := some
    [ { options := [utf16 "i", utf16 "j"], rewards := [sampleReward "I", sampleReward "J"],
        types := some [utf16 "L", utf16 "F"], revealSubtitle := none },
      { options := [utf16 "k", utf16 "l"], rewards := [sampleReward "K", sampleReward "L"],
        types := some [utf16 "P", utf16 "X"], revealSubtitle := none } ]

/-- A small bank of the three kinds of question. -/
def sampleBank : List Question := [plainQuestion, sharedQuestion, perOptionQuestion]

/-- The state after the name `Dao` has been entered on the cover of the sample quiz. -/
def started : State := submitName sampleBank initialState (utf16 "Dao")

/-- The sample quiz at a given question, nothing answered there yet. -/
def atQuestion (n : Nat) : State := { started with currentQuestion := n }

end App

/-- Whether a text, after leading white space and an optional sign, starts with the
hexadecimal marker `0x` or `0X` that `parseInt` strips when no radix is given. -/
def hexMarker (inputString : JSString) : Bool :=
  let S := inputString.dropWhile isWhiteSpace
  let S := if S.head? == some 45 || S.head? == some 43 then S.drop 1 else S
  S.take 2 == [48, 120] || S.take 2 == [48, 88]

/-- Whether a value is truthy and of type `'object'`: an array or an object. -/
def isObjectValue (v : JSVal) : Bool :=
  match v with
  | .arr _ => true
  | .obj _ => true
  | _ => false

/-- A request with eight valid answers, eight items and the given `personalityScores`. -/
def withScores (personalityScores : JSVal) : Request :=
  { eightAnswers (.str (utf16 "testuser")) goodAnswers with
    personalityScores := personalityScores }

/-- The scores object `\x7b"C": 120, "P": -5, "F": 3\x7d`, with no entry for `L`. -/
def sampleScores : JSVal :=
  .obj [(utf16 "C", .num (.ofInt 120)), (utf16 "P", .num (.ofInt (-5))),
    (utf16 "F", .num (.ofInt 3))]

/-! ## api.js: the key check, the data directory and the spreadsheet -/

/-- What a middleware does with a request: it calls `next()`, or it replies itself. -/
inductive Middleware where
  | next
  | reply (response : Response)
deriving DecidableEq, Repr

/-- The middleware `requireApiKey(req, res, next)` of api.js. `apiKey` is
`process.env.ADMIN_API_KEY` and `providedKey` the header `x-api-key`; `none` is
`undefined` (variable unset, header absent). -/
def requireApiKey (apiKey providedKey : Option JSString) : Middleware :=
  if apiKey.all List.isEmpty then .next
  else if providedKey.all List.isEmpty || providedKey != apiKey then
    .reply ⟨401, false, utf16 "Unauthorized — API Key required"⟩
  else .next

/-- A route registered as `router.get(path, requireApiKey, handler)`: the handler runs
when the middleware calls `next()`; `none` stands for a handler that did not run. -/
def protectedRoute {β : Type} (apiKey providedKey : Option JSString) (handler : β) :
    Middleware × Option β :=
  match requireApiKey apiKey providedKey with
  | .next => (.next, some handler)
  | .reply response => (.reply response, none)

/-- The method `String.prototype.endsWith`. -/
def endsWith (text s : JSString) : Bool :=
  decide (text.length ≤ s.length) && s.drop (s.length - text.length) == text

/-- The function `getResponseFiles()` of api.js over the files of `DATA_DIR` (none when
the directory does not exist): those named `resp_….json`. A file is its name and
what it holds. -/
def getResponseFiles {α : Type} (dir : List (JSString × α)) : List (JSString × α) :=
  dir.filter fun f => startsWith (utf16 "resp_") f.1 && endsWith (utf16 ".json") f.1

/-- The call `fs.promises.writeFile(path, content)` when it succeeds: the file is
created, or, when a file of that name exists, its content is replaced. -/
def writeFile {α : Type} (dir : List (JSString × α)) (name : JSString) (content : α) :
    List (JSString × α) :=
  if dir.any (fun f => f.1 == name) then
    dir.map fun f => if f.1 == name then (name, content) else f
  else dir ++ [(name, content)]

/-- The data directory after one call of `handleSubmit` with the given outcome. -/
def directoryAfter (dir : List (JSString × Record)) (outcome : Outcome) :
    List (JSString × Record) :=
  match outcome.written with
  | some (name, cleanData) => writeFile dir name cleanData
  | none => dir

/-- The data directory after the server has handled the given submissions one after
the other, starting from `dir`. Each call comes with what `generateSessionId()`,
`new Date()` and the file system gave it. -/
def directoryAfterAll (dir : List (JSString × Record)) (calls : List (Env × Request)) :
    List (JSString × Record) :=
  calls.foldl (fun dir call => directoryAfter dir (handleSubmit call.1 call.2)) dir

/-- Whether `handleSubmit` accepts the submission: it answers 200. -/
def accepted (call : Env × Request) : Bool :=
  (handleSubmit call.1 call.2).response.status == 200

/-- A call in the millisecond of `calmEnv` for which `crypto.randomBytes(8)` gave
another value. -/
def laterEnv : Env := { calmEnv with sessionId := utf16 "fedcba9876543210" }

/-- Whether a text has the form of `Date.prototype.toISOString()` for the years 0000 to
9999: `YYYY-MM-DDTHH:mm:ss.sssZ`. -/
def isISOTimestamp (t : JSString) : Bool :=
  match t with
  | [y1, y2, y3, y4, 45, m1, m2, 45, d1, d2, 84, h1, h2, 58, n1, n2, 58, s1, s2, 46,
      f1, f2, f3, 90] =>
    [y1, y2, y3, y4, m1, m2, d1, d2, h1, h2, n1, n2, s1, s2, f1, f2, f3].all isDecimalDigit
  | _ => false

/-- One column of the worksheet: `\x7bheader, key, width\x7d`. -/
structure Column where
  header : JSString
  key : JSString
  width : Nat
deriving DecidableEq, Repr

/-- The array `columns` that `handleExport` builds before it assigns it to
`worksheet.columns`. -/
def exportColumns : List Column :=
  let columns : List Column :=
    [⟨utf16 "Session ID", utf16 "sessionId", 20⟩, ⟨utf16 "Timestamp", utf16 "timestamp", 22⟩,
      ⟨utf16 "Username", utf16 "username", 15⟩]
  let columns := (List.range' 1 TOTAL_QUESTIONS).foldl
    (fun columns q => columns ++ [⟨utf16 "Q" ++ natText q, utf16 "q" ++ natText q, 20⟩]) columns
  let columns := (List.range' 1 TOTAL_QUESTIONS).foldl
    (fun columns t => columns ++ [⟨utf16 "Item " ++ natText t, utf16 "item" ++ natText t, 16⟩])
    columns
  let columns := columns ++ [⟨utf16 "Result Type", utf16 "personalityType", 10⟩]
  let columns := columns ++ [⟨utf16 "Result Name", utf16 "personalityName", 25⟩]
  let columns := columns ++ [⟨utf16 "Score C", utf16 "scoreC", 10⟩]
  let columns := columns ++ [⟨utf16 "Score P", utf16 "scoreP", 10⟩]
  let columns := columns ++ [⟨utf16 "Score F", utf16 "scoreF", 10⟩]
  let columns := columns ++ [⟨utf16 "Score L", utf16 "scoreL", 10⟩]
  let columns := columns ++ [⟨utf16 "Suggestion", utf16 "suggestion", 40⟩]
  columns ++ [⟨utf16 "IP Address", utf16 "ip", 16⟩]

/-- The array literal that `appendToExcelFile` assigns to `worksheet.columns` of a new
workbook. -/
def appendColumns : List Column :=
  [ ⟨utf16 "Session ID", utf16 "sessionId", 20⟩,
    ⟨utf16 "Timestamp", utf16 "timestamp", 22⟩,
    ⟨utf16 "Username", utf16 "username", 15⟩,
    ⟨utf16 "Q1", utf16 "q1", 20⟩,
    ⟨utf16 "Q2", utf16 "q2", 20⟩,
    ⟨utf16 "Q3", utf16 "q3", 20⟩,
    ⟨utf16 "Q4", utf16 "q4", 20⟩,
    ⟨utf16 "Q5", utf16 "q5", 20⟩,
    ⟨utf16 "Q6", utf16 "q6", 20⟩,
    ⟨utf16 "Q7", utf16 "q7", 20⟩,
    ⟨utf16 "Q8", utf16 "q8", 20⟩,
    ⟨utf16 "Item 1", utf16 "item1", 16⟩,
    ⟨utf16 "Item 2", utf16 "item2", 16⟩,
    ⟨utf16 "Item 3", utf16 "item3", 16⟩,
    ⟨utf16 "Item 4", utf16 "item4", 16⟩,
    ⟨utf16 "Item 5", utf16 "item5", 16⟩,
    ⟨utf16 "Item 6", utf16 "item6", 16⟩,
    ⟨utf16 "Item 7", utf16 "item7", 16⟩,
    ⟨utf16 "Item 8", utf16 "item8", 16⟩,
    ⟨utf16 "Result Type", utf16 "personalityType", 10⟩,
    ⟨utf16 "Result Name", utf16 "personalityName", 25⟩,
    ⟨utf16 "Score C", utf16 "scoreC", 10⟩,
    ⟨utf16 "Score P", utf16 "scoreP", 10⟩,
    ⟨utf16 "Score F", utf16 "scoreF", 10⟩,
    ⟨utf16 "Score L", utf16 "scoreL", 10⟩,
    ⟨utf16 "Suggestion", utf16 "suggestion", 40⟩,
    ⟨utf16 "IP Address", utf16 "ip", 16⟩ ]

/-- Member access `data.key` for the keys the row shaping reads, none of which is a
property of a prototype: a TypeError on `undefined` and `null`, an own property of an
object, and `undefined` otherwise. -/
def member (data : JSVal) (key : JSString) : Except Thrown JSVal :=
  match data with
  | .undefined => .error .typeError
  | .null => .error .typeError
  | .obj fields => .ok ((fields.lookup key).getD .undefined)
  | _ => .ok .undefined

/-- Element access `value[j]` with a small index: a TypeError on `undefined` and
`null`, the element of an array, the character of a string, the property named by the
decimal text of `j` of an object, and `undefined` otherwise. -/
def elementAt (value : JSVal) (j : Nat) : Except Thrown JSVal :=
  match value with
  | .undefined => .error .typeError
  | .null => .error .typeError
  | .arr elems => .ok (elems.getD j .undefined)
  | .str s => .ok (match s[j]? with
    | some c => .str [c]
    | none => .undefined)
  | .obj fields => .ok ((fields.lookup (natText j)).getD .undefined)
  | _ => .ok .undefined

/-- The expression `value || fallback`. -/
def orElse (value fallback : JSVal) : JSVal := if value.truthy then value else fallback

/-- The object `rowData` handed to `worksheet.addRow`: its properties in the order they
are assigned. -/
abbrev RowData := List (JSString × JSVal)

/-- The four score cells `scores.C || 0` to `scores.L || 0`, where `scores` is
`data.personalityScores || \x7b\x7d`. -/
def scoreCells (data : JSVal) : Except Thrown RowData :=
  match member data (utf16 "personalityScores") with
  | .error t => .error t
  | .ok personalityScores =>
    let scores := orElse personalityScores (.obj [])
    .ok ([(utf16 "scoreC", utf16 "C"), (utf16 "scoreP", utf16 "P"), (utf16 "scoreF", utf16 "F"),
      (utf16 "scoreL", utf16 "L")].map fun (key, t) =>
        (key, orElse (getProperty scores t) (numLit 0)))

/-- The two result cells `data.personalityType || ''` and `data.personalityName || ''`. -/
def resultCells (data : JSVal) : Except Thrown RowData :=
  match member data (utf16 "personalityType"), member data (utf16 "personalityName") with
  | .ok personalityType, .ok personalityName =>
    .ok [(utf16 "personalityType", orElse personalityType (.str [])),
      (utf16 "personalityName", orElse personalityName (.str []))]
  | .error t, _ => .error t
  | _, .error t => .error t

/-- The loop `for (var j = 0; j < TOTAL_QUESTIONS; j++)` of the row shaping in
`handleExport`, from `j` on for `n` more rounds: `q(j+1)` is `data.answers[j]` unless
that is `undefined`, `item(j+1)` is `data.items[j] || ''` when `data.items` is truthy. -/
def exportLoop (data : JSVal) : Nat → Nat → RowData → Except Thrown RowData
  | 0, _, rowData => .ok rowData
  | n + 1, j, rowData =>
    match member data (utf16 "answers") with
    | .error t => .error t
    | .ok answers =>
      match elementAt answers j with
      | .error t => .error t
      | .ok answer =>
        let q : JSVal := match answer with
          | .undefined => .str []
          | v => v
        match member data (utf16 "items") with
        | .error t => .error t
        | .ok items =>
          let item : Except Thrown JSVal :=
            if items.truthy then
              match elementAt items j with
              | .error t => .error t
              | .ok e => .ok (orElse e (.str []))
            else .ok (.str [])
          match item with
          | .error t => .error t
          | .ok item =>
            exportLoop data n (j + 1)
              (rowData ++ [(utf16 "q" ++ natText (j + 1), q),
                (utf16 "item" ++ natText (j + 1), item)])

/-- The object `rowData` that `handleExport` hands to `worksheet.addRow` for one parsed
file `data`. -/
def exportRowData (data : JSVal) : Except Thrown RowData :=
  match member data (utf16 "sessionId"), member data (utf16 "timestamp"),
    member data (utf16 "username"), member data (utf16 "suggestion"),
    member data (utf16 "ip") with
  | .ok sessionId, .ok timestamp, .ok username, .ok suggestion, .ok ip =>
    let rowData : RowData :=
      [(utf16 "sessionId", sessionId), (utf16 "timestamp", timestamp),
        (utf16 "username", username), (utf16 "suggestion", orElse suggestion (.str [])),
        (utf16 "ip", orElse ip (.str []))]
    match exportLoop data TOTAL_QUESTIONS 0 rowData with
    | .error t => .error t
    | .ok rowData =>
      match resultCells data, scoreCells data with
      | .ok result, .ok scores => .ok (rowData ++ result ++ scores)
      | .error t, _ => .error t
      | _, .error t => .error t
  | _, _, _, _, _ => .error .typeError

/-- The loop `for (var i = 0; i < TOTAL_QUESTIONS; i++)` of `appendToExcelFile`, from
`i` on for `n` more rounds: `q(i+1)` is `data.answers[i]` unless that is `undefined`,
`item(i+1)` is `data.items[i] || ''`. -/
def appendLoop (data : JSVal) : Nat → Nat → RowData → Except Thrown RowData
  | 0, _, rowData => .ok rowData
  | n + 1, i, rowData =>
    match member data (utf16 "answers") with
    | .error t => .error t
    | .ok answers =>
      match elementAt answers i with
      | .error t => .error t
      | .ok answer =>
        let q : JSVal := match answer with
          | .undefined => .str []
          | v => v
        match member data (utf16 "items") with
        | .error t => .error t
        | .ok items =>
          match elementAt items i with
          | .error t => .error t
          | .ok e =>
            appendLoop data n (i + 1)
              (rowData ++ [(utf16 "q" ++ natText (i + 1), q),
                (utf16 "item" ++ natText (i + 1), orElse e (.str []))])

/-- The object `rowData` that `appendToExcelFile(data)` hands to `worksheet.addRow`. -/
def appendRowData (data : JSVal) : Except Thrown RowData :=
  match member data (utf16 "sessionId"), member data (utf16 "timestamp"),
    member data (utf16 "username"), member data (utf16 "suggestion"),
    member data (utf16 "ip") with
  | .ok sessionId, .ok timestamp, .ok username, .ok suggestion, .ok ip =>
    let rowData : RowData :=
      [(utf16 "sessionId", sessionId), (utf16 "timestamp", timestamp),
        (utf16 "username", username), (utf16 "suggestion", suggestion), (utf16 "ip", ip)]
    match appendLoop data TOTAL_QUESTIONS 0 rowData with
    | .error t => .error t
    | .ok rowData =>
      match resultCells data, scoreCells data with
      | .ok result, .ok scores => .ok (rowData ++ result ++ scores)
      | .error t, _ => .error t
      | _, .error t => .error t
  | _, _, _, _, _ => .error .typeError

/-- The object `cleanData` as a value: what `appendToExcelFile` receives and what
`JSON.parse` reads back from the text `JSON.stringify(cleanData, null, 2)` that
`handleSubmit` wrote (texts and integers survive the round trip unchanged). -/
def Record.toValue (r : Record) : JSVal :=
  .obj [
    (utf16 "sessionId", .str r.sessionId),
    (utf16 "username", .str r.username),
    (utf16 "answers", .arr (r.answers.map .str)),
    (utf16 "rawAnswers", .arr (r.rawAnswers.map fun n => .num (.ofInt n))),
    (utf16 "items", .arr (r.items.map .str)),
    (utf16 "personalityType", .str r.personalityType),
    (utf16 "personalityName", .str r.personalityName),
    (utf16 "personalityScores", .obj (r.personalityScores.map fun e => (e.1, .num (.ofInt e.2)))),
    (utf16 "suggestion", .str r.suggestion),
    (utf16 "timestamp", .str r.timestamp),
    (utf16 "ip", .str r.ip)]

/-- What `handleExport` sends: a JSON reply, or the workbook with its columns and data
rows. -/
inductive ExportReply where
  | json (response : Response)
  | workbook (columns : List Column) (rows : List RowData)

/-- What the `catch` block of `handleExport` answers. -/
def exportFailed : ExportReply := .json ⟨500, false, utf16 "Export ล้มเหลว"⟩

/-- The time value of `new Date(value)`; `none` is an invalid date. `parseDate` is
`Date.parse`, which the language leaves to the engine for texts that are not in ISO
format. A Number is cut to an integer and is invalid beyond 8.64e15 in magnitude; an
array or object is converted to a text first, which can throw. -/
def newDate (parseDate : JSString → Option Int) : JSVal → Except Thrown (Option Int)
  | .undefined => .ok none
  | .null => .ok (some 0)
  | .bool b => .ok (some (if b then 1 else 0))
  | .num .nan => .ok none
  | .num (.infinity _) => .ok none
  | .num (.zero _) => .ok (some 0)
  | .num (.finite negative ds n) =>
    let k : Int := ds.length
    let magnitude : Nat :=
      if n ≤ 0 then 0
      else if k ≤ n then digitsValue ds * 10 ^ (n - k).toNat
      else digitsValue (ds.take n.toNat)
    if magnitude > 8640000000000000 then .ok none
    else .ok (some (if negative then -(magnitude : Int) else magnitude))
  | .str s => .ok (parseDate s)
  | v =>
    match ToString v with
    | .error t => .error t
    | .ok s => .ok (parseDate s)

/-- The time value of `new Date(a.timestamp)` for an element `a` of `allData`. -/
def timestampOf (parseDate : JSString → Option Int) (a : JSVal) : Except Thrown (Option Int) :=
  match member a (utf16 "timestamp") with
  | .error t => .error t
  | .ok timestamp => newDate parseDate timestamp

/-- The comparison function of the sort in `handleExport`,
`new Date(a.timestamp) - new Date(b.timestamp)`; `none` is NaN. -/
def compareTimestamps (parseDate : JSString → Option Int) (a b : JSVal) :
    Except Thrown (Option Int) :=
  match timestampOf parseDate a, timestampOf parseDate b with
  | .ok (some x), .ok (some y) => .ok (some (x - y))
  | .ok _, .ok _ => .ok none
  | .error t, _ => .error t
  | _, .error t => .error t

/-- Whether the sort keeps `a` before `b`: the comparison is not positive (NaN counts
as zero). -/
def keepsOrder (parseDate : JSString → Option Int) (a b : JSVal) : Bool :=
  match compareTimestamps parseDate a b with
  | .ok (some d) => decide (d ≤ 0)
  | _ => true

/-- The call `allData.sort(...)`: a stable sort by the comparison function. With two
or more elements every element is handed to the comparison function, so the sort
throws when the function throws for one of them. -/
def sortByTimestamp (parseDate : JSString → Option Int) (allData : List JSVal) :
    Except Thrown (List JSVal) :=
  if 2 ≤ allData.length ∧ (allData.all fun a => (timestampOf parseDate a).isOk) = false then
    .error .typeError
  else .ok (allData.insertionSort fun a b => keepsOrder parseDate a b = true)

/-- The function `handleExport(req, res)` of api.js over the files of `DATA_DIR`; a
file holds `some value` when reading it and `JSON.parse` succeed and give `value`, and
`none` when one of the two throws. Writing the workbook to the response is taken to
succeed. -/
def handleExport (parseDate : JSString → Option Int)
    (dir : List (JSString × Option JSVal)) : ExportReply :=
  let files := getResponseFiles dir
  if files.length = 0 then .json ⟨200, false, utf16 "ยังไม่มีข้อมูลให้ export"⟩
  else
    let allData := files.filterMap fun f => f.2
    match sortByTimestamp parseDate allData with
    | .error _ => exportFailed
    | .ok allData =>
      match allData.mapM exportRowData with
      | .error _ => exportFailed
      | .ok rows => .workbook exportColumns rows

/-- Whether a parsed file has what the export reads without a guard: it is an object,
its `answers` is neither missing nor `null`, and its `timestamp` is not an object or
array. -/
def exportable (data : JSVal) : Bool :=
  match data with
  | .obj fields =>
    (match fields.lookup (utf16 "answers") with
      | none => false
      | some .undefined => false
      | some .null => false
      | some _ => true) &&
    (match fields.lookup (utf16 "timestamp") with
      | some (.arr _) => false
      | some (.obj _) => false
      | _ => true)
  | _ => false

/-- The data directory as the export reads it: each record file parses to the value of
its record. -/
def storedFiles (dir : List (JSString × Record)) : List (JSString × Option JSVal) :=
  dir.map fun f => (f.1, some f.2.toValue)

/-- The record `handleSubmit` writes for the request `withScores sampleScores` in the
surroundings `calmEnv`. -/
def sampleRecord : Record where
  sessionId := utf16 "0123456789abcdef"
  username := utf16 "testuser"
  answers := [utf16 "ไม่โอเคสิคะ", utf16 "เอากระทะไฟฟ้าที่พกติดตัวไว้ออกมา", utf16 "ทำไมต้องจบที่เรา",
    utf16 "(sub-question)", utf16 "ต่อสู้กับความหนาว", utf16 "วิ่งไปหาเอง",
    utf16 "ยืนรอด้วยความหวังลม ๆ แล้ง ๆ", utf16 "ตลาดเด็ด"]
  rawAnswers := [0, 1, 2, 3, 0, 1, 2, 3]
  items := [utf16 "item1", utf16 "item2", utf16 "item3", utf16 "item4", utf16 "item5",
    utf16 "item6", utf16 "item7", utf16 "item8"]
  personalityType := []
  personalityName := []
  personalityScores := [(utf16 "C", 99), (utf16 "P", 0), (utf16 "F", 3), (utf16 "L", 0)]
  suggestion := utf16 "Great quiz!"
  timestamp := utf16 "6/11/2569 08:41:00"
  ip := utf16 "127.0.0.1"

/-- An engine that reads no text as a date. -/
def noDates : JSString → Option Int := fun _ => none

namespace App

/-- The object `payload` that `submitSuggestion` posts to `/api/submit`. -/
structure Payload where
  username : JSString
  answers : List Nat
  items : List JSString
  suggestion : JSString
  personalityType : JSString
  personalityName : JSString
  personalityScores : Scores
deriving DecidableEq, Repr

/-- The function `submitSuggestion()` of app.js with `value` in the suggestion field.
`title` gives `PERSONALITY_RESULTS[key].title`; `success` is the `success` field of the
server's reply, `none` when the request fails. The result is the state once the reply
is handled and the payload sent, `none` when building it throws (an `undefined` item). -/
def submitSuggestion (title : JSString → JSString) (s : State) (value : JSString)
    (success : Option Bool) : State × Option Payload :=
  let suggestion := trim value
  let maxType := submitSuggestionType s.personalityScores
  match s.collectedItems.mapM fun item => item.map fun reward => reward.name with
  | none => (s, none)
  | some items =>
    let payload : Payload :=
      { username := s.userName
        answers := s.selectedAnswers
        items := items
        suggestion := suggestion
        personalityType := maxType
        personalityName := (title maxType).map fun c => if c = 10 then 32 else c
        personalityScores := s.personalityScores }
    match success with
    | some true => ({ s with page := .final }, some payload)
    | _ => (s, some payload)

end App

/-! ## Decimal text -/

theorem digitsValue_concat (ds : List Nat) (d : Nat) :
    digitsValue (ds ++ [d]) = digitsValue ds * 10 + d := by
  simp [digitsValue, List.foldl_append]

theorem decimalDigitsAux_spec (fuel : Nat) : ∀ n, n < fuel →
    (∀ d ∈ decimalDigitsAux fuel n, d < 10) ∧ decimalDigitsAux fuel n ≠ [] ∧
      digitsValue (decimalDigitsAux fuel n) = n := by
  induction fuel with
  | zero => intro n h; omega
  | succ fuel ih =>
    intro n h
    unfold decimalDigitsAux
    by_cases h10 : n < 10
    · simp [h10, digitsValue]
    · have hlt : n / 10 < fuel := by omega
      obtain ⟨h1, h2, h3⟩ := ih (n / 10) hlt
      simp only [h10, if_false]
      refine ⟨?_, by simp, ?_⟩
      · intro d hd
        rcases List.mem_append.mp hd with hd | hd
        · exact h1 d hd
        · simp at hd; omega
      · rw [digitsValue_concat, h3]; omega

theorem decimalDigits_lt (n : Nat) : ∀ d ∈ decimalDigits n, d < 10 :=
  (decimalDigitsAux_spec (n + 1) n (Nat.lt_succ_self n)).1

theorem decimalDigits_ne_nil (n : Nat) : decimalDigits n ≠ [] :=
  (decimalDigitsAux_spec (n + 1) n (Nat.lt_succ_self n)).2.1

theorem digitsValue_decimalDigits (n : Nat) : digitsValue (decimalDigits n) = n :=
  (decimalDigitsAux_spec (n + 1) n (Nat.lt_succ_self n)).2.2

theorem decimalDigitsAux_length (fuel : Nat) : ∀ n e, 0 < e → n < 10 ^ e →
    (decimalDigitsAux fuel n).length ≤ e := by
  induction fuel with
  | zero => intro n e _ _; simp [decimalDigitsAux]
  | succ fuel ih =>
    intro n e he hn
    unfold decimalDigitsAux
    by_cases h10 : n < 10
    · simp [h10]; omega
    · simp only [h10, if_false, List.length_append, List.length_singleton]
      obtain ⟨e', rfl⟩ : ∃ e', e = e' + 1 := ⟨e - 1, by omega⟩
      have he' : 0 < e' := by
        rcases Nat.eq_zero_or_pos e' with h | h
        · subst h; simp at hn; omega
        · exact h
      have : n / 10 < 10 ^ e' := by
        rw [Nat.div_lt_iff_lt_mul (by norm_num)]
        rw [pow_succ] at hn; exact hn
      have := ih (n / 10) e' he' this
      omega

theorem decimalDigits_length_le (n e : Nat) (he : 0 < e) (hn : n < 10 ^ e) :
    (decimalDigits n).length ≤ e :=
  decimalDigitsAux_length (n + 1) n e he hn

theorem stripTrailingZeros_length_le (ds : List Nat) :
    (stripTrailingZeros ds).length ≤ ds.length :=
  (List.rdropWhile_prefix (· == 0) ds).length_le

theorem stripTrailingZeros_append_zeros (ds : List Nat) :
    stripTrailingZeros ds ++ List.replicate (ds.length - (stripTrailingZeros ds).length) 0 = ds := by
  induction ds using List.reverseRecOn with
  | nil => simp [stripTrailingZeros]
  | append_singleton l a ih =>
    by_cases ha : a = 0
    · subst ha
      have hl := stripTrailingZeros_length_le l
      unfold stripTrailingZeros at *
      rw [List.rdropWhile_concat_pos _ _ _ (by simp)]
      have : (l ++ [0]).length - (List.rdropWhile (fun x => x == 0) l).length
          = (l.length - (List.rdropWhile (fun x => x == 0) l).length) + 1 := by
        simp; omega
      rw [this, List.replicate_succ', ← List.append_assoc, ih]
    · unfold stripTrailingZeros
      rw [List.rdropWhile_concat_neg _ _ _ (by simpa using ha)]
      simp

/-! ## parseInt on decimal text -/

theorem digitValue_digit (d : Nat) (h : d < 10) : digitValue (d + 48) = some d := by
  unfold digitValue
  rw [if_pos (by omega)]
  simp

theorem isRadixDigit_digit (d : Nat) (h : d < 10) : isRadixDigit 10 (d + 48) = true := by
  simp [isRadixDigit, digitValue_digit d h, h]

theorem isWhiteSpace_digit (d : Nat) (h : d < 10) : isWhiteSpace (d + 48) = false := by
  have : d = 0 ∨ d = 1 ∨ d = 2 ∨ d = 3 ∨ d = 4 ∨ d = 5 ∨ d = 6 ∨ d = 7 ∨ d = 8 ∨ d = 9 := by
    omega
  rcases this with h | h | h | h | h | h | h | h | h | h <;> subst h <;> decide

theorem radixValue_digitChars (ds : List Nat) (h : ∀ d ∈ ds, d < 10) :
    radixValue 10 (digitChars ds) = digitsValue ds := by
  unfold radixValue digitsValue digitChars
  rw [List.foldl_map]
  have key : ∀ acc : Nat, List.foldl (fun x y => x * 10 + (digitValue (y + 48)).getD 0) acc ds
      = List.foldl (fun acc d => acc * 10 + d) acc ds := by
    induction ds with
    | nil => intro acc; rfl
    | cons d ds ih =>
      intro acc
      simp only [List.foldl_cons]
      rw [digitValue_digit d (h d (by simp))]
      exact ih (fun x hx => h x (by simp [hx])) _
  exact key 0

theorem takeWhile_digitChars (ds : List Nat) (h : ∀ d ∈ ds, d < 10) (rest : JSString)
    (hrest : ∀ c, rest.head? = some c → isRadixDigit 10 c = false) :
    (digitChars ds ++ rest).takeWhile (isRadixDigit 10) = digitChars ds := by
  rw [List.takeWhile_append_of_pos]
  · cases rest with
    | nil => simp
    | cons c cs => simp [List.takeWhile_cons, hrest c rfl]
  · intro c hc
    simp only [digitChars, List.mem_map] at hc
    obtain ⟨d, hd, rfl⟩ := hc
    exact isRadixDigit_digit d (h d hd)

/-- The text-level core of `parseInt` with radix 10 reads back the decimal text of an
integer, whatever follows it, as long as that does not start with a digit. -/
theorem parseIntText_intText_append (n : Int) (rest : JSString)
    (hrest : ∀ c, rest.head? = some c → isRadixDigit 10 c = false) :
    parseIntText (intText n ++ rest) 10 = some n := by
  have hlt := decimalDigits_lt n.natAbs
  have hval := digitsValue_decimalDigits n.natAbs
  have htw := takeWhile_digitChars (decimalDigits n.natAbs) hlt rest hrest
  have hrv := radixValue_digitChars (decimalDigits n.natAbs) hlt
  obtain ⟨d, ds, hds⟩ : ∃ d ds, decimalDigits n.natAbs = d :: ds := by
    cases h : decimalDigits n.natAbs with
    | nil => exact absurd h (decimalDigits_ne_nil _)
    | cons d ds => exact ⟨d, ds, rfl⟩
  have hd : d < 10 := hlt d (by simp [hds])
  have hws := isWhiteSpace_digit d hd
  have hne : digitChars (decimalDigits n.natAbs) ≠ [] := by simp [digitChars, hds]
  rw [hds] at htw hrv hne hval
  unfold parseIntText intText natText
  rw [hds]
  by_cases hneg : n < 0
  · have h45 : isWhiteSpace 45 = false := by decide
    have hd45 : d + 48 ≠ 45 := by omega
    simp only [hneg, if_true, List.singleton_append, List.cons_append]
    simp [digitChars, List.dropWhile_cons, h45] 
    simp [digitChars] at htw hrv
    rw [htw]
    simp [hrv, hval]
    exact ⟨isRadixDigit_digit d hd, by rw [abs_of_neg hneg]; omega⟩
  · have hd45 : d + 48 ≠ 45 := by omega
    have hd43 : d + 48 ≠ 43 := by omega
    simp only [hneg, if_false, List.nil_append]
    simp [digitChars, List.dropWhile_cons, hws, hd45, hd43]
    simp [digitChars] at htw hrv
    rw [htw]
    simp [hrv, hval]
    exact ⟨isRadixDigit_digit d hd, by omega⟩

theorem digitChars_append (a b : List Nat) : digitChars (a ++ b) = digitChars a ++ digitChars b := by
  simp [digitChars]

theorem digitChars_replicate_zero (k : Nat) : digitChars (List.replicate k 0) = List.replicate k 48 := by
  simp [digitChars]

/-- The text of an integer-valued Number of magnitude below `10 ^ 21` is the decimal
text of the integer. -/
theorem toText_ofInt (n : Int) (h : n.natAbs < 10 ^ 21) :
    (JSNumber.ofInt n).toText = intText n := by
  by_cases h0 : n = 0
  · subst h0; decide
  · have hlen := decimalDigits_length_le n.natAbs 21 (by norm_num) h
    have hstrip := stripTrailingZeros_length_le (decimalDigits n.natAbs)
    have happ := stripTrailingZeros_append_zeros (decimalDigits n.natAbs)
    unfold JSNumber.ofInt
    rw [if_neg h0]
    unfold JSNumber.toText intText natText
    have hc1 : (-5 : Int) ≤ ((decimalDigits n.natAbs).length : Int) ∧
        ((decimalDigits n.natAbs).length : Int) ≤ 21 := by omega
    have hc2 : ((stripTrailingZeros (decimalDigits n.natAbs)).length : Int)
        ≤ ((decimalDigits n.natAbs).length : Int) := by omega
    have hc3 : (((decimalDigits n.natAbs).length : Int)
        - ((stripTrailingZeros (decimalDigits n.natAbs)).length : Int)).toNat
        = (decimalDigits n.natAbs).length - (stripTrailingZeros (decimalDigits n.natAbs)).length := by
      omega
    simp only [hc1, hc2, hc3, and_self, if_true]
    rw [← digitChars_replicate_zero, ← digitChars_append, happ]
    simp

theorem isRadixDigit_ten (c : Nat) : isRadixDigit 10 c = isDecimalDigit c := by
  unfold isRadixDigit digitValue isDecimalDigit
  by_cases h1 : 48 ≤ c ∧ c ≤ 57
  · simp [h1]; omega
  · by_cases h2 : 97 ≤ c ∧ c ≤ 122
    · simp [h1, h2]; omega
    · by_cases h3 : 65 ≤ c ∧ c ≤ 90
      · simp [h1, h2, h3]; omega
      · simp [h1, h2, h3]

/-- On a value whose text is the decimal text of `n` followed by something that does
not start with a digit, `validateAnswerIndex` answers as for `n`. -/
theorem validateAnswerIndex_of_text (x : JSVal) (n : Int) (rest : JSString) (max : Nat)
    (hx : ToString x = .ok (intText n ++ rest))
    (hrest : ∀ c, rest.head? = some c → isRadixDigit 10 c = false) :
    validateAnswerIndex x max = .ok (if 0 ≤ n ∧ n ≤ max then some n else none) := by
  unfold validateAnswerIndex parseInt
  rw [hx]
  simp only [parseIntText_intText_append n rest hrest]
  by_cases h : 0 ≤ n ∧ n ≤ (max : Int)
  · rw [if_pos h, if_neg (by omega)]
  · rw [if_neg h, if_pos (by omega)]

theorem parseIntText_of_not_startsWithInteger (s : JSString) (h : startsWithInteger s = false) :
    parseIntText s 10 = none := by
  unfold startsWithInteger at h
  unfold parseIntText
  simp only at h ⊢
  generalize (if ((s.dropWhile isWhiteSpace).head? == some 45 ||
    (s.dropWhile isWhiteSpace).head? == some 43) = true
    then (s.dropWhile isWhiteSpace).drop 1 else s.dropWhile isWhiteSpace) = S at h ⊢
  cases S with
  | nil => simp
  | cons c cs =>
    simp only [List.head?_cons] at h
    simp [List.takeWhile_cons, isRadixDigit_ten, h]

/-! ## validateAnswerIndex -/

/-- C5, as stated, fails: the integer `10 ^ 21` lies above `max = 3`, yet its text is
`1e+21`, of which `parseInt` reads the leading `1`, so `validateAnswerIndex` returns 1
and not `null`. -/
theorem validateAnswerIndex_accepts_1e21 :
    (3 : Int) < 10 ^ 21 ∧
    ToString (.num (.ofInt (10 ^ 21))) = .ok (utf16 "1e+21") ∧
    validateAnswerIndex (.num (.ofInt (10 ^ 21))) 3 = .ok (some 1) ∧
    validateAnswerIndex (.num (.ofInt (10 ^ 21))) 3 ≠ .ok none := by
  decide

/-- C5 (amended): for an integer `n` of magnitude below `10 ^ 21` given as a Number,
and for the decimal string of any integer `n`, `validateAnswerIndex(x, max)` returns
`n` when `0 ≤ n ≤ max` and `null` otherwise; it returns `null` for every string that
does not start, after white space and an optional sign, with a decimal digit, for the
empty string, `null`, `undefined` and NaN; and `max` defaults to 3. -/
theorem validateAnswerIndex_integers (max : Nat) :
    (∀ n : Int, n.natAbs < 10 ^ 21 →
      validateAnswerIndex (.num (.ofInt n)) max
        = .ok (if 0 ≤ n ∧ n ≤ max then some n else none)) ∧
    (∀ n : Int, validateAnswerIndex (.str (intText n)) max
        = .ok (if 0 ≤ n ∧ n ≤ max then some n else none)) ∧
    (∀ s : JSString, startsWithInteger s = false →
      validateAnswerIndex (.str s) max = .ok none) ∧
    validateAnswerIndex (.str []) max = .ok none ∧
    validateAnswerIndex .null max = .ok none ∧
    validateAnswerIndex .undefined max = .ok none ∧
    validateAnswerIndex (.num .nan) max = .ok none ∧
    (∀ x : JSVal, validateAnswerIndex x = validateAnswerIndex x 3) := by
  refine ⟨?_, ?_, ?_, ?_, ?_, ?_, ?_, fun _ => rfl⟩
  · intro n hn
    apply validateAnswerIndex_of_text _ n [] max
    · simp [ToString, toText_ofInt n hn]
    · intro c hc; simp at hc
  · intro n
    apply validateAnswerIndex_of_text _ n [] max
    · simp [ToString]
    · intro c hc; simp at hc
  · intro s hs
    simp [validateAnswerIndex, parseInt, ToString, parseIntText_of_not_startsWithInteger s hs]
  · rfl
  · rfl
  · rfl
  · rfl

/-- The amended C5 at the values of the unit tests: 2 and `'2'` are returned, -1, 100
and `'abc'` give `null`, and 5 is returned under the custom bound 5. -/
theorem validateAnswerIndex_integers_witness :
    validateAnswerIndex (.num (.ofInt 2)) 3 = .ok (some 2) ∧
    validateAnswerIndex (.str (utf16 "2")) 3 = .ok (some 2) ∧
    validateAnswerIndex (.num (.ofInt (-1))) 3 = .ok none ∧
    validateAnswerIndex (.num (.ofInt 100)) 3 = .ok none ∧
    validateAnswerIndex (.str (utf16 "abc")) 3 = .ok none ∧
    validateAnswerIndex (.num (.ofInt 5)) 5 = .ok (some 5) :=
  ⟨by simpa using (validateAnswerIndex_integers 3).1 2 (by decide),
   by simpa using (validateAnswerIndex_integers 3).2.1 2,
   by simpa using (validateAnswerIndex_integers 3).1 (-1) (by decide),
   by simpa using (validateAnswerIndex_integers 3).1 100 (by decide),
   (validateAnswerIndex_integers 3).2.2.1 (utf16 "abc") (by decide),
   by simpa using (validateAnswerIndex_integers 5).1 5 (by decide)⟩

/-- C6: a value whose text is the decimal text of an integer `n` followed by a
fractional part is not rejected as such but truncated: `validateAnswerIndex` answers
exactly as for `n` (`n` when `0 ≤ n ≤ max`, else `null`), which is its answer for the
decimal string of `n` and, for `n` of magnitude below `10 ^ 21`, for the Number `n`. -/
theorem validateAnswerIndex_truncates (x : JSVal) (n : Int) (frac : JSString) (max : Nat)
    (hx : ToString x = .ok (intText n ++ 46 :: frac)) :
    validateAnswerIndex x max = .ok (if 0 ≤ n ∧ n ≤ max then some n else none) ∧
    validateAnswerIndex x max = validateAnswerIndex (.str (intText n)) max ∧
    (n.natAbs < 10 ^ 21 →
      validateAnswerIndex x max = validateAnswerIndex (.num (.ofInt n)) max) := by
  have h1 := validateAnswerIndex_of_text x n (46 :: frac) max hx
    (by intro c hc; simp at hc; subst hc; decide)
  have h2 := validateAnswerIndex_of_text (.str (intText n)) n [] max (by simp [ToString])
    (by intro c hc; simp at hc)
  refine ⟨h1, h1.trans h2.symm, fun hn => ?_⟩
  have h3 := validateAnswerIndex_of_text (.num (.ofInt n)) n [] max
    (by simp [ToString, toText_ofInt n hn]) (by intro c hc; simp at hc)
  exact h1.trans h3.symm

/-- C6 at the inputs of the claim: the Number 1.5 has the text `1.5` and validates to
1; the string `'2.9'` validates to 2. -/
theorem validateAnswerIndex_truncates_witness :
    ToString (.num (.finite false [1, 5] 1)) = .ok (intText 1 ++ 46 :: utf16 "5") ∧
    validateAnswerIndex (.num (.finite false [1, 5] 1)) 3 = .ok (some 1) ∧
    validateAnswerIndex (.str (utf16 "2.9")) 3 = .ok (some 2) :=
  ⟨by decide,
   by simpa using (validateAnswerIndex_truncates (.num (.finite false [1, 5] 1)) 1
      (utf16 "5") 3 (by decide)).1,
   by simpa using (validateAnswerIndex_truncates (.str (utf16 "2.9")) 2
      (utf16 "9") 3 (by decide)).1⟩

/-! ## Sanitisation lemmas -/

theorem replaceAll_append (c : Nat) (text a b : JSString) :
    replaceAll c text (a ++ b) = replaceAll c text a ++ replaceAll c text b := by
  simp [replaceAll]

theorem escape_append (a b : JSString) : escape (a ++ b) = escape a ++ escape b := by
  simp [escape, replaceAll_append]

theorem escapeChar_of_not_isEscaped (c : Nat) (h : isEscaped c = false) : escapeChar c = [c] := by
  simp [isEscaped] at h
  simp [escapeChar, h]

theorem escape_singleton (c : Nat) : escape [c] = escapeChar c := by
  by_cases h : isEscaped c = true
  · simp [isEscaped] at h
    rcases h with ((((((h | h) | h) | h) | h) | h) | h) | h <;> subst h <;> decide
  · have h' : isEscaped c = false := by simpa using h
    rw [escapeChar_of_not_isEscaped c h']
    simp [isEscaped] at h'
    simp [escape, replaceAll, h']

/-- The eight replacement passes of `escape` amount to one pass that replaces each
code unit on its own. -/
theorem escape_eq_flatMap (s : JSString) : escape s = s.flatMap escapeChar := by
  induction s with
  | nil => rfl
  | cons c s ih =>
    have : c :: s = [c] ++ s := rfl
    rw [this, escape_append, escape_singleton, ih]
    simp

theorem escape_of_safe (s : JSString) (h : ∀ c ∈ s, isEscaped c = false) : escape s = s := by
  rw [escape_eq_flatMap]
  induction s with
  | nil => rfl
  | cons c s ih =>
    rw [List.flatMap_cons, escapeChar_of_not_isEscaped c (h c (by simp)),
      ih (fun x hx => h x (by simp [hx]))]
    rfl

theorem sanitizeInput_str (s : JSString) (maxLength : Nat) :
    sanitizeInput (.str s) maxLength = (escape (trim s)).take maxLength := by
  unfold sanitizeInput
  by_cases h : (escape (trim s)).length > maxLength
  · simp [h]
  · simp only [h, if_false]
    rw [List.take_of_length_le (by omega)]

theorem escapeChar_no_markup (a c : Nat) (h : c ∈ escapeChar a) :
    c ≠ 60 ∧ c ≠ 62 ∧ c ≠ 34 ∧ c ≠ 47 := by
  by_cases ha : isEscaped a = true
  · simp [isEscaped] at ha
    rcases ha with ((((((ha | ha) | ha) | ha) | ha) | ha) | ha) | ha <;> subst ha <;>
      revert c <;> decide
  · have ha' : isEscaped a = false := by simpa using ha
    rw [escapeChar_of_not_isEscaped a ha'] at h
    simp at h
    subst h
    simp [isEscaped] at ha'
    omega

theorem escape_no_markup (s : JSString) (c : Nat) (h : c ∈ escape s) :
    c ≠ 60 ∧ c ≠ 62 ∧ c ≠ 34 ∧ c ≠ 47 := by
  rw [escape_eq_flatMap, List.mem_flatMap] at h
  obtain ⟨a, _, hc⟩ := h
  exact escapeChar_no_markup a c hc

theorem noRawMarkup_escape (s : JSString) : noRawMarkup (escape s) = true := by
  rw [escape_eq_flatMap]
  induction s with
  | nil => rfl
  | cons a s ih =>
    rw [List.flatMap_cons]
    generalize List.flatMap s escapeChar = rest at ih ⊢
    by_cases ha : isEscaped a = true
    · simp [isEscaped] at ha
      have he : entityBodies = [[97, 109, 112, 59], [108, 116, 59], [103, 116, 59],
          [113, 117, 111, 116, 59], [35, 120, 50, 70, 59], [35, 120, 50, 55, 59],
          [35, 120, 53, 67, 59], [35, 57, 54, 59]] := by decide
      have e1 : escapeChar 38 = [38, 97, 109, 112, 59] := by decide
      have e2 : escapeChar 60 = [38, 108, 116, 59] := by decide
      have e3 : escapeChar 62 = [38, 103, 116, 59] := by decide
      have e4 : escapeChar 34 = [38, 113, 117, 111, 116, 59] := by decide
      have e5 : escapeChar 47 = [38, 35, 120, 50, 70, 59] := by decide
      have e6 : escapeChar 39 = [38, 35, 120, 50, 55, 59] := by decide
      have e7 : escapeChar 92 = [38, 35, 120, 53, 67, 59] := by decide
      have e8 : escapeChar 96 = [38, 35, 57, 54, 59] := by decide
      rcases ha with ((((((ha | ha) | ha) | ha) | ha) | ha) | ha) | ha <;> subst ha <;>
        (first | rw [e1] | rw [e2] | rw [e3] | rw [e4] | rw [e5] | rw [e6] | rw [e7] | rw [e8]) <;>
        simp [noRawMarkup, he, startsWith, ih]
    · have ha' : isEscaped a = false := by simpa using ha
      rw [escapeChar_of_not_isEscaped a ha']
      simp [isEscaped] at ha'
      simp [noRawMarkup, ih, ha']

/-! ## Trimming lemmas -/

theorem head?_of_initial {a b : JSString} (h : a <+: b) (c : Nat) (hc : a.head? = some c) :
    b.head? = some c := by
  obtain ⟨t, rfl⟩ := h
  cases a with
  | nil => simp at hc
  | cons x xs => simpa using hc

theorem dropWhile_eq_self_of_head (p : Nat → Bool) (l : JSString)
    (h : ∀ c, l.head? = some c → p c = false) : l.dropWhile p = l := by
  cases l with
  | nil => rfl
  | cons x xs => simp [List.dropWhile_cons, h x rfl]

theorem rdropWhile_eq_self_of_last (p : Nat → Bool) (l : JSString)
    (h : ∀ c, l.getLast? = some c → p c = false) : l.rdropWhile p = l := by
  rw [List.rdropWhile_eq_self_iff]
  intro hl
  have := h (l.getLast hl) (List.getLast?_eq_getLast l hl)
  simp [this]

theorem trim_head (s : JSString) (c : Nat) (h : (trim s).head? = some c) :
    isWhiteSpace c = false := by
  have h1 := head?_of_initial (List.rdropWhile_prefix isWhiteSpace (s.dropWhile isWhiteSpace)) c h
  have h2 := List.head?_dropWhile_not isWhiteSpace s
  rw [h1] at h2
  exact h2

theorem trim_last (s : JSString) (c : Nat) (h : (trim s).getLast? = some c) :
    isWhiteSpace c = false := by
  unfold trim at h
  have hne : (s.dropWhile isWhiteSpace).rdropWhile isWhiteSpace ≠ [] := by
    intro h0; rw [h0] at h; simp at h
  have := List.rdropWhile_last_not isWhiteSpace (s.dropWhile isWhiteSpace) hne
  rw [List.getLast?_eq_getLast _ hne] at h
  simp only [Option.some.injEq] at h
  rw [h] at this
  simpa using this

theorem mem_of_mem_trim (s : JSString) (c : Nat) (h : c ∈ trim s) : c ∈ s :=
  (List.dropWhile_suffix isWhiteSpace).mem
    ((List.rdropWhile_prefix isWhiteSpace (s.dropWhile isWhiteSpace)).mem h)

theorem trim_eq_self (s : JSString) (hhead : ∀ c, s.head? = some c → isWhiteSpace c = false)
    (hlast : ∀ c, s.getLast? = some c → isWhiteSpace c = false) : trim s = s := by
  unfold trim
  rw [dropWhile_eq_self_of_head isWhiteSpace s hhead, rdropWhile_eq_self_of_last isWhiteSpace s hlast]

/-- Sanitising the sanitised form of a string without escaped characters removes the
white space that the cut may have left at the end, and nothing else. -/
theorem sanitizeInput_twice (s : JSString) (m : Nat) (hsafe : ∀ c ∈ s, isEscaped c = false) :
    sanitizeInput (.str (sanitizeInput (.str s) m)) m
      = (sanitizeInput (.str s) m).rdropWhile isWhiteSpace := by
  have hsafe1 : ∀ c ∈ trim s, isEscaped c = false := fun c hc => hsafe c (mem_of_mem_trim s c hc)
  have h1 : sanitizeInput (.str s) m = (trim s).take m := by
    rw [sanitizeInput_str, escape_of_safe _ hsafe1]
  rw [h1, sanitizeInput_str]
  have hhead : ∀ c, ((trim s).take m).head? = some c → isWhiteSpace c = false := fun c hc =>
    trim_head s c (head?_of_initial (List.take_prefix m (trim s)) c hc)
  have htrim : trim ((trim s).take m) = ((trim s).take m).rdropWhile isWhiteSpace := by
    have hdef : trim ((trim s).take m)
        = (((trim s).take m).dropWhile isWhiteSpace).rdropWhile isWhiteSpace := rfl
    rw [hdef, dropWhile_eq_self_of_head isWhiteSpace _ hhead]
  rw [htrim]
  have hpre := List.rdropWhile_prefix isWhiteSpace ((trim s).take m)
  rw [escape_of_safe _ (fun c hc => hsafe1 c (List.mem_of_mem_take (hpre.mem hc)))]
  apply List.take_of_length_le
  have := hpre.length_le
  have := List.length_take_le m (trim s)
  omega

/-! ## sanitizeInput -/

/-- C7: `sanitizeInput(input, max)` is the empty string for every input that is not a
string, and for a string `s` it is the first `max` code units of the trimmed `s` with
each code unit replaced as the specification says (`&` by `&amp;`, `<` by `&lt;`, `>`
by `&gt;`, `"` by `&quot;`, `/` by `&#x2F;`, the other characters of
`validator.escape` by their entities, every other one unchanged); the script tag of
the unit test becomes the escaped text the test expects. -/
theorem sanitizeInput_spec :
    (∀ (input : JSVal) (maxLength : Nat), (∀ s, input ≠ .str s) →
      sanitizeInput input maxLength = []) ∧
    (∀ (s : JSString) (maxLength : Nat),
      sanitizeInput (.str s) maxLength = ((trim s).flatMap escapeChar).take maxLength) ∧
    sanitizeInput (.str (utf16 "<script>alert(\"xss\")</script>"))
      = utf16 "&lt;script&gt;alert(&quot;xss&quot;)&lt;&#x2F;script&gt;" := by
  refine ⟨?_, ?_, by decide⟩
  · intro input maxLength h
    cases input with
    | str s => exact absurd rfl (h s)
    | _ => rfl
  · intro s maxLength
    rw [sanitizeInput_str, escape_eq_flatMap]

/-- C7 at the inputs of the unit tests: `null` and the Number 123 give the empty
string, and `'  hello  '` is trimmed. -/
theorem sanitizeInput_spec_witness :
    sanitizeInput .null 200 = [] ∧
    sanitizeInput (numLit 123) 200 = [] ∧
    sanitizeInput (.str (utf16 "  hello  ")) 200 = utf16 "hello" :=
  ⟨sanitizeInput_spec.1 .null 200 (fun _ h => nomatch h),
   sanitizeInput_spec.1 (numLit 123) 200 (fun _ h => nomatch h),
   (sanitizeInput_spec.2.1 (utf16 "  hello  ") 200).trans (by decide)⟩

/-- C8, as stated, fails: cutting the escaped text `R&amp;D` at two code units leaves
`R&`, whose `&` starts no entity: the raw character of the input is in the output. -/
theorem sanitizeInput_raw_ampersand :
    sanitizeInput (.str (utf16 "R&D")) 2 = utf16 "R&" ∧
    38 ∈ sanitizeInput (.str (utf16 "R&D")) 2 ∧
    noRawMarkup (sanitizeInput (.str (utf16 "R&D")) 2) = false := by
  decide

/-- C8 (amended): for every string `s`, `sanitizeInput(s, max)` contains none of `<`,
`>`, `"`, `/`; it is the first `max` code units of the escaped trimmed text, in which
every `&` starts an entity; so when the escaped text has at most `max` code units the
output holds no raw `&` either. -/
theorem sanitizeInput_no_raw_markup (s : JSString) (maxLength : Nat) :
    (∀ c ∈ sanitizeInput (.str s) maxLength, c ≠ 60 ∧ c ≠ 62 ∧ c ≠ 34 ∧ c ≠ 47) ∧
    noRawMarkup (escape (trim s)) = true ∧
    sanitizeInput (.str s) maxLength = (escape (trim s)).take maxLength ∧
    ((escape (trim s)).length ≤ maxLength →
      noRawMarkup (sanitizeInput (.str s) maxLength) = true) := by
  refine ⟨?_, noRawMarkup_escape _, sanitizeInput_str s maxLength, ?_⟩
  · intro c hc
    rw [sanitizeInput_str] at hc
    exact escape_no_markup _ c (List.mem_of_mem_take hc)
  · intro h
    rw [sanitizeInput_str, List.take_of_length_le h]
    exact noRawMarkup_escape _

/-- The amended C8 at the script tag of the unit test, which fits the default bound:
the output holds no raw markup character. -/
theorem sanitizeInput_no_raw_markup_witness :
    (escape (trim (utf16 "<script>alert(\"xss\")</script>"))).length ≤ 200 ∧
    noRawMarkup (sanitizeInput (.str (utf16 "<script>alert(\"xss\")</script>")) 200) = true :=
  ⟨by decide,
   (sanitizeInput_no_raw_markup (utf16 "<script>alert(\"xss\")</script>") 200).2.2.2
     (by decide)⟩

/-- C9, as stated, fails: `'a b'` holds no escaped character, its sanitised form under
`max = 2` is `'a '`, and sanitising that again trims it to `'a'`. -/
theorem sanitizeInput_not_idempotent :
    (∀ c ∈ utf16 "a b", isEscaped c = false) ∧
    sanitizeInput (.str (utf16 "a b")) 2 = utf16 "a " ∧
    sanitizeInput (.str (sanitizeInput (.str (utf16 "a b")) 2)) 2 = utf16 "a" ∧
    sanitizeInput (.str (sanitizeInput (.str (utf16 "a b")) 2)) 2
      ≠ sanitizeInput (.str (utf16 "a b")) 2 := by
  decide

/-- C9 (amended): for every string `s` without escaped characters and every `m`,
sanitising `sanitizeInput(s, m)` again gives `sanitizeInput(s, m)` without its trailing
white space; so the second pass changes nothing whenever `sanitizeInput(s, m)` does not
end in white space, in particular whenever the trimmed `s` has at most `m` code
units. -/
theorem sanitizeInput_idempotent_up_to_cut (s : JSString) (m : Nat)
    (hsafe : ∀ c ∈ s, isEscaped c = false) :
    sanitizeInput (.str (sanitizeInput (.str s) m)) m
      = (sanitizeInput (.str s) m).rdropWhile isWhiteSpace ∧
    ((∀ c ∈ (sanitizeInput (.str s) m).getLast?, isWhiteSpace c = false) →
      sanitizeInput (.str (sanitizeInput (.str s) m)) m = sanitizeInput (.str s) m) ∧
    ((trim s).length ≤ m →
      sanitizeInput (.str (sanitizeInput (.str s) m)) m = sanitizeInput (.str s) m) := by
  have h := sanitizeInput_twice s m hsafe
  refine ⟨h, ?_, ?_⟩
  · intro hlast
    rw [h]
    exact rdropWhile_eq_self_of_last _ _ (fun c hc => hlast c hc)
  · intro hlen
    rw [h]
    apply rdropWhile_eq_self_of_last
    intro c hc
    have hsafe1 : ∀ c ∈ trim s, isEscaped c = false :=
      fun c hc => hsafe c (mem_of_mem_trim s c hc)
    rw [sanitizeInput_str, escape_of_safe _ hsafe1, List.take_of_length_le hlen] at hc
    exact trim_last s c hc

/-- The amended C9 at `'  hello  '` with the default bound: a second pass changes
nothing; and at `'a b'` with bound 2 it removes the trailing blank. -/
theorem sanitizeInput_idempotent_up_to_cut_witness :
    (∀ c ∈ utf16 "  hello  ", isEscaped c = false) ∧
    sanitizeInput (.str (sanitizeInput (.str (utf16 "  hello  ")) 200)) 200
      = sanitizeInput (.str (utf16 "  hello  ")) 200 ∧
    sanitizeInput (.str (sanitizeInput (.str (utf16 "a b")) 2)) 2
      = (sanitizeInput (.str (utf16 "a b")) 2).rdropWhile isWhiteSpace :=
  ⟨by decide,
   (sanitizeInput_idempotent_up_to_cut (utf16 "  hello  ") 200 (by decide)).2.2 (by decide),
   (sanitizeInput_idempotent_up_to_cut (utf16 "a b") 2 (by decide)).1⟩

/-- C10: a string with no white space at its start or end, none of the characters
that escaping replaces, and at most `max` code units is returned unchanged by
`sanitizeInput`. -/
theorem sanitizeInput_safe_unchanged (s : JSString) (maxLength : Nat)
    (hhead : ∀ c ∈ s.head?, isWhiteSpace c = false)
    (hlast : ∀ c ∈ s.getLast?, isWhiteSpace c = false)
    (hsafe : ∀ c ∈ s, isEscaped c = false) (hlen : s.length ≤ maxLength) :
    sanitizeInput (.str s) maxLength = s := by
  rw [sanitizeInput_str, trim_eq_self s (fun c hc => hhead c hc) (fun c hc => hlast c hc),
    escape_of_safe s hsafe, List.take_of_length_le hlen]

/-- C10 at the inputs of the unit tests: the Thai greeting and the empty string satisfy
the conditions and come back unchanged under the default bound 200. -/
theorem sanitizeInput_safe_unchanged_witness :
    (∀ c ∈ (utf16 "สวัสดีครับ").head?, isWhiteSpace c = false) ∧
    (∀ c ∈ (utf16 "สวัสดีครับ").getLast?, isWhiteSpace c = false) ∧
    (∀ c ∈ utf16 "สวัสดีครับ", isEscaped c = false) ∧
    (utf16 "สวัสดีครับ").length ≤ 200 ∧
    sanitizeInput (.str (utf16 "สวัสดีครับ")) = utf16 "สวัสดีครับ" ∧
    sanitizeInput (.str []) = [] :=
  ⟨by decide, by decide, by decide, by decide,
   sanitizeInput_safe_unchanged (utf16 "สวัสดีครับ") 200 (by decide) (by decide) (by decide)
     (by decide),
   sanitizeInput_safe_unchanged [] 200 (by decide) (by decide) (by decide) (by decide)⟩

/-! ## The answer loop -/

theorem validateAnswerIndex_range (a : JSVal) (max : Nat) (n : Int)
    (h : validateAnswerIndex a max = .ok (some n)) : 0 ≤ n ∧ n ≤ max := by
  unfold validateAnswerIndex at h
  cases hp : parseInt a 10 with
  | error t => simp [hp] at h
  | ok r =>
    cases r with
    | none => simp [hp] at h
    | some num =>
      simp only [hp] at h
      by_cases hc : num < 0 ∨ num > (max : Int)
      · simp [hc] at h
      · simp [hc] at h
        subst h
        omega

theorem MAX_OPTIONS_pred : MAX_OPTIONS - 1 = 3 := rfl

theorem answersLoop_rejected (l : List JSVal) : ∀ (i k : Nat) (a : JSVal)
    (v : List Int) (r : List JSString), l[i]? = some a →
    validateAnswerIndex a 3 = .ok none →
    (∀ j b, j < i → l[j]? = some b → ∃ n, validateAnswerIndex b 3 = .ok (some n)) →
    answersLoop k l v r = .rejected (k + i) := by
  induction l with
  | nil => intro i k a v r hi; simp at hi
  | cons x xs ih =>
    intro i k a v r hi hrej hbefore
    cases i with
    | zero =>
      simp at hi
      subst hi
      simp [answersLoop, MAX_OPTIONS_pred, hrej]
    | succ i =>
      obtain ⟨n, hn⟩ := hbefore 0 x (by omega) (by simp)
      simp only [answersLoop, MAX_OPTIONS_pred, hn]
      simp at hi
      have := ih i (k + 1) a (v ++ [n]) (r ++ [readableAnswer k n]) hi hrej
        (fun j b hj hb => hbefore (j + 1) b (by omega) (by simpa using hb))
      rw [this]
      congr 1
      omega

theorem answersLoop_done_of_all (l : List JSVal) : ∀ (k : Nat) (v : List Int)
    (r : List JSString), (∀ a ∈ l, ∃ n, validateAnswerIndex a 3 = .ok (some n)) →
    ∃ v' r', answersLoop k l v r = .done v' r' := by
  induction l with
  | nil => intro k v r _; exact ⟨v, r, rfl⟩
  | cons x xs ih =>
    intro k v r h
    obtain ⟨n, hn⟩ := h x (by simp)
    simp only [answersLoop, MAX_OPTIONS_pred, hn]
    exact ih _ _ _ (fun a ha => h a (by simp [ha]))

theorem all_of_answersLoop_done (l : List JSVal) : ∀ (k : Nat) (v : List Int)
    (r : List JSString) (v' : List Int) (r' : List JSString),
    answersLoop k l v r = .done v' r' →
    ∀ a ∈ l, ∃ n, validateAnswerIndex a 3 = .ok (some n) := by
  induction l with
  | nil => intro k v r v' r' _ a ha; simp at ha
  | cons x xs ih =>
    intro k v r v' r' h a ha
    simp only [answersLoop, MAX_OPTIONS_pred] at h
    cases hx : validateAnswerIndex x 3 with
    | error t => simp [hx] at h
    | ok res =>
      cases res with
      | none => simp [hx] at h
      | some n =>
        simp only [hx] at h
        rcases List.mem_cons.mp ha with rfl | ha
        · exact ⟨n, hx⟩
        · exact ih _ _ _ _ _ h a ha

theorem exists_throw_of_answersLoop_threw (l : List JSVal) : ∀ (k : Nat) (v : List Int)
    (r : List JSString) (t : Thrown), answersLoop k l v r = .threw t →
    ∃ a ∈ l, validateAnswerIndex a 3 = .error t := by
  induction l with
  | nil => intro k v r t h; simp [answersLoop] at h
  | cons x xs ih =>
    intro k v r t h
    simp only [answersLoop, MAX_OPTIONS_pred] at h
    cases hx : validateAnswerIndex x 3 with
    | error t' =>
      cases t
      cases t'
      exact ⟨x, by simp, hx⟩
    | ok res =>
      cases res with
      | none => simp [hx] at h
      | some n =>
        simp only [hx] at h
        obtain ⟨a, ha, hthrow⟩ := ih _ _ _ _ h
        exact ⟨a, by simp [ha], hthrow⟩

/-! ## The replies of handleSubmit, by the way the validation ends -/

theorem handleSubmit_of_rejected (env : Env) (req : Request) (u : Nat) (us : JSString)
    (l : List JSVal) (i : Nat) (hu : req.username = .str (u :: us))
    (ha : req.answers = .arr l) (hlen : l.length = TOTAL_QUESTIONS)
    (hloop : answersLoop 0 l [] [] = .rejected i) :
    handleSubmit env req
      = failure 400 (utf16 "คำตอบข้อ " ++ natText (i + 1) ++ utf16 " ไม่ถูกต้อง") := by
  unfold handleSubmit
  simp [hu, ha, hlen, hloop]

theorem handleSubmit_of_threw (env : Env) (req : Request) (u : Nat) (us : JSString)
    (l : List JSVal) (t : Thrown) (hu : req.username = .str (u :: us))
    (ha : req.answers = .arr l) (hlen : l.length = TOTAL_QUESTIONS)
    (hloop : answersLoop 0 l [] [] = .threw t) :
    handleSubmit env req = submitFailed := by
  unfold handleSubmit
  simp [hu, ha, hlen, hloop]

theorem handleSubmit_of_bad_answers (env : Env) (req : Request) (u : Nat) (us : JSString)
    (hu : req.username = .str (u :: us))
    (ha : ∀ l, req.answers = .arr l → l.length ≠ TOTAL_QUESTIONS) :
    handleSubmit env req
      = failure 400 (utf16 "ต้องมีคำตอบ " ++ natText TOTAL_QUESTIONS ++ utf16 " ข้อ") := by
  unfold handleSubmit
  rw [hu]
  cases hans : req.answers with
  | arr l => simp [ha l hans]
  | _ => simp

theorem handleSubmit_of_bad_username (env : Env) (req : Request)
    (hu : ∀ u us, req.username ≠ .str (u :: us)) :
    handleSubmit env req = failure 400 (utf16 "กรุณาระบุชื่อผู้ใช้") := by
  unfold handleSubmit
  cases hname : req.username with
  | str s =>
    cases s with
    | nil => simp
    | cons u us => exact absurd hname (hu u us)
  | _ => simp

theorem handleSubmit_of_bad_items (env : Env) (req : Request) (u : Nat) (us : JSString)
    (l : List JSVal) (v : List Int) (r : List JSString) (hu : req.username = .str (u :: us))
    (ha : req.answers = .arr l) (hlen : l.length = TOTAL_QUESTIONS)
    (hloop : answersLoop 0 l [] [] = .done v r)
    (hitems : ∀ items, req.items = .arr items → items.length ≠ TOTAL_QUESTIONS) :
    handleSubmit env req = failure 400 (utf16 "ข้อมูลไอเทมไม่ถูกต้อง") := by
  unfold handleSubmit
  simp only [hu, ha, hlen, hloop]
  cases hit : req.items with
  | arr items => simp [hitems items hit]
  | _ => simp

theorem handleSubmit_of_valid (env : Env) (req : Request) (u : Nat) (us : JSString)
    (l items : List JSVal) (v : List Int) (r : List JSString)
    (hu : req.username = .str (u :: us))
    (ha : req.answers = .arr l) (hlen : l.length = TOTAL_QUESTIONS)
    (hloop : answersLoop 0 l [] [] = .done v r)
    (hitems : req.items = .arr items) (hilen : items.length = TOTAL_QUESTIONS) :
    (handleSubmit env req).response.status = 200 ∨
      (handleSubmit env req).response.status = 500 := by
  unfold handleSubmit
  simp only [hu, ha, hlen, hloop, hitems, hilen]
  cases cleanScores req.personalityScores with
  | error t => right; simp [submitFailed, failure]
  | ok scores =>
    cases List.mapM ToString items with
    | error t => right; simp [submitFailed, failure]
    | ok texts =>
      cases hw : env.writeFails with
      | true => right; simp [submitFailed, failure]
      | false => left; simp

/-! ## handleSubmit -/

theorem acceptsAnswer_iff (a : JSVal) :
    acceptsAnswer a = true ↔ ∃ n : Int, validateAnswerIndex a 3 = .ok (some n) ∧ 0 ≤ n ∧ n ≤ 3 := by
  unfold acceptsAnswer
  cases h : validateAnswerIndex a 3 with
  | error t => simp
  | ok res =>
    cases res with
    | none => simp
    | some n => simp

theorem validBody_eightAnswers (username : JSVal) (l : List JSVal)
    (hlen : l.length = TOTAL_QUESTIONS) (hall : ∀ a ∈ l, acceptsAnswer a = true) :
    validBody (eightAnswers username l) :=
  ⟨⟨l, rfl, hlen, fun a ha => (acceptsAnswer_iff a).mp (hall a ha)⟩, ⟨_, rfl, rfl⟩⟩

/-- C1: the code at a request with a non-empty username, seven answers in range and an
eighth read from the JSON text `\x7b"toString": null\x7d`. `validateAnswerIndex`,
documented to take any value and to return the valid index or `null`, throws on that
element; the body is not valid in the sense of the claim, yet the reply is the 500 of
the `catch` block with its message about saving, not 400, while the same request with
99 in that place is answered 400. -/
theorem handleSubmit_invalid_answer_gives_500 :
    validateAnswerIndex throwingAnswer 3 = .error .typeError ∧
    ¬ validBody (eightAnswers (.str (utf16 "testuser"))
      [numLit 0, numLit 1, numLit 2, numLit 3, numLit 0, numLit 1, numLit 2, throwingAnswer]) ∧
    (handleSubmit calmEnv (eightAnswers (.str (utf16 "testuser"))
      [numLit 0, numLit 1, numLit 2, numLit 3, numLit 0, numLit 1, numLit 2,
        throwingAnswer])).response
      = ⟨500, false, utf16 "เกิดข้อผิดพลาดในการบันทึกข้อมูล"⟩ ∧
    (handleSubmit calmEnv (eightAnswers (.str (utf16 "testuser"))
      [numLit 0, numLit 1, numLit 2, numLit 3, numLit 0, numLit 1, numLit 2,
        numLit 99])).response
      = ⟨400, false, utf16 "คำตอบข้อ 8 ไม่ถูกต้อง"⟩ := by
  refine ⟨by decide, ?_, by decide, by decide⟩
  rintro ⟨⟨l, hl, _, hall⟩, _⟩
  simp only [eightAnswers, JSVal.arr.injEq] at hl
  subst hl
  obtain ⟨n, hn, _⟩ := hall throwingAnswer (by simp)
  have hthrow : validateAnswerIndex throwingAnswer 3 = .error .typeError := by decide
  rw [hthrow] at hn
  cases hn

/-- The validation of `handleSubmit` on every request whose username is a non-empty
string: a valid body (eight answers that each validate to an integer in `[0, 3]`,
eight items) is never answered 400; every other body is answered with
`success: false`, and with 400 unless `validateAnswerIndex` throws on an answer
element; so when it throws on no answer element, validation passes exactly for the
valid bodies. -/
theorem handleSubmit_validation (env : Env) (req : Request) (u : Nat) (us : JSString)
    (hu : req.username = .str (u :: us)) :
    (validBody req → (handleSubmit env req).response.status ≠ 400) ∧
    (¬ validBody req → (handleSubmit env req).response.success = false ∧
      ((handleSubmit env req).response.status = 400 ∨
        ((handleSubmit env req).response.status = 500 ∧
          ∃ l a, req.answers = .arr l ∧ a ∈ l ∧ validateAnswerIndex a 3 = .error .typeError))) ∧
    ((∀ l a, req.answers = .arr l → a ∈ l → validateAnswerIndex a 3 ≠ .error .typeError) →
      ((handleSubmit env req).response.status ≠ 400 ↔ validBody req)) := by
  have hvalid : validBody req → (handleSubmit env req).response.status ≠ 400 := by
    rintro ⟨⟨l, hl, hlen, hall⟩, ⟨items, hitems, hilen⟩⟩
    obtain ⟨v, r, hloop⟩ := answersLoop_done_of_all l 0 [] []
      (fun a ha => let ⟨n, hn, _⟩ := hall a ha; ⟨n, hn⟩)
    rcases handleSubmit_of_valid env req u us l items v r hu hl hlen hloop hitems hilen
      with h | h <;> rw [h] <;> decide
  have hinvalid : ¬ validBody req → (handleSubmit env req).response.success = false ∧
      ((handleSubmit env req).response.status = 400 ∨
        ((handleSubmit env req).response.status = 500 ∧
          ∃ l a, req.answers = .arr l ∧ a ∈ l ∧
            validateAnswerIndex a 3 = .error .typeError)) := by
    intro hnot
    by_cases hans : ∃ l, req.answers = .arr l ∧ l.length = TOTAL_QUESTIONS
    · obtain ⟨l, hl, hlen⟩ := hans
      cases hloop : answersLoop 0 l [] [] with
      | rejected i =>
        rw [handleSubmit_of_rejected env req u us l i hu hl hlen hloop]
        exact ⟨rfl, Or.inl rfl⟩
      | threw t =>
        rw [handleSubmit_of_threw env req u us l t hu hl hlen hloop]
        obtain ⟨a, ha, hthrow⟩ := exists_throw_of_answersLoop_threw l 0 [] [] t hloop
        cases t
        exact ⟨rfl, Or.inr ⟨rfl, l, a, hl, ha, hthrow⟩⟩
      | done v r =>
        have hall := all_of_answersLoop_done l 0 [] [] v r hloop
        have hitems : ∀ items, req.items = .arr items → items.length ≠ TOTAL_QUESTIONS := by
          intro items hit hilen
          apply hnot
          refine ⟨⟨l, hl, hlen, fun a ha => ?_⟩, ⟨items, hit, hilen⟩⟩
          obtain ⟨n, hn⟩ := hall a ha
          have := validateAnswerIndex_range a 3 n hn
          exact ⟨n, hn, this.1, by simpa using this.2⟩
        rw [handleSubmit_of_bad_items env req u us l v r hu hl hlen hloop hitems]
        exact ⟨rfl, Or.inl rfl⟩
    · rw [handleSubmit_of_bad_answers env req u us hu
        (fun l hl hlen => hans ⟨l, hl, hlen⟩)]
      exact ⟨rfl, Or.inl rfl⟩
  refine ⟨hvalid, hinvalid, ?_⟩
  intro hconv
  constructor
  · intro hstatus
    by_contra hnot
    rcases (hinvalid hnot).2 with h | ⟨_, l, a, hl, ha, hthrow⟩
    · exact hstatus h
    · exact hconv l a hl ha hthrow
  · exact hvalid

/-- The validation at the first eight answers of the test payload: the body is valid
and the reply is not 400. -/
theorem handleSubmit_validation_witness :
    validBody (eightAnswers (.str (utf16 "testuser")) goodAnswers) ∧
    (handleSubmit calmEnv (eightAnswers (.str (utf16 "testuser")) goodAnswers)).response.status
      ≠ 400 :=
  ⟨validBody_eightAnswers _ goodAnswers (by decide) (by decide),
   (handleSubmit_validation calmEnv (eightAnswers (.str (utf16 "testuser")) goodAnswers)
      116 (utf16 "estuser") rfl).1
      (validBody_eightAnswers _ goodAnswers (by decide) (by decide))⟩

/-- C2: the code at the payload the tests call valid. `TOTAL_QUESTIONS` is 8 while the
payload carries ten answers, so whatever the surroundings the handler answers 400 with
the message asking for 8 answers, not 200. -/
theorem handleSubmit_validPayload_rejected (env : Env) :
    TOTAL_QUESTIONS = 8 ∧
    (∃ l, validPayload.answers = .arr l ∧ l.length = 10) ∧
    (handleSubmit env validPayload).response = ⟨400, false, utf16 "ต้องมีคำตอบ 8 ข้อ"⟩ ∧
    (handleSubmit env validPayload).written = none :=
  ⟨rfl, ⟨_, rfl, rfl⟩, rfl, rfl⟩

/-- C3: the code at a request with a non-empty username and eight answers of which the
first is read from the JSON text `\x7b"toString": null\x7d` and the second is 99.
`validateAnswerIndex` rejects 99, so the array holds a rejected element; on the first
element, where its documentation promises the valid index or `null`, it throws, and
the reply is the 500 of the `catch` block, not a 400 naming a position; nothing is
written. -/
theorem handleSubmit_throw_before_rejected :
    validateAnswerIndex (numLit 99) 3 = .ok none ∧
    validateAnswerIndex throwingAnswer 3 = .error .typeError ∧
    (handleSubmit calmEnv (eightAnswers (.str (utf16 "testuser"))
      [throwingAnswer, numLit 99, numLit 2, numLit 3, numLit 0, numLit 1, numLit 2,
        numLit 3])).response
      = ⟨500, false, utf16 "เกิดข้อผิดพลาดในการบันทึกข้อมูล"⟩ ∧
    (handleSubmit calmEnv (eightAnswers (.str (utf16 "testuser"))
      [throwingAnswer, numLit 99, numLit 2, numLit 3, numLit 0, numLit 1, numLit 2,
        numLit 3])).written = none := by
  decide

/-- Answer validation is fail-fast wherever `validateAnswerIndex` does not throw. If
`answers` has the required length, its element at index `i` is rejected by
`validateAnswerIndex`, no element before it is rejected and it throws on none before
it, then the reply is 400 with `success: false`, and for a non-empty string username
its message names the 1-based position `i + 1`, whatever the later elements, the items
and the other fields are. -/
theorem handleSubmit_fail_fast (env : Env) (req : Request) (l : List JSVal) (i : Nat)
    (a : JSVal) (ha : req.answers = .arr l) (hlen : l.length = TOTAL_QUESTIONS)
    (hi : l[i]? = some a) (hrej : validateAnswerIndex a 3 = .ok none)
    (hfirst : ∀ j b, j < i → l[j]? = some b → validateAnswerIndex b 3 ≠ .ok none)
    (hconv : ∀ j b, j < i → l[j]? = some b → validateAnswerIndex b 3 ≠ .error .typeError) :
    (handleSubmit env req).response.status = 400 ∧
    (handleSubmit env req).response.success = false ∧
    (∀ u us, req.username = .str (u :: us) →
      (handleSubmit env req).response
        = ⟨400, false, utf16 "คำตอบข้อ " ++ natText (i + 1) ++ utf16 " ไม่ถูกต้อง"⟩) := by
  have hbefore : ∀ j b, j < i → l[j]? = some b →
      ∃ n, validateAnswerIndex b 3 = .ok (some n) := by
    intro j b hj hb
    cases h : validateAnswerIndex b 3 with
    | error t => cases t; exact absurd h (hconv j b hj hb)
    | ok res =>
      cases res with
      | none => exact absurd h (hfirst j b hj hb)
      | some n => exact ⟨n, rfl⟩
  have hloop := answersLoop_rejected l i 0 a [] [] hi hrej hbefore
  rw [Nat.zero_add] at hloop
  have hname : ∀ u us, req.username = .str (u :: us) →
      (handleSubmit env req).response
        = ⟨400, false, utf16 "คำตอบข้อ " ++ natText (i + 1) ++ utf16 " ไม่ถูกต้อง"⟩ := by
    intro u us hu
    rw [handleSubmit_of_rejected env req u us l i hu ha hlen hloop]
    rfl
  by_cases hu : ∃ u us, req.username = .str (u :: us)
  · obtain ⟨u, us, hu⟩ := hu
    rw [hname u us hu]
    exact ⟨rfl, rfl, fun _ _ _ => rfl⟩
  · rw [handleSubmit_of_bad_username env req (fun u us h => hu ⟨u, us, h⟩)]
    exact ⟨rfl, rfl, fun u us h => absurd ⟨u, us, h⟩ hu⟩

/-- Fail-fast validation at eight answers whose last is 99: the reply is 400 and names
question 8. -/
theorem handleSubmit_fail_fast_witness :
    validateAnswerIndex (numLit 99) 3 = .ok none ∧
    (handleSubmit calmEnv (eightAnswers (.str (utf16 "testuser"))
      [numLit 0, numLit 1, numLit 2, numLit 3, numLit 0, numLit 1, numLit 2,
        numLit 99])).response
      = ⟨400, false, utf16 "คำตอบข้อ 8 ไม่ถูกต้อง"⟩ :=
  ⟨by decide,
   (handleSubmit_fail_fast calmEnv (eightAnswers (.str (utf16 "testuser"))
      [numLit 0, numLit 1, numLit 2, numLit 3, numLit 0, numLit 1, numLit 2, numLit 99])
      [numLit 0, numLit 1, numLit 2, numLit 3, numLit 0, numLit 1, numLit 2, numLit 99]
      7 (numLit 99) rfl rfl rfl (by decide)
      (by
        intro j b hj hb
        interval_cases j <;> simp at hb <;> subst hb <;> decide)
      (by
        intro j b hj hb
        interval_cases j <;> simp at hb <;> subst hb <;> decide)).2.2
      116 (utf16 "estuser") rfl⟩

/-- C4: the code at a username of three blanks with an otherwise valid body. The
username is empty after trimming, yet the handler answers 200 and writes a record
whose username is the empty string. -/
theorem handleSubmit_blank_username_persisted :
    trim (utf16 "   ") = [] ∧
    (handleSubmit calmEnv (eightAnswers (.str (utf16 "   ")) goodAnswers)).response.status
      = 200 ∧
    (handleSubmit calmEnv (eightAnswers (.str (utf16 "   ")) goodAnswers)).response.success
      = true ∧
    ((handleSubmit calmEnv (eightAnswers (.str (utf16 "   ")) goodAnswers)).written.map
      fun file => file.2.username) = some [] := by
  decide

/-! ## app.js -/

namespace App

/-! ## The personality resolver -/

theorem renderSummaryType_eq_firstMaxKey (scores : Scores) (hC : 0 ≤ scores.C)
    (hP : 0 ≤ scores.P) (hF : 0 ≤ scores.F) (hL : 0 ≤ scores.L) :
    renderSummaryType scores = firstMaxKey scores := by
  have k1 : utf16 "P" ≠ utf16 "C" := by decide
  have k2 : utf16 "F" ≠ utf16 "C" := by decide
  have k3 : utf16 "F" ≠ utf16 "P" := by decide
  have k4 : utf16 "L" ≠ utf16 "C" := by decide
  have k5 : utf16 "L" ≠ utf16 "P" := by decide
  have k6 : utf16 "L" ≠ utf16 "F" := by decide
  simp only [renderSummaryType, typeKeys, List.foldl_cons, List.foldl_nil, Scores.get,
    firstMaxKey, k1, k2, k3, k4, k5, k6, if_true, if_false]
  split_ifs <;> first | rfl | (exfalso; omega)

theorem submitSuggestionType_eq_renderSummaryType (scores : Scores) :
    submitSuggestionType scores = renderSummaryType scores := rfl

theorem firstMaxKey_of_strict (scores : Scores) :
    (scores.P < scores.C ∧ scores.F < scores.C ∧ scores.L < scores.C →
      firstMaxKey scores = utf16 "C") ∧
    (scores.C < scores.P ∧ scores.F < scores.P ∧ scores.L < scores.P →
      firstMaxKey scores = utf16 "P") ∧
    (scores.C < scores.F ∧ scores.P < scores.F ∧ scores.L < scores.F →
      firstMaxKey scores = utf16 "F") ∧
    (scores.C < scores.L ∧ scores.P < scores.L ∧ scores.F < scores.L →
      firstMaxKey scores = utf16 "L") ∧
    (scores.C = scores.P ∧ scores.P = scores.F ∧ scores.F = scores.L →
      firstMaxKey scores = utf16 "C") := by
  simp only [firstMaxKey]
  refine ⟨?_, ?_, ?_, ?_, ?_⟩ <;> intro h <;> split_ifs <;> first | rfl | (exfalso; omega)

/-- C12: for every mapping of C, P, F, L to non-negative integers, both copies of the
resolver (in `renderSummary` and in `submitSuggestion`) return the first key in the
order C, P, F, L whose counter equals the maximum of the four; so a strict single
maximum resolves to its key whatever the other counters are, a tie to the earliest tied
key, and four equal counters (all zero included) to `'C'`. -/
theorem personality_resolution (scores : Scores) (hC : 0 ≤ scores.C) (hP : 0 ≤ scores.P)
    (hF : 0 ≤ scores.F) (hL : 0 ≤ scores.L) :
    renderSummaryType scores = firstMaxKey scores ∧
    submitSuggestionType scores = firstMaxKey scores ∧
    (scores.P < scores.C ∧ scores.F < scores.C ∧ scores.L < scores.C →
      renderSummaryType scores = utf16 "C") ∧
    (scores.C < scores.P ∧ scores.F < scores.P ∧ scores.L < scores.P →
      renderSummaryType scores = utf16 "P") ∧
    (scores.C < scores.F ∧ scores.P < scores.F ∧ scores.L < scores.F →
      renderSummaryType scores = utf16 "F") ∧
    (scores.C < scores.L ∧ scores.P < scores.L ∧ scores.F < scores.L →
      renderSummaryType scores = utf16 "L") ∧
    (scores.C = scores.P ∧ scores.P = scores.F ∧ scores.F = scores.L →
      renderSummaryType scores = utf16 "C") := by
  have h := renderSummaryType_eq_firstMaxKey scores hC hP hF hL
  have hs := firstMaxKey_of_strict scores
  rw [submitSuggestionType_eq_renderSummaryType, h]
  exact ⟨rfl, rfl, hs.1, hs.2.1, hs.2.2.1, hs.2.2.2.1, hs.2.2.2.2⟩

/-- C12 at sample counters: a tie of P and F at 3 resolves to `'P'`, a single maximum
at L to `'L'`, and all zero to `'C'`. -/
theorem personality_resolution_witness :
    renderSummaryType ⟨2, 3, 3, 0⟩ = utf16 "P" ∧
    submitSuggestionType ⟨1, 0, 2, 5⟩ = utf16 "L" ∧
    renderSummaryType ⟨0, 0, 0, 0⟩ = utf16 "C" :=
  ⟨(personality_resolution ⟨2, 3, 3, 0⟩ (by decide) (by decide) (by decide) (by decide)).1.trans
      (by decide),
   (personality_resolution ⟨1, 0, 2, 5⟩ (by decide) (by decide) (by decide) (by decide)).2.1.trans
      (by decide),
   (personality_resolution ⟨0, 0, 0, 0⟩ (by decide) (by decide) (by decide)
      (by decide)).2.2.2.2.2.2 (by decide)⟩

/-! ## The handlers, field by field -/

theorem bump_cases (scores : Scores) (pType : JSString) :
    (scores.bump pType).C = scores.C + (if pType = utf16 "C" then 1 else 0) ∧
    (scores.bump pType).P = scores.P + (if pType = utf16 "P" then 1 else 0) ∧
    (scores.bump pType).F = scores.F + (if pType = utf16 "F" then 1 else 0) ∧
    (scores.bump pType).L = scores.L + (if pType = utf16 "L" then 1 else 0) := by
  have k1 : utf16 "P" ≠ utf16 "C" := by decide
  have k2 : utf16 "F" ≠ utf16 "C" := by decide
  have k3 : utf16 "F" ≠ utf16 "P" := by decide
  have k4 : utf16 "L" ≠ utf16 "C" := by decide
  have k5 : utf16 "L" ≠ utf16 "P" := by decide
  have k6 : utf16 "L" ≠ utf16 "F" := by decide
  unfold Scores.bump
  by_cases h1 : pType = utf16 "C"
  · subst h1; simp [k1.symm, k2.symm, k4.symm]
  · by_cases h2 : pType = utf16 "P"
    · subst h2; simp [k1, k3.symm, k5.symm]
    · by_cases h3 : pType = utf16 "F"
      · subst h3; simp [k2, k3, k6.symm]
      · by_cases h4 : pType = utf16 "L"
        · subst h4; simp [k4, k5, k6]
        · simp [h1, h2, h3, h4]

theorem bump_total (scores : Scores) (pType : JSString) :
    scores.total ≤ (scores.bump pType).total ∧ (scores.bump pType).total ≤ scores.total + 1 := by
  obtain ⟨h1, h2, h3, h4⟩ := bump_cases scores pType
  have k1 : utf16 "P" ≠ utf16 "C" := by decide
  have k2 : utf16 "F" ≠ utf16 "C" := by decide
  have k3 : utf16 "F" ≠ utf16 "P" := by decide
  have k4 : utf16 "L" ≠ utf16 "C" := by decide
  have k5 : utf16 "L" ≠ utf16 "P" := by decide
  have k6 : utf16 "L" ≠ utf16 "F" := by decide
  unfold Scores.total
  rw [h1, h2, h3, h4]
  by_cases c1 : pType = utf16 "C"
  · subst c1; simp [k1.symm, k2.symm, k4.symm] <;> omega
  · by_cases c2 : pType = utf16 "P"
    · subst c2; simp [k1, k3.symm, k5.symm] <;> omega
    · by_cases c3 : pType = utf16 "F"
      · subst c3; simp [k2, k3, k6.symm] <;> omega
      · by_cases c4 : pType = utf16 "L"
        · subst c4; simp [k4, k5, k6] <;> omega
        · simp [c1, c2, c3, c4]

theorem reveal_lists (s : State) (i : Nat) (rewards : List Reward)
    (types : Option (Option (List JSString))) (b : Bool) :
    (reveal s i rewards types b).selectedAnswers = s.selectedAnswers ++ [i] ∧
    (reveal s i rewards types b).collectedItems = s.collectedItems ++ [rewards[i]?] ∧
    (reveal s i rewards types b).currentQuestion = s.currentQuestion ∧
    (reveal s i rewards types b).userName = s.userName := by
  unfold reveal
  cases types with
  | none => simp
  | some types =>
    cases types with
    | none => cases b <;> cases hr : rewards[i]? <;> simp [hr]
    | some ts =>
      cases ht : ts[i]? with
      | none => cases b <;> cases hr : rewards[i]? <;> simp [ht, hr]
      | some pType =>
        by_cases hp : pType.isEmpty = true
        · cases b <;> cases hr : rewards[i]? <;> simp [ht, hp, hr]
        · cases b <;> cases hr : rewards[i]? <;> simp [ht, hp, hr]

theorem reveal_scores (s : State) (i : Nat) (rewards : List Reward)
    (types : Option (Option (List JSString))) (b : Bool) :
    (reveal s i rewards types b).personalityScores = s.personalityScores ∨
    ∃ pType, (reveal s i rewards types b).personalityScores = s.personalityScores.bump pType := by
  unfold reveal
  cases types with
  | none => simp
  | some types =>
    cases types with
    | none => cases b <;> cases hr : rewards[i]? <;> simp [hr]
    | some ts =>
      cases ht : ts[i]? with
      | none => cases b <;> cases hr : rewards[i]? <;> simp [ht, hr]
      | some pType =>
        by_cases hp : pType.isEmpty = true
        · cases b <;> cases hr : rewards[i]? <;> simp [ht, hp, hr]
        · right
          refine ⟨pType, ?_⟩
          cases b <;> cases hr : rewards[i]? <;> simp [ht, hp, hr]

theorem reveal_page (s : State) (i : Nat) (rewards : List Reward)
    (types : Option (Option (List JSString))) (b : Bool) :
    (reveal s i rewards types b).page = s.page ∨ (reveal s i rewards types b).page = .reveal := by
  unfold reveal
  cases types with
  | none => simp
  | some types =>
    cases types with
    | none => cases b <;> cases hr : rewards[i]? <;> simp [hr]
    | some ts =>
      cases ht : ts[i]? with
      | none => cases b <;> cases hr : rewards[i]? <;> simp [ht, hr]
      | some pType =>
        by_cases hp : pType.isEmpty = true
        · cases b <;> cases hr : rewards[i]? <;> simp [ht, hp, hr]
        · cases b <;> cases hr : rewards[i]? <;> simp [ht, hp, hr]

theorem reveal_complete (s : State) (i : Nat) (rewards : List Reward)
    (types : Option (List JSString)) (reward : Reward) (hr : rewards[i]? = some reward) :
    reveal s i rewards (some types) true =
      { s with selectedAnswers := s.selectedAnswers ++ [i],
               collectedItems := s.collectedItems ++ [some reward],
               personalityScores := scored s.personalityScores (tagAt types i),
               isInSubQuestion := false, subQuestionData := none,
               parentSelectionIndex := -1, page := .reveal } := by
  unfold reveal tagAt scored
  rw [hr]
  cases types with
  | none => simp
  | some ts =>
    cases ht : ts[i]? with
    | none => simp [ht]
    | some pType =>
      by_cases hp : pType.isEmpty = true
      · simp [ht, hp]
      · simp [ht, hp]

theorem selectAnswer_cases (QUESTIONS : List Question) (s : State) (i : Nat) :
    selectAnswer QUESTIONS s i = s ∨
    (∃ q, selectAnswer QUESTIONS s i = renderSubQuestion q i s) ∨
    (∃ rewards types b, selectAnswer QUESTIONS s i = reveal s i rewards types b) := by
  unfold selectAnswer
  cases hsub : s.isInSubQuestion with
  | false =>
    cases hq : QUESTIONS[s.currentQuestion]? with
    | none => left; simp
    | some q =>
      by_cases hs : (q.subQuestion.isSome || q.subQuestions.isSome) = true
      · right; left; exact ⟨q, by simp [hs]⟩
      · right; right; exact ⟨q.rewards, some q.types, true, by simp [hs]⟩
  | true =>
    cases hd : s.subQuestionData with
    | none => left; simp
    | some activeQ =>
      right; right
      exact ⟨_, _, _, rfl⟩

/-! ## Invariants of the reachable states -/

theorem renderSubQuestion_frame (q : Question) (i : Nat) (s : State) :
    (renderSubQuestion q i s).selectedAnswers = s.selectedAnswers ∧
    (renderSubQuestion q i s).collectedItems = s.collectedItems ∧
    (renderSubQuestion q i s).personalityScores = s.personalityScores ∧
    (renderSubQuestion q i s).currentQuestion = s.currentQuestion ∧
    (renderSubQuestion q i s).userName = s.userName ∧
    (renderSubQuestion q i s).page = s.page ∧
    (renderSubQuestion q i s).isInSubQuestion = true ∧
    (renderSubQuestion q i s).parentSelectionIndex = i ∧
    (renderSubQuestion q i s).subQuestionData = subQuestionOf q i := by
  unfold renderSubQuestion subQuestionOf
  cases hs : q.subQuestions with
  | none => cases hq : q.subQuestion <;> simp [hq]
  | some subs => cases hi : subs[i]? <;> simp [hi]

theorem renderQuestion_frame (QUESTIONS : List Question) (s : State) :
    (renderQuestion QUESTIONS s).1.selectedAnswers = s.selectedAnswers ∧
    (renderQuestion QUESTIONS s).1.collectedItems = s.collectedItems ∧
    (renderQuestion QUESTIONS s).1.personalityScores = s.personalityScores ∧
    (renderQuestion QUESTIONS s).1.currentQuestion = s.currentQuestion ∧
    (renderQuestion QUESTIONS s).1.userName = s.userName ∧
    (renderQuestion QUESTIONS s).1.page = s.page ∧
    (renderQuestion QUESTIONS s).1.summaryType = s.summaryType ∧
    (renderQuestion QUESTIONS s).1.isInSubQuestion = false ∧
    (renderQuestion QUESTIONS s).1.subQuestionData = none ∧
    (renderQuestion QUESTIONS s).1.parentSelectionIndex = -1 := by
  unfold renderQuestion
  cases hq : QUESTIONS[s.currentQuestion]? <;> simp [hq]

theorem renderQuestion_flag (QUESTIONS : List Question) (s : State) :
    (renderQuestion QUESTIONS s).2 = (QUESTIONS[s.currentQuestion]?).isSome ∧
    ∀ q, QUESTIONS[s.currentQuestion]? = some q →
      (renderQuestion QUESTIONS s).1.optionCount = q.options.length := by
  unfold renderQuestion
  cases hq : QUESTIONS[s.currentQuestion]? <;> simp [hq]

theorem selectAnswer_frame (QUESTIONS : List Question) (s : State) (i : Nat) :
    (selectAnswer QUESTIONS s i).currentQuestion = s.currentQuestion ∧
    (selectAnswer QUESTIONS s i).userName = s.userName ∧
    ((selectAnswer QUESTIONS s i).page = s.page ∨ (selectAnswer QUESTIONS s i).page = .reveal) := by
  rcases selectAnswer_cases QUESTIONS s i with h | ⟨q, h⟩ | ⟨r, t, b, h⟩
  · rw [h]; exact ⟨rfl, rfl, Or.inl rfl⟩
  · rw [h]
    have := renderSubQuestion_frame q i s
    exact ⟨this.2.2.2.1, this.2.2.2.2.1, Or.inl this.2.2.2.2.2.1⟩
  · rw [h]
    have := reveal_lists s i r t b
    exact ⟨this.2.2.1, this.2.2.2, reveal_page s i r t b⟩

theorem selectAnswer_total (QUESTIONS : List Question) (s : State) (i : Nat) :
    s.personalityScores.total ≤ (selectAnswer QUESTIONS s i).personalityScores.total ∧
    (selectAnswer QUESTIONS s i).personalityScores.total ≤ s.personalityScores.total + 1 ∧
    ((selectAnswer QUESTIONS s i).personalityScores ≠ s.personalityScores →
      (selectAnswer QUESTIONS s i).selectedAnswers = s.selectedAnswers ++ [i]) ∧
    s.selectedAnswers.length ≤ (selectAnswer QUESTIONS s i).selectedAnswers.length ∧
    s.personalityScores.C ≤ (selectAnswer QUESTIONS s i).personalityScores.C ∧
    s.personalityScores.P ≤ (selectAnswer QUESTIONS s i).personalityScores.P ∧
    s.personalityScores.F ≤ (selectAnswer QUESTIONS s i).personalityScores.F ∧
    s.personalityScores.L ≤ (selectAnswer QUESTIONS s i).personalityScores.L := by
  rcases selectAnswer_cases QUESTIONS s i with h | ⟨q, h⟩ | ⟨r, t, b, h⟩
  · rw [h]; simp
  · rw [h]
    have := renderSubQuestion_frame q i s
    rw [this.1, this.2.2.1]; simp
  · rw [h]
    have hl := reveal_lists s i r t b
    rw [hl.1]
    rcases reveal_scores s i r t b with hs | ⟨pType, hs⟩
    · rw [hs]; simp
    · rw [hs]
      have hb := bump_total s.personalityScores pType
      obtain ⟨c1, c2, c3, c4⟩ := bump_cases s.personalityScores pType
      refine ⟨hb.1, hb.2, fun _ => rfl, by simp, ?_, ?_, ?_, ?_⟩
      · rw [c1]; split_ifs <;> omega
      · rw [c2]; split_ifs <;> omega
      · rw [c3]; split_ifs <;> omega
      · rw [c4]; split_ifs <;> omega

theorem submitName_cases (QUESTIONS : List Question) (s : State) (value : JSString) :
    (trim value = [] ∧ submitName QUESTIONS s value = { s with userName := [] }) ∨
    (trim value ≠ [] ∧
      (submitName QUESTIONS s value).userName = (trim value).take 30 ∧
      (submitName QUESTIONS s value).currentQuestion = 0 ∧
      (submitName QUESTIONS s value).selectedAnswers = [] ∧
      (submitName QUESTIONS s value).collectedItems = [] ∧
      (submitName QUESTIONS s value).personalityScores = ⟨0, 0, 0, 0⟩ ∧
      (submitName QUESTIONS s value).isInSubQuestion = false ∧
      (submitName QUESTIONS s value).subQuestionData = none ∧
      (submitName QUESTIONS s value).parentSelectionIndex = -1 ∧
      ((∃ q, QUESTIONS[0]? = some q ∧ (submitName QUESTIONS s value).page = .question ∧
          (submitName QUESTIONS s value).optionCount = q.options.length) ∨
        (QUESTIONS[0]? = none ∧ (submitName QUESTIONS s value).page = s.page))) := by
  by_cases h : trim value = []
  · left
    refine ⟨h, ?_⟩
    unfold submitName
    simp [h]
  · right
    refine ⟨h, ?_⟩
    have hne : (trim value).isEmpty = false := by
      cases ht : trim value with
      | nil => exact absurd ht h
      | cons a l => rfl
    have htake : (if (trim value).length > 30 then (trim value).take 30 else trim value)
        = (trim value).take 30 := by
      split_ifs with hl
      · rfl
      · rw [List.take_of_length_le (by omega)]
    unfold submitName
    simp only [hne, Bool.false_eq_true, if_false, htake]
    unfold renderQuestion
    cases hq : QUESTIONS[0]? with
    | none => simp [hq]
    | some q => simp [hq]

theorem nextQuestion_cases (QUESTIONS : List Question) (s : State) :
    (nextQuestion QUESTIONS s).currentQuestion = s.currentQuestion + 1 ∧
    (nextQuestion QUESTIONS s).selectedAnswers = s.selectedAnswers ∧
    (nextQuestion QUESTIONS s).collectedItems = s.collectedItems ∧
    (nextQuestion QUESTIONS s).personalityScores = s.personalityScores ∧
    (nextQuestion QUESTIONS s).userName = s.userName ∧
    ((∃ q, QUESTIONS[s.currentQuestion + 1]? = some q ∧
        (nextQuestion QUESTIONS s).page = .question ∧
        (nextQuestion QUESTIONS s).optionCount = q.options.length ∧
        (nextQuestion QUESTIONS s).isInSubQuestion = false ∧
        (nextQuestion QUESTIONS s).subQuestionData = none ∧
        (nextQuestion QUESTIONS s).parentSelectionIndex = -1) ∨
      (QUESTIONS.length ≤ s.currentQuestion + 1 ∧ (nextQuestion QUESTIONS s).page = .summary ∧
        (nextQuestion QUESTIONS s).summaryType = some (renderSummaryType s.personalityScores))) := by
  unfold nextQuestion
  by_cases h : s.currentQuestion + 1 < QUESTIONS.length
  · have hq : QUESTIONS[s.currentQuestion + 1]? = some (QUESTIONS[s.currentQuestion + 1]) :=
      List.getElem?_eq_getElem h
    simp only [h, if_true]
    unfold renderQuestion
    simp [hq]
  · simp only [h, if_false]
    simp
    omega

theorem selectAnswer_open (QUESTIONS : List Question) (s : State) (i : Nat) (q : Question)
    (hq : QUESTIONS[s.currentQuestion]? = some q) (hs : s.isInSubQuestion = false)
    (hsub : q.subQuestion.isSome ∨ q.subQuestions.isSome) :
    selectAnswer QUESTIONS s i = renderSubQuestion q i s := by
  unfold selectAnswer
  rw [hs, hq]
  have : (q.subQuestion.isSome || q.subQuestions.isSome) = true := by
    rcases hsub with h | h <;> simp [h]
  simp [this]

theorem selectAnswer_plain (QUESTIONS : List Question) (s : State) (i : Nat) (q : Question)
    (reward : Reward) (hq : QUESTIONS[s.currentQuestion]? = some q)
    (hs : s.isInSubQuestion = false) (h1 : q.subQuestion = none) (h2 : q.subQuestions = none)
    (hr : q.rewards[i]? = some reward) :
    selectAnswer QUESTIONS s i =
      { s with selectedAnswers := s.selectedAnswers ++ [i],
               collectedItems := s.collectedItems ++ [some reward],
               personalityScores := scored s.personalityScores (tagAt q.types i),
               isInSubQuestion := false, subQuestionData := none,
               parentSelectionIndex := -1, page := .reveal } := by
  rw [← reveal_complete s i q.rewards q.types reward hr]
  unfold selectAnswer
  rw [hs, hq]
  simp [h1, h2]

theorem selectAnswer_sub (QUESTIONS : List Question) (s : State) (i : Nat) (q : Question)
    (sub : SubQuestion) (reward : Reward) (hq : QUESTIONS[s.currentQuestion]? = some q)
    (hs : s.isInSubQuestion = true) (hd : s.subQuestionData = some sub)
    (hr : sub.rewards[i]? = some reward) :
    selectAnswer QUESTIONS s i =
      { s with selectedAnswers := s.selectedAnswers ++ [i],
               collectedItems := s.collectedItems ++ [some reward],
               personalityScores :=
                 scored s.personalityScores (tagAt (resolvedTypes sub.types q.types) i),
               isInSubQuestion := false, subQuestionData := none,
               parentSelectionIndex := -1, page := .reveal } := by
  rw [← reveal_complete s i sub.rewards (resolvedTypes sub.types q.types) reward hr]
  unfold selectAnswer
  rw [hs, hq]
  simp only [hd]
  cases ht : sub.types <;> simp [resolvedTypes, ht]

theorem scored_cases (scores : Scores) (tag : Option JSString) :
    (scored scores tag).C = scores.C + (if tag = some (utf16 "C") then 1 else 0) ∧
    (scored scores tag).P = scores.P + (if tag = some (utf16 "P") then 1 else 0) ∧
    (scored scores tag).F = scores.F + (if tag = some (utf16 "F") then 1 else 0) ∧
    (scored scores tag).L = scores.L + (if tag = some (utf16 "L") then 1 else 0) := by
  cases tag with
  | none => simp [scored]
  | some pType => simpa [scored] using bump_cases scores pType

/-! ## Invariants of the reachable states -/

theorem scoreInv_of_reachable (QUESTIONS : List Question) (s : State)
    (h : Reachable QUESTIONS s) : ScoreInv s := by
  induction h with
  | init => simp [ScoreInv, initialState, Scores.total]
  | start s value _ _ ih =>
    rcases submitName_cases QUESTIONS s value with ⟨_, h⟩ | ⟨_, _, _, h1, _, h2, _⟩
    · rw [h]; exact ih
    · simp [ScoreInv, h1, h2, Scores.total]
  | select s i _ _ _ ih =>
    obtain ⟨c1, c2, c3, c4, c5⟩ := ih
    obtain ⟨t1, t2, t3, t4, d1, d2, d3, d4⟩ := selectAnswer_total QUESTIONS s i
    refine ⟨by omega, by omega, by omega, by omega, ?_⟩
    by_cases hchg : (selectAnswer QUESTIONS s i).personalityScores = s.personalityScores
    · rw [hchg]; omega
    · rw [t3 hchg]
      simp
      omega
  | next s _ _ ih =>
    obtain ⟨_, h1, _, h2, _⟩ := nextQuestion_cases QUESTIONS s
    simpa [ScoreInv, h1, h2] using ih

theorem pageInv_of_reachable (QUESTIONS : List Question) (s : State)
    (h : Reachable QUESTIONS s) : PageInv QUESTIONS s := by
  induction h with
  | init => exact ⟨Nat.zero_le _, by simp [initialState], fun _ _ => rfl⟩
  | start s value _ hp ih =>
    rcases submitName_cases QUESTIONS s value with ⟨ht, h⟩ | ⟨_, _, h0, _, _, _, _, _, _, h⟩
    · by_cases hne : QUESTIONS = []
      · rw [h]
        refine ⟨ih.1, ?_, fun _ hq => absurd hne hq⟩
        intro hpage
        exact ih.2.1 hpage
      · have := ih.2.2 hp hne
        rw [h, this]
        exact ⟨Nat.zero_le _, by simp [initialState], fun _ _ => rfl⟩
    · rcases h with ⟨q, hq, hpage, _⟩ | ⟨hq, hpage⟩
      · have hlen : 0 < QUESTIONS.length := by
          cases QUESTIONS with
          | nil => simp at hq
          | cons a l => simp
        refine ⟨by omega, fun _ => by omega, ?_⟩
        intro hc
        rw [hpage] at hc
        cases hc
      · have hnil : QUESTIONS = [] := by
          cases QUESTIONS with
          | nil => rfl
          | cons a l => simp at hq
        refine ⟨by omega, ?_, fun _ hne => absurd hnil hne⟩
        intro hc
        rw [hpage, hp] at hc
        rcases hc with hc | hc <;> cases hc
  | select s i _ hp _ ih =>
    obtain ⟨h1, _, h3⟩ := selectAnswer_frame QUESTIONS s i
    have hlt := ih.2.1 (Or.inl hp)
    refine ⟨by omega, fun _ => by omega, ?_⟩
    intro hc
    rcases h3 with h3 | h3 <;> rw [h3] at hc
    · rw [hp] at hc; cases hc
    · cases hc
  | next s _ hp ih =>
    obtain ⟨h1, _, _, _, _, h⟩ := nextQuestion_cases QUESTIONS s
    have hlt := ih.2.1 (Or.inr hp)
    rcases h with ⟨q, hq, hpage, _⟩ | ⟨hle, hpage, _⟩
    · have : s.currentQuestion + 1 < QUESTIONS.length := by
        by_contra hcon
        rw [List.getElem?_eq_none (by omega)] at hq
        cases hq
      refine ⟨by omega, fun _ => by omega, ?_⟩
      intro hc
      rw [hpage] at hc
      cases hc
    · refine ⟨by omega, ?_, ?_⟩
      · intro hc
        rw [hpage] at hc
        rcases hc with hc | hc <;> cases hc
      · intro hc
        rw [hpage] at hc
        cases hc

theorem getElem?_mem_of_some {α : Type} (l : List α) (i : Nat) (a : α) (h : l[i]? = some a) :
    a ∈ l := by
  rw [List.getElem?_eq_some] at h
  obtain ⟨hi, rfl⟩ := h
  exact List.getElem_mem hi

theorem getElem?_of_lt {α : Type} (l : List α) (i : Nat) (h : i < l.length) :
    ∃ a, l[i]? = some a :=
  ⟨l[i], List.getElem?_eq_getElem h⟩

theorem countInv_of_reachable (QUESTIONS : List Question) (hwf : WellFormed QUESTIONS)
    (s : State) (h : Reachable QUESTIONS s) : CountInv QUESTIONS s := by
  induction h with
  | init => simp [CountInv, initialState]
  | start s value _ hp ih =>
    rcases submitName_cases QUESTIONS s value with ⟨_, h⟩ | ⟨_, _, h0, h1, h2, _, h3, _, _, h⟩
    · rw [h]; exact ih
    · rcases h with ⟨q, hq, hpage, hcount⟩ | ⟨hq, hpage⟩
      · refine ⟨by simp [h1, h2], ?_, ?_, ?_⟩
        · intro hc; rw [hpage] at hc; cases hc
        · intro _; simp [h1, h0]
        · intro _
          rw [h0]
          exact ⟨q, hq, fun _ => hcount, fun hc => by rw [h3] at hc; cases hc⟩
      · refine ⟨by simp [h1, h2], ?_, ?_, ?_⟩
        · intro hc; rw [hpage, hp] at hc; cases hc
        · intro _; simp [h1, h0]
        · intro hc; rw [hpage, hp] at hc; cases hc
  | select s i _ hp hi ih =>
    obtain ⟨hlen, _, hidx, hq⟩ := ih
    have hidx := hidx (by rw [hp]; decide)
    obtain ⟨q, hq, hplain, hinsub⟩ := hq hp
    have hqmem := getElem?_mem_of_some QUESTIONS _ q hq
    obtain ⟨wq, wshared, wper⟩ := hwf q hqmem
    cases hs : s.isInSubQuestion with
    | false =>
      have hcount := hplain hs
      by_cases hsub : q.subQuestion.isSome ∨ q.subQuestions.isSome
      · rw [selectAnswer_open QUESTIONS s i q hq hs hsub]
        obtain ⟨f1, f2, _, f4, _, f6, f7, _, f9⟩ := renderSubQuestion_frame q i s
        have hsubq : ∃ sub, subQuestionOf q i = some sub ∧
            sub.options.length = sub.rewards.length := by
          unfold subQuestionOf
          cases hper : q.subQuestions with
          | some subs =>
            obtain ⟨hl, hall⟩ := wper subs hper
            obtain ⟨sub, hsome⟩ := getElem?_of_lt subs i (by omega)
            exact ⟨sub, hsome, hall sub (getElem?_mem_of_some subs i sub hsome)⟩
          | none =>
            have : q.subQuestion.isSome := by
              rcases hsub with h | h
              · exact h
              · rw [hper] at h; cases h
            obtain ⟨sub, hsome⟩ := Option.isSome_iff_exists.mp this
            exact ⟨sub, hsome, wshared sub hsome⟩
        obtain ⟨sub, hsome, hwsub⟩ := hsubq
        refine ⟨by rw [f1, f2]; exact hlen, ?_, ?_, ?_⟩
        · intro hc; rw [f6, hp] at hc; cases hc
        · intro _; rw [f1, f4]; exact hidx
        · intro _
          rw [f4]
          refine ⟨q, hq, fun hc => (by rw [f7] at hc; cases hc), fun _ => ?_⟩
          refine ⟨sub, by rw [f9, hsome], ?_, hwsub⟩
          unfold renderSubQuestion
          unfold subQuestionOf at hsome
          simp [hsome]
      · have h1 : q.subQuestion = none := by
          cases h : q.subQuestion with
          | none => rfl
          | some x => exact absurd (Or.inl (by simp [h])) hsub
        have h2 : q.subQuestions = none := by
          cases h : q.subQuestions with
          | none => rfl
          | some x => exact absurd (Or.inr (by simp [h])) hsub
        obtain ⟨reward, hr⟩ := getElem?_of_lt q.rewards i (by omega)
        rw [selectAnswer_plain QUESTIONS s i q reward hq hs h1 h2 hr]
        refine ⟨by simp [hlen], ?_, ?_, ?_⟩
        · intro _; simp [hidx]
        · intro hc; simp at hc
        · intro hc; simp at hc
    | true =>
      obtain ⟨sub, hd, hcount, hwsub⟩ := hinsub hs
      obtain ⟨reward, hr⟩ := getElem?_of_lt sub.rewards i (by omega)
      rw [selectAnswer_sub QUESTIONS s i q sub reward hq hs hd hr]
      refine ⟨by simp [hlen], ?_, ?_, ?_⟩
      · intro _; simp [hidx]
      · intro hc; simp at hc
      · intro hc; simp at hc
  | next s _ hp ih =>
    obtain ⟨hlen, hrev, _, _⟩ := ih
    have hrev := hrev hp
    obtain ⟨h1, h2, h3, _, _, h⟩ := nextQuestion_cases QUESTIONS s
    refine ⟨by rw [h2, h3]; exact hlen, ?_, ?_, ?_⟩
    · intro hc
      rcases h with ⟨_, _, hpage, _⟩ | ⟨_, hpage, _⟩ <;> rw [hpage] at hc <;> cases hc
    · intro _; rw [h1, h2]; exact hrev
    · intro hc
      rcases h with ⟨q, hq, hpage, hcount, hsub, _⟩ | ⟨_, hpage, _⟩
      · rw [h1]
        exact ⟨q, hq, fun _ => hcount, fun hc => by rw [hsub] at hc; cases hc⟩
      · rw [hpage] at hc; cases hc

/-! ## The quiz state machine -/

theorem sampleBank_wellFormed : WellFormed sampleBank := by
  intro q hq
  simp only [sampleBank, List.mem_cons, List.mem_singleton, List.not_mem_nil, or_false] at hq
  rcases hq with rfl | rfl | rfl
  · refine ⟨rfl, fun sub h => by simp [plainQuestion] at h,
      fun subs h => by simp [plainQuestion] at h⟩
  · refine ⟨rfl, fun sub h => ?_, fun subs h => by simp [sharedQuestion] at h⟩
    simp [sharedQuestion] at h
    subst h
    rfl
  · refine ⟨rfl, fun sub h => by simp [perOptionQuestion] at h, fun subs h => ?_⟩
    simp [perOptionQuestion] at h
    subst h
    refine ⟨rfl, ?_⟩
    intro sub hsub
    simp at hsub
    rcases hsub with rfl | rfl <;> rfl

theorem started_reachable : Reachable sampleBank started :=
  Reachable.start initialState (utf16 "Dao") Reachable.init rfl

theorem answered_reachable : Reachable sampleBank (selectAnswer sampleBank started 0) :=
  Reachable.select started 0 started_reachable (by decide) (by decide)

/-- C13, as stated, fails: on the reveal screen of the first question, before
completion, one answer and one item are recorded while `currentQuestion` is still 0. -/
theorem lists_ahead_on_reveal :
    Reachable sampleBank (selectAnswer sampleBank started 0) ∧
    (selectAnswer sampleBank started 0).currentQuestion < sampleBank.length ∧
    (selectAnswer sampleBank started 0).selectedAnswers.length = 1 ∧
    (selectAnswer sampleBank started 0).collectedItems.length = 1 ∧
    (selectAnswer sampleBank started 0).currentQuestion = 0 :=
  ⟨Reachable.select started 0 (Reachable.start initialState (utf16 "Dao") Reachable.init rfl)
      (by decide) (by decide),
   by decide, by decide, by decide, by decide⟩

/-- C13 (amended): for a bank in which every question and sub-question has one reward
per option and a per-option array one sub-question per option, in every state
reachable by `submitName`, `selectAnswer` and `nextQuestion` steps the two lists have
the same length; that length is `currentQuestion` on every screen but the reveal, and
`currentQuestion + 1` on the reveal screen, where the answer just given is recorded and
the index not yet advanced. -/
theorem lists_track_index (QUESTIONS : List Question) (hwf : WellFormed QUESTIONS)
    (s : State) (h : Reachable QUESTIONS s) :
    s.selectedAnswers.length = s.collectedItems.length ∧
    (s.page ≠ .reveal → s.selectedAnswers.length = s.currentQuestion) ∧
    (s.page = .reveal → s.selectedAnswers.length = s.currentQuestion + 1) := by
  obtain ⟨h1, h2, h3, _⟩ := countInv_of_reachable QUESTIONS hwf s h
  exact ⟨h1, h3, h2⟩

/-- The amended C13 on the sample bank: after the first answer and the advance to the
second question, one answer and one item are recorded and the index is 1. -/
theorem lists_track_index_witness :
    WellFormed sampleBank ∧
    Reachable sampleBank (nextQuestion sampleBank (selectAnswer sampleBank started 0)) ∧
    (nextQuestion sampleBank (selectAnswer sampleBank started 0)).selectedAnswers.length
      = (nextQuestion sampleBank (selectAnswer sampleBank started 0)).currentQuestion :=
  ⟨sampleBank_wellFormed,
   Reachable.next _ answered_reachable (by decide),
   (lists_track_index sampleBank sampleBank_wellFormed _
      (Reachable.next _ answered_reachable (by decide))).2.1 (by decide)⟩

/-- C14: in every reachable state each of the four counters is non-negative and their
sum is at most the number of recorded answers; and a `selectAnswer` step never lowers
the sum and raises it by at most one. -/
theorem counters_bounded (QUESTIONS : List Question) (s : State)
    (h : Reachable QUESTIONS s) :
    0 ≤ s.personalityScores.C ∧ 0 ≤ s.personalityScores.P ∧ 0 ≤ s.personalityScores.F ∧
    0 ≤ s.personalityScores.L ∧
    s.personalityScores.C + s.personalityScores.P + s.personalityScores.F
      + s.personalityScores.L ≤ s.selectedAnswers.length ∧
    ∀ i, s.personalityScores.total ≤ (selectAnswer QUESTIONS s i).personalityScores.total ∧
      (selectAnswer QUESTIONS s i).personalityScores.total ≤ s.personalityScores.total + 1 := by
  obtain ⟨h1, h2, h3, h4, h5⟩ := scoreInv_of_reachable QUESTIONS s h
  refine ⟨h1, h2, h3, h4, h5, fun i => ?_⟩
  have := selectAnswer_total QUESTIONS s i
  exact ⟨this.1, this.2.1⟩

/-- C14 on the sample bank: after the first answer (tagged `C`) the counters sum to 1,
with one answer recorded. -/
theorem counters_bounded_witness :
    Reachable sampleBank (selectAnswer sampleBank started 0) ∧
    (selectAnswer sampleBank started 0).personalityScores = ⟨1, 0, 0, 0⟩ ∧
    (selectAnswer sampleBank started 0).personalityScores.C
      + (selectAnswer sampleBank started 0).personalityScores.P
      + (selectAnswer sampleBank started 0).personalityScores.F
      + (selectAnswer sampleBank started 0).personalityScores.L
      ≤ (selectAnswer sampleBank started 0).selectedAnswers.length :=
  ⟨answered_reachable, by decide,
   (counters_bounded sampleBank _ answered_reachable).2.2.2.2.1⟩

/-- C15: `selectAnswer(index)` on a question that declares `subQuestion` or
`subQuestions`, while `isInSubQuestion` is false, leaves `selectedAnswers`,
`collectedItems`, `personalityScores` and `currentQuestion` unchanged, sets
`isInSubQuestion` to true and `parentSelectionIndex` to `index`, and sets
`subQuestionData` to `subQuestions[index]` when the per-option array is present and to
the shared `subQuestion` otherwise. -/
theorem selectAnswer_opens_subQuestion (QUESTIONS : List Question) (s : State) (index : Nat)
    (q : Question) (hq : QUESTIONS[s.currentQuestion]? = some q)
    (hs : s.isInSubQuestion = false) (hsub : q.subQuestion.isSome ∨ q.subQuestions.isSome) :
    (selectAnswer QUESTIONS s index).selectedAnswers = s.selectedAnswers ∧
    (selectAnswer QUESTIONS s index).collectedItems = s.collectedItems ∧
    (selectAnswer QUESTIONS s index).personalityScores = s.personalityScores ∧
    (selectAnswer QUESTIONS s index).currentQuestion = s.currentQuestion ∧
    (selectAnswer QUESTIONS s index).isInSubQuestion = true ∧
    (selectAnswer QUESTIONS s index).parentSelectionIndex = index ∧
    (∀ subQuestions, q.subQuestions = some subQuestions →
      (selectAnswer QUESTIONS s index).subQuestionData = subQuestions[index]?) ∧
    (q.subQuestions = none →
      (selectAnswer QUESTIONS s index).subQuestionData = q.subQuestion) := by
  rw [selectAnswer_open QUESTIONS s index q hq hs hsub]
  obtain ⟨f1, f2, f3, f4, _, _, f7, f8, f9⟩ := renderSubQuestion_frame q index s
  refine ⟨f1, f2, f3, f4, f7, f8, ?_, ?_⟩
  · intro subs h; rw [f9]; simp [subQuestionOf, h]
  · intro h; rw [f9]; simp [subQuestionOf, h]

/-- C15 on the sample bank: choosing option 1 of the question with per-option
sub-questions records nothing and opens the second sub-question. -/
theorem selectAnswer_opens_subQuestion_witness :
    (selectAnswer sampleBank (atQuestion 2) 1).isInSubQuestion = true ∧
    (selectAnswer sampleBank (atQuestion 2) 1).parentSelectionIndex = 1 ∧
    (selectAnswer sampleBank (atQuestion 2) 1).selectedAnswers = [] ∧
    ((selectAnswer sampleBank (atQuestion 2) 1).subQuestionData.map
      fun sub => sub.options) = some [utf16 "k", utf16 "l"] :=
  have h := selectAnswer_opens_subQuestion sampleBank (atQuestion 2) 1 perOptionQuestion
    rfl rfl (Or.inr rfl)
  ⟨h.2.2.2.2.1, h.2.2.2.2.2.1, h.1.trans (by decide), by decide⟩

/-- C16: `selectAnswer(index)` on a question with no sub-question, or while inside a
sub-question, when the active question (the sub-question when inside one, else the
top-level question) has a reward at `index`: exactly `index` is appended to
`selectedAnswers` and exactly that reward to `collectedItems`; the counter of the tag
at `index` (of the `types` of the active question, or of the top-level question when
the active one has none) is raised by one when the tag is one of C, P, F, L, and no
counter changes otherwise; `currentQuestion` is unchanged, and the step ends with
`isInSubQuestion` false, `subQuestionData` null and `parentSelectionIndex` -1. -/
theorem selectAnswer_records (QUESTIONS : List Question) (s : State) (index : Nat)
    (q : Question) (rewards : List Reward) (types : Option (List JSString)) (reward : Reward)
    (hq : QUESTIONS[s.currentQuestion]? = some q)
    (hactive : (s.isInSubQuestion = false ∧ q.subQuestion = none ∧ q.subQuestions = none ∧
        rewards = q.rewards ∧ types = q.types) ∨
      (s.isInSubQuestion = true ∧ ∃ sub, s.subQuestionData = some sub ∧
        rewards = sub.rewards ∧ types = resolvedTypes sub.types q.types))
    (hr : rewards[index]? = some reward) :
    (selectAnswer QUESTIONS s index).selectedAnswers = s.selectedAnswers ++ [index] ∧
    (selectAnswer QUESTIONS s index).collectedItems = s.collectedItems ++ [some reward] ∧
    (selectAnswer QUESTIONS s index).personalityScores.C
      = s.personalityScores.C + (if tagAt types index = some (utf16 "C") then 1 else 0) ∧
    (selectAnswer QUESTIONS s index).personalityScores.P
      = s.personalityScores.P + (if tagAt types index = some (utf16 "P") then 1 else 0) ∧
    (selectAnswer QUESTIONS s index).personalityScores.F
      = s.personalityScores.F + (if tagAt types index = some (utf16 "F") then 1 else 0) ∧
    (selectAnswer QUESTIONS s index).personalityScores.L
      = s.personalityScores.L + (if tagAt types index = some (utf16 "L") then 1 else 0) ∧
    (selectAnswer QUESTIONS s index).currentQuestion = s.currentQuestion ∧
    (selectAnswer QUESTIONS s index).isInSubQuestion = false ∧
    (selectAnswer QUESTIONS s index).subQuestionData = none ∧
    (selectAnswer QUESTIONS s index).parentSelectionIndex = -1 := by
  obtain ⟨c1, c2, c3, c4⟩ := scored_cases s.personalityScores (tagAt types index)
  rcases hactive with ⟨hs, h1, h2, rfl, rfl⟩ | ⟨hs, sub, hd, rfl, rfl⟩
  · rw [selectAnswer_plain QUESTIONS s index q reward hq hs h1 h2 hr]
    exact ⟨rfl, rfl, c1, c2, c3, c4, rfl, rfl, rfl, rfl⟩
  · rw [selectAnswer_sub QUESTIONS s index q sub reward hq hs hd hr]
    exact ⟨rfl, rfl, c1, c2, c3, c4, rfl, rfl, rfl, rfl⟩

/-- C16 on the sample bank: option 1 of the plain question, tagged `P`, is recorded
with its reward, raises only the counter P and leaves the index alone. -/
theorem selectAnswer_records_witness :
    (selectAnswer sampleBank started 1).selectedAnswers = [1] ∧
    (selectAnswer sampleBank started 1).collectedItems = [some (sampleReward "B")] ∧
    (selectAnswer sampleBank started 1).personalityScores = ⟨0, 1, 0, 0⟩ ∧
    (selectAnswer sampleBank started 1).currentQuestion = 0 ∧
    (selectAnswer sampleBank started 1).isInSubQuestion = false :=
  have h := selectAnswer_records sampleBank started 1 plainQuestion plainQuestion.rewards
    plainQuestion.types (sampleReward "B") rfl (Or.inl ⟨rfl, rfl, rfl, rfl, rfl⟩) rfl
  ⟨h.1, h.2.1, by decide, h.2.2.2.2.2.2.1, h.2.2.2.2.2.2.2.1⟩

/-- C17, as stated, fails: the shared sub-question of the second question of the
sample bank has no `types` array, so the tag of the answer given inside it is read
from the parent question. After option 0 of the first question (tag `C`) and the
advance, option 0 opens the sub-question and option 1 inside it scores `L`, the
parent's tag at index 1. -/
theorem subQuestion_tag_from_parent :
    sharedQuestion.subQuestion = some untaggedSub ∧
    untaggedSub.types = none ∧
    sharedQuestion.types = some [utf16 "F", utf16 "L"] ∧
    (nextQuestion sampleBank (selectAnswer sampleBank started 0)).personalityScores
      = ⟨1, 0, 0, 0⟩ ∧
    (selectAnswer sampleBank (selectAnswer sampleBank
      (nextQuestion sampleBank (selectAnswer sampleBank started 0)) 0) 1).selectedAnswers
      = [0, 1] ∧
    (selectAnswer sampleBank (selectAnswer sampleBank
      (nextQuestion sampleBank (selectAnswer sampleBank started 0)) 0) 1).personalityScores
      = ⟨1, 0, 0, 1⟩ := by
  decide

/-- C17 (amended): when option `i` of a top-level question opens a sub-question and
option `j` is then chosen inside it, exactly one answer (`j`) and one reward are
recorded for the question; the reward is the sub-question's own `rewards[j]`; the tag
is read at index `j` from the sub-question's own `types` when it has such an array,
and from the parent question's `types` when it has none. -/
theorem subQuestion_records_once (QUESTIONS : List Question) (s : State) (i j : Nat)
    (q : Question) (sub : SubQuestion) (reward : Reward)
    (hq : QUESTIONS[s.currentQuestion]? = some q) (hs : s.isInSubQuestion = false)
    (hsub : subQuestionOf q i = some sub) (hr : sub.rewards[j]? = some reward) :
    (selectAnswer QUESTIONS (selectAnswer QUESTIONS s i) j).selectedAnswers
      = s.selectedAnswers ++ [j] ∧
    (selectAnswer QUESTIONS (selectAnswer QUESTIONS s i) j).collectedItems
      = s.collectedItems ++ [some reward] ∧
    (∀ types, sub.types = some types →
      (selectAnswer QUESTIONS (selectAnswer QUESTIONS s i) j).personalityScores
        = scored s.personalityScores (tagAt (some types) j)) ∧
    (sub.types = none →
      (selectAnswer QUESTIONS (selectAnswer QUESTIONS s i) j).personalityScores
        = scored s.personalityScores (tagAt q.types j)) := by
  have hdecl : q.subQuestion.isSome ∨ q.subQuestions.isSome := by
    unfold subQuestionOf at hsub
    cases hper : q.subQuestions with
    | some subs => exact Or.inr rfl
    | none =>
      rw [hper] at hsub
      simp only at hsub
      exact Or.inl (by rw [hsub]; rfl)
  rw [selectAnswer_open QUESTIONS s i q hq hs hdecl]
  obtain ⟨f1, f2, f3, f4, _, _, f7, _, f9⟩ := renderSubQuestion_frame q i s
  rw [selectAnswer_sub QUESTIONS (renderSubQuestion q i s) j q sub reward
    (by rw [f4]; exact hq) f7 (by rw [f9]; exact hsub) hr]
  refine ⟨by simp [f1], by simp [f2], ?_, ?_⟩
  · intro types ht
    simp [f3, resolvedTypes, ht]
  · intro ht
    simp [f3, resolvedTypes, ht]

/-- The amended C17 on the sample bank: option 1 of the third question opens its own
sub-question; option 0 inside it records one answer, the sub-question's reward `K`, and
the sub-question's tag `P`, not the parent's tag `C`. -/
theorem subQuestion_records_once_witness :
    subQuestionOf perOptionQuestion 1 ≠ none ∧
    (selectAnswer sampleBank (selectAnswer sampleBank (atQuestion 2) 1) 0).selectedAnswers
      = [0] ∧
    (selectAnswer sampleBank (selectAnswer sampleBank (atQuestion 2) 1) 0).collectedItems
      = [some (sampleReward "K")] ∧
    (selectAnswer sampleBank (selectAnswer sampleBank (atQuestion 2) 1) 0).personalityScores
      = ⟨0, 1, 0, 0⟩ :=
  have h := subQuestion_records_once sampleBank (atQuestion 2) 1 0 perOptionQuestion
    { options := [utf16 "k", utf16 "l"], rewards := [sampleReward "K", sampleReward "L"],
      types := some [utf16 "P", utf16 "X"], revealSubtitle := none }
    (sampleReward "K") rfl rfl rfl rfl
  ⟨by decide, h.1, h.2.1, (h.2.2.1 _ rfl).trans (by decide)⟩

/-- C18: `nextQuestion` raises `currentQuestion` by exactly one and changes no
accumulator; when the new index is below `QUESTIONS.length` the resulting state shows
the question screen with `isInSubQuestion` false, `subQuestionData` null and
`parentSelectionIndex` -1, whatever sub-question state held before; when it equals
`QUESTIONS.length` the summary screen shows the result of the key the resolver
returns; and in no reachable state does `currentQuestion` exceed `QUESTIONS.length`. -/
theorem nextQuestion_advances (QUESTIONS : List Question) (s : State) :
    (nextQuestion QUESTIONS s).currentQuestion = s.currentQuestion + 1 ∧
    (nextQuestion QUESTIONS s).selectedAnswers = s.selectedAnswers ∧
    (nextQuestion QUESTIONS s).collectedItems = s.collectedItems ∧
    (nextQuestion QUESTIONS s).personalityScores = s.personalityScores ∧
    (nextQuestion QUESTIONS s).userName = s.userName ∧
    (s.currentQuestion + 1 < QUESTIONS.length →
      (nextQuestion QUESTIONS s).page = .question ∧
      (nextQuestion QUESTIONS s).isInSubQuestion = false ∧
      (nextQuestion QUESTIONS s).subQuestionData = none ∧
      (nextQuestion QUESTIONS s).parentSelectionIndex = -1) ∧
    (s.currentQuestion + 1 = QUESTIONS.length →
      (nextQuestion QUESTIONS s).page = .summary ∧
      (nextQuestion QUESTIONS s).summaryType = some (renderSummaryType s.personalityScores)) ∧
    (∀ t, Reachable QUESTIONS t → t.currentQuestion ≤ QUESTIONS.length) := by
  obtain ⟨h1, h2, h3, h4, h5, h⟩ := nextQuestion_cases QUESTIONS s
  refine ⟨h1, h2, h3, h4, h5, ?_, ?_, fun t ht => (pageInv_of_reachable QUESTIONS t ht).1⟩
  · intro hlt
    rcases h with ⟨q, _, hp, _, a, b, c⟩ | ⟨hle, _⟩
    · exact ⟨hp, a, b, c⟩
    · omega
  · intro heq
    rcases h with ⟨q, hq, _⟩ | ⟨_, hp, hsum⟩
    · rw [List.getElem?_eq_none (by omega)] at hq
      cases hq
    · exact ⟨hp, hsum⟩

/-- C18 on the sample bank: from the reveal of the first question the advance shows
question 1 with the sub-question state cleared; from the last question it shows the
summary of the resolved key. -/
theorem nextQuestion_advances_witness :
    (nextQuestion sampleBank (selectAnswer sampleBank started 0)).currentQuestion = 1 ∧
    (nextQuestion sampleBank (selectAnswer sampleBank started 0)).page = .question ∧
    (nextQuestion sampleBank (atQuestion 2)).page = .summary ∧
    (nextQuestion sampleBank (atQuestion 2)).summaryType = some (utf16 "C") :=
  ⟨(nextQuestion_advances sampleBank (selectAnswer sampleBank started 0)).1,
   ((nextQuestion_advances sampleBank (selectAnswer sampleBank started 0)).2.2.2.2.2.1
      (by decide)).1,
   ((nextQuestion_advances sampleBank (atQuestion 2)).2.2.2.2.2.2.1 (by decide)).1,
   ((nextQuestion_advances sampleBank (atQuestion 2)).2.2.2.2.2.2.1 (by decide)).2.trans
      (by decide)⟩

/-- C19: `submitName` with a name that is empty after trimming refuses the start: the
accumulators, the index and the screen are as before and `userName` is the empty
string, so that in every state in which a start can be attempted (a reachable state on
the cover of a non-empty quiz) the state is left unchanged; with any other name
`userName` becomes the first 30 code units of the trimmed name (non-empty, at most 30
long), `currentQuestion` becomes 0, `selectedAnswers` and `collectedItems` become
empty, the four counters become 0 and the sub-question state is cleared. -/
theorem submitName_start (QUESTIONS : List Question) (s : State) (value : JSString) :
    (trim value = [] →
      submitName QUESTIONS s value = { s with userName := [] } ∧
      (QUESTIONS ≠ [] → Reachable QUESTIONS s → s.page = .cover →
        submitName QUESTIONS s value = s)) ∧
    (trim value ≠ [] →
      (submitName QUESTIONS s value).userName = (trim value).take 30 ∧
      (submitName QUESTIONS s value).userName ≠ [] ∧
      (submitName QUESTIONS s value).userName.length ≤ 30 ∧
      (submitName QUESTIONS s value).currentQuestion = 0 ∧
      (submitName QUESTIONS s value).selectedAnswers = [] ∧
      (submitName QUESTIONS s value).collectedItems = [] ∧
      (submitName QUESTIONS s value).personalityScores = ⟨0, 0, 0, 0⟩ ∧
      (submitName QUESTIONS s value).isInSubQuestion = false ∧
      (submitName QUESTIONS s value).subQuestionData = none ∧
      (submitName QUESTIONS s value).parentSelectionIndex = -1) := by
  constructor
  · intro ht
    rcases submitName_cases QUESTIONS s value with ⟨_, h⟩ | ⟨hne, _⟩
    · refine ⟨h, fun hq hr hp => ?_⟩
      have := (pageInv_of_reachable QUESTIONS s hr).2.2 hp hq
      rw [h, this]
      rfl
    · exact absurd ht hne
  · intro hne
    rcases submitName_cases QUESTIONS s value with ⟨ht, _⟩ | ⟨_, h1, h2, h3, h4, h5, h6, h7, h8, _⟩
    · exact absurd ht hne
    · refine ⟨h1, ?_, ?_, h2, h3, h4, h5, h6, h7, h8⟩
      · rw [h1]
        cases htv : trim value with
        | nil => exact absurd htv hne
        | cons a l => simp
      · rw [h1]
        exact List.length_take_le 30 _

/-- C19 on the sample bank: three blanks leave the initial state as it is; the name
`  Dao ` starts the quiz as `Dao` at question 0. -/
theorem submitName_start_witness :
    trim (utf16 "   ") = [] ∧
    submitName sampleBank initialState (utf16 "   ") = initialState ∧
    (submitName sampleBank initialState (utf16 "  Dao ")).userName = utf16 "Dao" ∧
    (submitName sampleBank initialState (utf16 "  Dao ")).currentQuestion = 0 :=
  ⟨by decide,
   ((submitName_start sampleBank initialState (utf16 "   ")).1 (by decide)).2 (by decide)
      Reachable.init rfl,
   ((submitName_start sampleBank initialState (utf16 "  Dao ")).2 (by decide)).1.trans
      (by decide),
   ((submitName_start sampleBank initialState (utf16 "  Dao ")).2 (by decide)).2.2.2.1⟩

end App

/-! ## The persisted record -/

theorem failure_written (status : Nat) (message : JSString) :
    (failure status message).written = none := rfl

theorem submitFailed_written : submitFailed.written = none := rfl

theorem handleSubmit_of_done (env : Env) (req : Request) (u : Nat) (us : JSString)
    (l items : List JSVal) (v : List Int) (r : List JSString)
    (hu : req.username = .str (u :: us))
    (ha : req.answers = .arr l) (hlen : l.length = TOTAL_QUESTIONS)
    (hloop : answersLoop 0 l [] [] = .done v r)
    (hitems : req.items = .arr items) (hilen : items.length = TOTAL_QUESTIONS) :
    handleSubmit env req =
      match cleanScores req.personalityScores, items.mapM ToString with
      | .ok scores, .ok itemTexts =>
        if env.writeFails then submitFailed
        else
          ⟨⟨200, true, utf16 "บันทึกข้อมูลสำเร็จ! ขอบคุณที่ร่วมสนุก 🎉"⟩,
            some (jsonFilename env.fileTimestamp env.sessionId,
              { sessionId := env.sessionId
                username := sanitizeInput (.str (u :: us)) 30
                answers := r
                rawAnswers := v
                items := itemTexts.map fun item => sanitizeInput (.str item) 100
                personalityType := cleanType req.personalityType
                personalityName := sanitizeInput (orEmpty req.personalityName) 50
                personalityScores := scores
                suggestion := sanitizeInput (orEmpty req.suggestion) 500
                timestamp := env.timestamp
                ip := match req.ip with
                  | some (c :: cs) => c :: cs
                  | _ => utf16 "unknown" }),
            some
              { sessionId := env.sessionId
                username := sanitizeInput (.str (u :: us)) 30
                answers := r
                rawAnswers := v
                items := itemTexts.map fun item => sanitizeInput (.str item) 100
                personalityType := cleanType req.personalityType
                personalityName := sanitizeInput (orEmpty req.personalityName) 50
                personalityScores := scores
                suggestion := sanitizeInput (orEmpty req.suggestion) 500
                timestamp := env.timestamp
                ip := match req.ip with
                  | some (c :: cs) => c :: cs
                  | _ => utf16 "unknown" },
            !env.excelFails⟩
      | _, _ => submitFailed := by
  unfold handleSubmit
  simp only [hu, ha, hlen, hloop, hitems, hilen, ne_eq, not_true_eq_false, if_false]

/-- What a written record consists of: the handler wrote it after a complete
validation, and each field is the sanitised form of the corresponding request field. -/
theorem handleSubmit_written (env : Env) (req : Request) (file : JSString × Record)
    (h : (handleSubmit env req).written = some file) :
    ∃ (u : Nat) (us : JSString) (answers items : List JSVal) (v : List Int)
      (r : List JSString) (scores : List (JSString × Int)) (itemTexts : List JSString),
      req.username = .str (u :: us) ∧ req.answers = .arr answers ∧
      answers.length = TOTAL_QUESTIONS ∧ answersLoop 0 answers [] [] = .done v r ∧
      req.items = .arr items ∧ items.length = TOTAL_QUESTIONS ∧
      cleanScores req.personalityScores = .ok scores ∧
      items.mapM ToString = .ok itemTexts ∧
      env.writeFails = false ∧
      file.1 = jsonFilename env.fileTimestamp env.sessionId ∧
      file.2.sessionId = env.sessionId ∧
      file.2.username = sanitizeInput (.str (u :: us)) 30 ∧
      file.2.answers = r ∧ file.2.rawAnswers = v ∧
      file.2.items = itemTexts.map (fun item => sanitizeInput (.str item) 100) ∧
      file.2.personalityType = cleanType req.personalityType ∧
      file.2.personalityName = sanitizeInput (orEmpty req.personalityName) 50 ∧
      file.2.personalityScores = scores ∧
      file.2.suggestion = sanitizeInput (orEmpty req.suggestion) 500 ∧
      file.2.timestamp = env.timestamp := by
  by_cases hu : ∃ u us, req.username = .str (u :: us)
  · obtain ⟨u, us, hu⟩ := hu
    by_cases ha : ∃ l, req.answers = .arr l ∧ l.length = TOTAL_QUESTIONS
    · obtain ⟨l, ha, hlen⟩ := ha
      cases hloop : answersLoop 0 l [] [] with
      | rejected i =>
        rw [handleSubmit_of_rejected env req u us l i hu ha hlen hloop, failure_written] at h
        cases h
      | threw t =>
        rw [handleSubmit_of_threw env req u us l t hu ha hlen hloop, submitFailed_written] at h
        cases h
      | done v r =>
        by_cases hi : ∃ items, req.items = .arr items ∧ items.length = TOTAL_QUESTIONS
        · obtain ⟨items, hi, hilen⟩ := hi
          rw [handleSubmit_of_done env req u us l items v r hu ha hlen hloop hi hilen] at h
          cases hs : cleanScores req.personalityScores with
          | error e =>
            rw [hs] at h
            exact absurd h (by simp [submitFailed_written])
          | ok scores =>
            cases ht : List.mapM ToString items with
            | error e =>
              rw [hs, ht] at h
              exact absurd h (by simp [submitFailed_written])
            | ok itemTexts =>
              rw [hs, ht] at h
              cases hw : env.writeFails with
              | true =>
                rw [hw] at h
                exact absurd h (by simp [submitFailed_written])
              | false =>
                rw [hw] at h
                simp only [Bool.false_eq_true, if_false, Option.some.injEq] at h
                subst h
                refine ⟨u, us, l, items, v, r, scores, itemTexts, hu, ha, hlen, hloop, hi, hilen,
                  rfl, ht, rfl, ?_, ?_, ?_, ?_, ?_, ?_, ?_, ?_, ?_, ?_, ?_⟩
                all_goals dsimp only
        · rw [handleSubmit_of_bad_items env req u us l v r hu ha hlen hloop
            (fun items h1 h2 => hi ⟨items, h1, h2⟩), failure_written] at h
          cases h
    · rw [handleSubmit_of_bad_answers env req u us hu (fun l h1 h2 => ha ⟨l, h1, h2⟩),
        failure_written] at h
      cases h
  · rw [handleSubmit_of_bad_username env req (fun u us h1 => hu ⟨u, us, h1⟩),
      failure_written] at h
    cases h

/-! ## parseInt without a radix -/

theorem parseIntText_zero_eq_ten (t : JSString) (h : hexMarker t = false) :
    parseIntText t 0 = parseIntText t 10 := by
  unfold hexMarker at h
  unfold parseIntText
  simp at h
  simp [h]

theorem hexMarker_intText (n : Int) : hexMarker (intText n) = false := by
  have hlt := decimalDigits_lt n.natAbs
  obtain ⟨d, ds, hds⟩ : ∃ d ds, decimalDigits n.natAbs = d :: ds := by
    cases h : decimalDigits n.natAbs with
    | nil => exact absurd h (decimalDigits_ne_nil _)
    | cons d ds => exact ⟨d, ds, rfl⟩
  have hd : d < 10 := hlt d (by simp [hds])
  have hws := isWhiteSpace_digit d hd
  have h45 : isWhiteSpace 45 = false := by decide
  have hd45 : d + 48 ≠ 45 := by omega
  have hd43 : d + 48 ≠ 43 := by omega
  have key : ∀ rest : List Nat, (∀ x ∈ rest, x < 10) →
      (((d + 48) :: rest.map (· + 48)).take 2 == [48, 120] ||
        ((d + 48) :: rest.map (· + 48)).take 2 == [48, 88]) = false := by
    intro rest hrest
    cases rest with
    | nil => simp
    | cons e es =>
      have he : e < 10 := hrest e (by simp)
      simp
      omega
  have hds' : ∀ x ∈ ds, x < 10 := fun x hx => hlt x (by simp [hds, hx])
  unfold hexMarker intText natText
  rw [hds]
  by_cases hneg : n < 0
  · simp only [hneg, if_true, List.singleton_append, digitChars, List.map_cons]
    simp only [List.dropWhile_cons, h45, Bool.false_eq_true, if_false, List.head?_cons,
      beq_self_eq_true, Bool.true_or, if_true, List.drop_succ_cons, List.drop_zero]
    exact key ds hds'
  · simp only [hneg, if_false, List.nil_append, digitChars, List.map_cons]
    simp only [List.dropWhile_cons, hws, Bool.false_eq_true, if_false, List.head?_cons]
    have e1 : (some (d + 48) == some 45) = false := by simp [hd45]
    have e2 : (some (d + 48) == some 43) = false := by simp [hd43]
    simp only [e1, e2, Bool.or_self, Bool.false_eq_true, if_false]
    exact key ds hds'

theorem hexMarker_of_not_startsWithInteger (s : JSString) (h : startsWithInteger s = false) :
    hexMarker s = false := by
  unfold startsWithInteger at h
  unfold hexMarker
  simp only at h ⊢
  generalize (if ((s.dropWhile isWhiteSpace).head? == some 45 ||
    (s.dropWhile isWhiteSpace).head? == some 43) = true
    then (s.dropWhile isWhiteSpace).drop 1 else s.dropWhile isWhiteSpace) = S at h ⊢
  cases S with
  | nil => simp
  | cons c cs =>
    simp only [List.head?_cons, isDecimalDigit] at h
    have hc : c ≠ 48 := by
      intro h48
      subst h48
      simp at h
    cases cs with
    | nil => simp
    | cons e es => simp [hc]

/-! ## The cleaned scores -/

theorem cleanScore_range (v : JSVal) (n : Int) (h : cleanScore v = .ok n) :
    0 ≤ n ∧ n ≤ 99 := by
  unfold cleanScore at h
  cases hp : parseInt v 0 with
  | error t => simp [hp] at h
  | ok r =>
    cases r with
    | none =>
      simp [hp] at h
      subst h
      omega
    | some m =>
      simp [hp] at h
      subst h
      omega

theorem cleanScore_ofInt (n : Int) (h : n.natAbs < 10 ^ 21) :
    cleanScore (.num (.ofInt n)) = .ok (max 0 (min 99 n)) := by
  unfold cleanScore parseInt
  simp only [ToString, toText_ofInt n h]
  rw [parseIntText_zero_eq_ten _ (hexMarker_intText n)]
  have := parseIntText_intText_append n [] (by intro c hc; simp at hc)
  rw [List.append_nil] at this
  rw [this]

theorem cleanScore_undefined : cleanScore .undefined = .ok 0 := by decide

theorem cleanScore_str (s : JSString) (h : startsWithInteger s = false) :
    cleanScore (.str s) = .ok 0 := by
  unfold cleanScore parseInt
  simp only [ToString]
  rw [parseIntText_zero_eq_ten _ (hexMarker_of_not_startsWithInteger s h),
    parseIntText_of_not_startsWithInteger s h]

theorem cleanScores_of_object (ps : JSVal) (hobj : isObjectValue ps = true)
    (scores : List (JSString × Int)) (h : cleanScores ps = .ok scores) :
    ∃ c p f l, scores = [(utf16 "C", c), (utf16 "P", p), (utf16 "F", f), (utf16 "L", l)] ∧
      cleanScore (getProperty ps (utf16 "C")) = .ok c ∧
      cleanScore (getProperty ps (utf16 "P")) = .ok p ∧
      cleanScore (getProperty ps (utf16 "F")) = .ok f ∧
      cleanScore (getProperty ps (utf16 "L")) = .ok l := by
  have hgen : (validTypes.mapM fun t =>
      match cleanScore (getProperty ps t) with
      | .error e => (.error e : Except Thrown (JSString × Int))
      | .ok n => .ok (t, n)) = .ok scores := by
    cases ps with
    | arr es => simpa [cleanScores] using h
    | obj fs => simpa [cleanScores] using h
    | _ => simp [isObjectValue] at hobj
  simp only [validTypes, List.mapM_cons, List.mapM_nil] at hgen
  cases hc : cleanScore (getProperty ps (utf16 "C")) with
  | error e => simp [hc, bind, Except.bind] at hgen
  | ok c =>
    cases hp : cleanScore (getProperty ps (utf16 "P")) with
    | error e => simp [hc, hp, bind, Except.bind] at hgen
    | ok p =>
      cases hf : cleanScore (getProperty ps (utf16 "F")) with
      | error e => simp [hc, hp, hf, bind, Except.bind] at hgen
      | ok f =>
        cases hl : cleanScore (getProperty ps (utf16 "L")) with
        | error e => simp [hc, hp, hf, hl, bind, Except.bind] at hgen
        | ok l =>
          simp [hc, hp, hf, hl, bind, Except.bind, pure, Except.pure] at hgen
          exact ⟨c, p, f, l, hgen.symm, rfl, rfl, rfl, rfl⟩

theorem cleanScores_of_not_object (ps : JSVal) (hobj : isObjectValue ps = false) :
    cleanScores ps = .ok [] := by
  cases ps <;> first | rfl | simp [isObjectValue] at hobj

theorem sanitizeInput_length_le (input : JSVal) (m : Nat) :
    (sanitizeInput input m).length ≤ m := by
  cases input with
  | str s =>
    rw [sanitizeInput_str]
    exact List.length_take_le _ _
  | _ => simp [sanitizeInput]

theorem scores_lookup (c p f l : Int) (key : JSString) (hkey : key ∈ validTypes) :
    (key = utf16 "C" ∧
      List.lookup key [(utf16 "C", c), (utf16 "P", p), (utf16 "F", f), (utf16 "L", l)]
        = some c) ∨
    (key = utf16 "P" ∧
      List.lookup key [(utf16 "C", c), (utf16 "P", p), (utf16 "F", f), (utf16 "L", l)]
        = some p) ∨
    (key = utf16 "F" ∧
      List.lookup key [(utf16 "C", c), (utf16 "P", p), (utf16 "F", f), (utf16 "L", l)]
        = some f) ∨
    (key = utf16 "L" ∧
      List.lookup key [(utf16 "C", c), (utf16 "P", p), (utf16 "F", f), (utf16 "L", l)]
        = some l) := by
  have k1 : (utf16 "P" == utf16 "C") = false := by decide
  have k2 : (utf16 "F" == utf16 "C") = false := by decide
  have k3 : (utf16 "F" == utf16 "P") = false := by decide
  have k4 : (utf16 "L" == utf16 "C") = false := by decide
  have k5 : (utf16 "L" == utf16 "P") = false := by decide
  have k6 : (utf16 "L" == utf16 "F") = false := by decide
  simp only [validTypes, List.mem_cons, List.mem_singleton, List.not_mem_nil, or_false] at hkey
  rcases hkey with h | h | h | h
  · subst h; left; exact ⟨rfl, by simp [List.lookup]⟩
  · subst h; right; left; exact ⟨rfl, by simp [List.lookup, k1]⟩
  · subst h; right; right; left; exact ⟨rfl, by simp [List.lookup, k2, k3]⟩
  · subst h; right; right; right; exact ⟨rfl, by simp [List.lookup, k4, k5, k6]⟩

theorem cleanScores_lookup (ps : JSVal) (hobj : isObjectValue ps = true)
    (scores : List (JSString × Int)) (h : cleanScores ps = .ok scores)
    (key : JSString) (hkey : key ∈ validTypes) :
    ∃ value, cleanScore (getProperty ps key) = .ok value ∧ scores.lookup key = some value := by
  obtain ⟨c, p, f, l, rfl, hc, hp, hf, hl⟩ := cleanScores_of_object ps hobj scores h
  rcases scores_lookup c p f l key hkey with ⟨rfl, e⟩ | ⟨rfl, e⟩ | ⟨rfl, e⟩ | ⟨rfl, e⟩
  · exact ⟨c, hc, e⟩
  · exact ⟨p, hp, e⟩
  · exact ⟨f, hf, e⟩
  · exact ⟨l, hl, e⟩

/-- C11: for every input and every bound `m` the text `sanitizeInput(input, m)` is at
most `m` code units long, and at most 200 with the bound omitted; the cut is made on
the escaped text, so in every record that `handleSubmit` writes the username is at most
30 long, every item at most 100, the personality name at most 50 and the suggestion at
most 500. -/
theorem sanitizeInput_bounded :
    (∀ (input : JSVal) (m : Nat), (sanitizeInput input m).length ≤ m) ∧
    (∀ input : JSVal, (sanitizeInput input).length ≤ 200) ∧
    (∀ (s : JSString) (m : Nat), sanitizeInput (.str s) m = (escape (trim s)).take m) ∧
    (∀ (env : Env) (req : Request) (file : JSString × Record),
      (handleSubmit env req).written = some file →
        file.2.username.length ≤ 30 ∧ (∀ item ∈ file.2.items, item.length ≤ 100) ∧
        file.2.personalityName.length ≤ 50 ∧ file.2.suggestion.length ≤ 500) := by
  refine ⟨sanitizeInput_length_le, fun input => sanitizeInput_length_le input 200,
    sanitizeInput_str, ?_⟩
  intro env req file h
  obtain ⟨u, us, answers, items, v, r, scores, itemTexts, -, -, -, -, -, -, -, -, -, -, -,
    hname, -, -, hitems, -, hpn, -, hsug, -⟩ := handleSubmit_written env req file h
  rw [hname, hitems, hpn, hsug]
  refine ⟨sanitizeInput_length_le _ _, ?_, sanitizeInput_length_le _ _,
    sanitizeInput_length_le _ _⟩
  intro item hitem
  obtain ⟨t, -, rfl⟩ := List.mem_map.mp hitem
  exact sanitizeInput_length_le _ _

/-- C11 on a name of ten `<` signs, whose escaped text is 40 code units long: the
sanitized text is 30 long, and the record written for a submission under that name
carries a username of at most 30 code units. -/
theorem sanitizeInput_bounded_witness :
    (escape (trim (utf16 "<<<<<<<<<<"))).length = 40 ∧
    (sanitizeInput (.str (utf16 "<<<<<<<<<<")) 30).length ≤ 30 ∧
    (sanitizeInput (.str (utf16 "<<<<<<<<<<")) 30).length = 30 ∧
    (handleSubmit calmEnv (eightAnswers (.str (utf16 "<<<<<<<<<<")) goodAnswers)).written.isSome
      = true ∧
    ∀ file,
      (handleSubmit calmEnv (eightAnswers (.str (utf16 "<<<<<<<<<<")) goodAnswers)).written
        = some file → file.2.username.length ≤ 30 :=
  ⟨by decide, sanitizeInput_bounded.1 (.str (utf16 "<<<<<<<<<<")) 30, by decide, by decide,
    fun file h => (sanitizeInput_bounded.2.2.2 calmEnv _ file h).1⟩

/-- C20, as stated, fails: a request without `personalityScores` passes validation and
is answered 200, and the record written for it has an empty `personalityScores`, in
which no key is mapped to 0; and the numeric score `10 ^ 21`, whose text is `1e+21`,
is stored as 1, not as the upper bound 99. -/
theorem scores_absent_persist_empty :
    (withScores .undefined).personalityScores = .undefined ∧
    (handleSubmit calmEnv (withScores .undefined)).response.status = 200 ∧
    ((handleSubmit calmEnv (withScores .undefined)).written.map
      fun file => file.2.personalityScores) = some [] ∧
    ((handleSubmit calmEnv (withScores (.obj [(utf16 "C", .num (.ofInt (10 ^ 21)))]))).written.map
      fun file => file.2.personalityScores)
      = some [(utf16 "C", 1), (utf16 "P", 0), (utf16 "F", 0), (utf16 "L", 0)] :=
  ⟨rfl, by decide, by decide, by decide⟩

/-- C20 (amended): in every record that `handleSubmit` writes, each entry of
`personalityScores` has one of the keys C, P, F, L and an integer value in `[0, 99]`.
When the request's `personalityScores` is an object or an array the entries are those
of the four keys in the order C, P, F, L: a score that is an integer Number `n` of
magnitude below `10 ^ 21` is stored as `n` clamped into `[0, 99]`, and a missing score
or a string that does not start with an integer is stored as 0. When the request's
`personalityScores` is absent or not an object, the stored object is empty. -/
theorem persisted_scores (env : Env) (req : Request) (file : JSString × Record)
    (h : (handleSubmit env req).written = some file) :
    (∀ entry ∈ file.2.personalityScores,
      entry.1 ∈ validTypes ∧ 0 ≤ entry.2 ∧ entry.2 ≤ 99) ∧
    (isObjectValue req.personalityScores = false → file.2.personalityScores = []) ∧
    (isObjectValue req.personalityScores = true →
      file.2.personalityScores.map Prod.fst = validTypes ∧
      ∀ key ∈ validTypes,
        (∀ n : Int, n.natAbs < 10 ^ 21 →
          getProperty req.personalityScores key = .num (.ofInt n) →
          file.2.personalityScores.lookup key = some (max 0 (min 99 n))) ∧
        (getProperty req.personalityScores key = .undefined →
          file.2.personalityScores.lookup key = some 0) ∧
        (∀ s, startsWithInteger s = false →
          getProperty req.personalityScores key = .str s →
          file.2.personalityScores.lookup key = some 0)) := by
  obtain ⟨u, us, answers, items, v, r, scores, itemTexts, -, -, -, -, -, -, hs, -, -, -, -,
    -, -, -, -, -, -, hscores, -, -⟩ := handleSubmit_written env req file h
  rw [hscores]
  refine ⟨?_, ?_, ?_⟩
  · intro entry hentry
    cases hobj : isObjectValue req.personalityScores with
    | false =>
      rw [cleanScores_of_not_object _ hobj] at hs
      cases hs
      cases hentry
    | true =>
      obtain ⟨c, p, f, l, rfl, hc, hp, hf, hl⟩ :=
        cleanScores_of_object _ hobj scores hs
      simp only [List.mem_cons, List.mem_singleton, List.not_mem_nil, or_false] at hentry
      rcases hentry with rfl | rfl | rfl | rfl
      · exact ⟨(by decide : utf16 "C" ∈ validTypes), cleanScore_range _ _ hc⟩
      · exact ⟨(by decide : utf16 "P" ∈ validTypes), cleanScore_range _ _ hp⟩
      · exact ⟨(by decide : utf16 "F" ∈ validTypes), cleanScore_range _ _ hf⟩
      · exact ⟨(by decide : utf16 "L" ∈ validTypes), cleanScore_range _ _ hl⟩
  · intro hobj
    rw [cleanScores_of_not_object _ hobj] at hs
    cases hs
    rfl
  · intro hobj
    constructor
    · obtain ⟨c, p, f, l, rfl, -⟩ := cleanScores_of_object _ hobj scores hs
      rfl
    · intro key hkey
      obtain ⟨value, hv, hl⟩ := cleanScores_lookup _ hobj scores hs key hkey
      refine ⟨?_, ?_, ?_⟩
      · intro n hn hg
        rw [hg, cleanScore_ofInt n hn] at hv
        cases hv
        exact hl
      · intro hg
        rw [hg, cleanScore_undefined] at hv
        cases hv
        exact hl
      · intro s hstart hg
        rw [hg, cleanScore_str s hstart] at hv
        cases hv
        exact hl

/-- The amended C20 on the scores `\x7b"C": 120, "P": -5, "F": 3\x7d`: the record
written holds 99, 0, 3 and, for the missing `L`, 0. -/
theorem persisted_scores_witness :
    (handleSubmit calmEnv (withScores sampleScores)).written.isSome = true ∧
    ((handleSubmit calmEnv (withScores sampleScores)).written.map
      fun file => file.2.personalityScores)
      = some [(utf16 "C", 99), (utf16 "P", 0), (utf16 "F", 3), (utf16 "L", 0)] ∧
    ∀ file, (handleSubmit calmEnv (withScores sampleScores)).written = some file →
      file.2.personalityScores.lookup (utf16 "C") = some 99 :=
  ⟨by decide, by decide, fun file h =>
    ((persisted_scores calmEnv (withScores sampleScores) file h).2.2 rfl).2
      (utf16 "C") (by decide) |>.1 120 (by decide) rfl⟩

/-! ## What the reply of handleSubmit depends on -/

theorem cleanType_cases (v : JSVal) :
    (∀ s, v = .str s → s ∈ validTypes → cleanType v = s) ∧
    ((∀ s, v = .str s → s ∉ validTypes) → cleanType v = []) := by
  constructor
  · intro s hv hs
    subst hv
    simp [cleanType, hs]
  · intro h
    cases v with
    | str s => simp [cleanType, h s rfl]
    | _ => rfl

theorem handleSubmit_response_congr (env : Env) (req req' : Request)
    (h1 : req'.username = req.username) (h2 : req'.answers = req.answers)
    (h3 : req'.items = req.items) (h4 : req'.personalityScores = req.personalityScores) :
    (handleSubmit env req').response = (handleSubmit env req).response := by
  unfold handleSubmit
  rw [h1, h2, h3, h4]
  repeat' split
  all_goals rfl

theorem handleSubmit_write_fails (env : Env) (req : Request) (hw : env.writeFails = true) :
    (handleSubmit env req).written = none ∧ (handleSubmit env req).excel = none ∧
    (handleSubmit env req).response.success = false ∧
    ((handleSubmit env req).response.status = 400 ∨ handleSubmit env req = submitFailed) := by
  unfold handleSubmit
  repeat' split
  all_goals simp_all [failure, submitFailed]

/-- C21: in every record that `handleSubmit` writes, `personalityType` is the submitted
`personalityType` when that is one of the texts `'C'`, `'P'`, `'F'`, `'L'`, and the
empty string for every other value (missing, another text, not a text); and the reply
does not depend on the submitted `personalityType` at all, so an unrecognised type
never causes a 400. -/
theorem personalityType_persisted (env : Env) (req : Request) :
    (∀ file, (handleSubmit env req).written = some file →
      file.2.personalityType = cleanType req.personalityType ∧
      (∀ s, req.personalityType = .str s → s ∈ validTypes → file.2.personalityType = s) ∧
      ((∀ s, req.personalityType = .str s → s ∉ validTypes) → file.2.personalityType = [])) ∧
    (∀ v, (handleSubmit env { req with personalityType := v }).response
      = (handleSubmit env req).response) := by
  refine ⟨fun file h => ?_, fun v => handleSubmit_response_congr env req _ rfl rfl rfl rfl⟩
  obtain ⟨u, us, answers, items, v, r, scores, itemTexts, -, -, -, -, -, -, -, -, -, -, -,
    -, -, -, -, htype, -⟩ := handleSubmit_written env req file h
  rw [htype]
  exact ⟨rfl, (cleanType_cases req.personalityType).1, (cleanType_cases req.personalityType).2⟩

/-- C21 on three submissions: the type `'P'` is stored as it is, the text `'X'` and the
number 7 are stored as the empty string, and all three are answered 200. -/
theorem personalityType_persisted_witness :
    ((handleSubmit calmEnv { withScores .undefined with personalityType := .str (utf16 "P") }
      ).written.map fun file => file.2.personalityType) = some (utf16 "P") ∧
    ((handleSubmit calmEnv { withScores .undefined with personalityType := .str (utf16 "X") }
      ).written.map fun file => file.2.personalityType) = some [] ∧
    ((handleSubmit calmEnv { withScores .undefined with personalityType := numLit 7 }
      ).written.map fun file => file.2.personalityType) = some [] ∧
    (handleSubmit calmEnv { withScores .undefined with personalityType := .str (utf16 "X") }
      ).response.status = 200 :=
  ⟨by decide, by decide, by decide,
    ((personalityType_persisted calmEnv (withScores .undefined)).2 (.str (utf16 "X"))).symm ▸
      (by decide)⟩

/-- C22: when `handleSubmit` has written the JSON record of a submission, the reply is
200 with `success: true` whether `appendToExcelFile` succeeds or throws: with either
outcome of the append the handler gives that reply, writes the same record and hands it
to the append. -/
theorem excel_failure_swallowed (env : Env) (req : Request) (file : JSString × Record)
    (h : (handleSubmit env req).written = some file) (excelFails : Bool) :
    (handleSubmit { env with excelFails := excelFails } req).response
      = ⟨200, true, utf16 "บันทึกข้อมูลสำเร็จ! ขอบคุณที่ร่วมสนุก 🎉"⟩ ∧
    (handleSubmit { env with excelFails := excelFails } req).written = some file ∧
    (handleSubmit { env with excelFails := excelFails } req).excel = some file.2 ∧
    (handleSubmit { env with excelFails := excelFails } req).excelSaved = !excelFails := by
  obtain ⟨u, us, answers, items, v, r, scores, itemTexts, hu, ha, hlen, hloop, hi, hilen, hs,
    ht, hw, -⟩ := handleSubmit_written env req file h
  rw [handleSubmit_of_done env req u us answers items v r hu ha hlen hloop hi hilen, hs, ht]
    at h
  simp only [hw, Bool.false_eq_true, if_false, Option.some.injEq] at h
  subst h
  rw [handleSubmit_of_done _ req u us answers items v r hu ha hlen hloop hi hilen, hs, ht]
  simp [hw]

/-- C22 on a valid submission: the append fails, the reply is still 200 with
`success: true`. -/
theorem excel_failure_swallowed_witness :
    (handleSubmit { calmEnv with excelFails := true } (withScores sampleScores)).response.status
      = 200 ∧
    (handleSubmit { calmEnv with excelFails := true } (withScores sampleScores)).response.success
      = true ∧
    (handleSubmit { calmEnv with excelFails := true } (withScores sampleScores)).excelSaved
      = false :=
  have h := excel_failure_swallowed calmEnv (withScores sampleScores)
    (jsonFilename calmEnv.fileTimestamp calmEnv.sessionId, sampleRecord) (by decide) true
  ⟨by rw [h.1], by rw [h.1], h.2.2.2⟩

/-- C23: when the write of the JSON record fails, `handleSubmit` never answers 200 and
never with `success: true`, nothing is written, and `appendToExcelFile` is not called;
for a submission that passed validation (not answered 400) the reply is the 500 of
the `catch` block. -/
theorem write_failure_gives_500 (env : Env) (req : Request) (hw : env.writeFails = true) :
    (handleSubmit env req).response.status ≠ 200 ∧
    (handleSubmit env req).response.success = false ∧
    (handleSubmit env req).written = none ∧
    (handleSubmit env req).excel = none ∧
    ((handleSubmit env req).response.status ≠ 400 →
      (handleSubmit env req).response
        = ⟨500, false, utf16 "เกิดข้อผิดพลาดในการบันทึกข้อมูล"⟩) := by
  obtain ⟨h1, h2, h3, h4⟩ := handleSubmit_write_fails env req hw
  refine ⟨?_, h3, h1, h2, ?_⟩
  · rcases h4 with h4 | h4
    · omega
    · rw [h4]
      decide
  · intro hne
    rcases h4 with h4 | h4
    · exact absurd h4 hne
    · rw [h4]
      rfl

/-- C23 on a valid submission whose write fails: the reply is 500 with
`success: false`, and no append is attempted. -/
theorem write_failure_gives_500_witness :
    (handleSubmit { calmEnv with writeFails := true } (withScores sampleScores)).response.status
      = 500 ∧
    (handleSubmit { calmEnv with writeFails := true } (withScores sampleScores)).response.success
      = false ∧
    (handleSubmit { calmEnv with writeFails := true } (withScores sampleScores)).excel = none :=
  have h := write_failure_gives_500 { calmEnv with writeFails := true }
    (withScores sampleScores) rfl
  ⟨by decide, h.2.1, h.2.2.2.1⟩

/-! ## The key check -/

/-- C28: `requireApiKey` calls `next()` exactly when no `ADMIN_API_KEY` is configured
(unset or empty) or the header `x-api-key` is present and equal to the configured key;
in every other case it answers 401 with `success: false`, and the handler registered
behind it does not run. -/
theorem requireApiKey_gate (apiKey providedKey : Option JSString) :
    (requireApiKey apiKey providedKey = .next ↔
      (apiKey = none ∨ apiKey = some [] ∨ (providedKey.isSome ∧ providedKey = apiKey))) ∧
    (requireApiKey apiKey providedKey ≠ .next →
      requireApiKey apiKey providedKey
        = .reply ⟨401, false, utf16 "Unauthorized — API Key required"⟩ ∧
      ∀ (β : Type) (handler : β), (protectedRoute apiKey providedKey handler).2 = none) ∧
    (requireApiKey apiKey providedKey = .next →
      ∀ (β : Type) (handler : β),
        (protectedRoute apiKey providedKey handler).2 = some handler) := by
  unfold protectedRoute requireApiKey
  cases apiKey with
  | none => simp
  | some k =>
    cases k with
    | nil => simp
    | cons c cs =>
      cases providedKey with
      | none => simp
      | some p =>
        by_cases hp : p = c :: cs
        · subst hp
          simp
        · cases p with
          | nil => simp
          | cons d ds => simp [hp]

/-- C28 with the key of the tests configured: the right key passes and the handler
runs; a wrong key, an empty header and a missing header are answered 401 and the
handler does not run; with no key configured a request without header passes. -/
theorem requireApiKey_gate_witness :
    requireApiKey (some (utf16 "test-secret-key")) (some (utf16 "test-secret-key")) = .next ∧
    (protectedRoute (some (utf16 "test-secret-key")) (some (utf16 "wrong-key")) 0).2 = none ∧
    (protectedRoute (some (utf16 "test-secret-key")) (some []) 0).2 = none ∧
    (protectedRoute (some (utf16 "test-secret-key")) none 0).2 = none ∧
    requireApiKey none none = .next :=
  ⟨(requireApiKey_gate _ _).1.2 (Or.inr (Or.inr ⟨rfl, rfl⟩)),
    ((requireApiKey_gate _ _).2.1 (by decide)).2 Nat 0,
    ((requireApiKey_gate _ _).2.1 (by decide)).2 Nat 0,
    ((requireApiKey_gate _ _).2.1 (by decide)).2 Nat 0,
    (requireApiKey_gate _ _).1.2 (Or.inl rfl)⟩

/-! ## The answers of a written record -/

theorem answersLoop_done_get (l : List JSVal) : ∀ (k : Nat) (v : List Int)
    (r : List JSString) (v' : List Int) (r' : List JSString),
    answersLoop k l v r = .done v' r' →
    v'.length = v.length + l.length ∧ r'.length = r.length + l.length ∧
    (∀ i, i < v.length → v'[i]? = v[i]?) ∧ (∀ i, i < r.length → r'[i]? = r[i]?) ∧
    ∀ i a, l[i]? = some a → ∃ n, validateAnswerIndex a 3 = .ok (some n) ∧
      v'[v.length + i]? = some n ∧ r'[r.length + i]? = some (readableAnswer (k + i) n) := by
  induction l with
  | nil =>
    intro k v r v' r' h
    simp only [answersLoop, LoopResult.done.injEq] at h
    obtain ⟨rfl, rfl⟩ := h
    simp
  | cons x xs ih =>
    intro k v r v' r' h
    simp only [answersLoop, MAX_OPTIONS_pred] at h
    cases hx : validateAnswerIndex x 3 with
    | error t => simp [hx] at h
    | ok res =>
      cases res with
      | none => simp [hx] at h
      | some n =>
        simp only [hx] at h
        obtain ⟨h1, h2, h3, h4, h5⟩ := ih _ _ _ _ _ h
        simp only [List.length_append, List.length_singleton, List.length_cons,
          List.length_nil, Nat.zero_add] at h1 h2 h3 h4 h5 ⊢
        refine ⟨by omega, by omega, ?_, ?_, ?_⟩
        · intro i hi
          rw [h3 i (by omega), List.getElem?_append_left hi]
        · intro i hi
          rw [h4 i (by omega), List.getElem?_append_left hi]
        · intro i a hia
          cases i with
          | zero =>
            simp only [List.getElem?_cons_zero, Option.some.injEq] at hia
            subst hia
            refine ⟨n, hx, ?_, ?_⟩
            · rw [Nat.add_zero, h3 _ (by omega)]
              simp
            · rw [Nat.add_zero, Nat.add_zero, h4 _ (by omega)]
              simp
          | succ i =>
            simp only [List.getElem?_cons_succ] at hia
            obtain ⟨m, hm, hv, hr⟩ := h5 i a hia
            refine ⟨m, hm, ?_, ?_⟩
            · rw [← hv]
              congr 1
              omega
            · rw [show r.length + (i + 1) = r.length + 1 + i by omega, hr]
              congr 2
              omega

theorem readableAnswer_bank : ∀ i : Nat, i < 8 → ∀ n : Nat, n < 4 →
    (QUESTIONS[i]?.bind fun options => options[n]?) = some (readableAnswer i (n : Int)) ∧
    startsWith (utf16 "Unknown (") (readableAnswer i (n : Int)) = false := by
  decide

/-- C29: in every record that `handleSubmit` writes, `rawAnswers` and `answers` have
eight entries, and for every question `i` the entry `rawAnswers[i]` is the integer in
`[0, 3]` that `validateAnswerIndex` returns for `answers[i]` of the request, and the
entry `answers[i]` is the option text `QUESTIONS[i].options[rawAnswers[i]]` of the
server's bank, which is not the placeholder `Unknown (...)`. -/
theorem answers_resolved (env : Env) (req : Request) (file : JSString × Record)
    (h : (handleSubmit env req).written = some file) :
    file.2.rawAnswers.length = TOTAL_QUESTIONS ∧ file.2.answers.length = TOTAL_QUESTIONS ∧
    ∀ i, i < TOTAL_QUESTIONS → ∃ (a : JSVal) (n : Int) (text : JSString),
      (∃ l, req.answers = .arr l ∧ l[i]? = some a) ∧
      validateAnswerIndex a 3 = .ok (some n) ∧ 0 ≤ n ∧ n ≤ 3 ∧
      file.2.rawAnswers[i]? = some n ∧
      (QUESTIONS[i]?.bind fun options => options[n.toNat]?) = some text ∧
      file.2.answers[i]? = some text ∧
      startsWith (utf16 "Unknown (") text = false := by
  obtain ⟨u, us, answers, items, v, r, scores, itemTexts, -, ha, hlen, hloop, -, -, -, -, -,
    -, -, -, hans, hraw, -⟩ := handleSubmit_written env req file h
  obtain ⟨h1, h2, -, -, h5⟩ := answersLoop_done_get answers 0 [] [] v r hloop
  simp only [List.length_nil, Nat.zero_add] at h1 h2 h5
  rw [hans, hraw]
  refine ⟨by omega, by omega, fun i hi => ?_⟩
  obtain ⟨a, hia⟩ : ∃ a, answers[i]? = some a :=
    ⟨answers[i], List.getElem?_eq_getElem (by omega)⟩
  obtain ⟨n, hn, hv, hr⟩ := h5 i a hia
  obtain ⟨hn0, hn3⟩ := validateAnswerIndex_range a 3 n hn
  have hcast : ((n.toNat : Nat) : Int) = n := Int.toNat_of_nonneg hn0
  have hbank := readableAnswer_bank i hi n.toNat (by omega)
  rw [hcast] at hbank
  exact ⟨a, n, readableAnswer i n, ⟨answers, ha, hia⟩, hn, hn0, hn3, hv, hbank.1, hr, hbank.2⟩

/-- C29 on a valid submission with the answers 0, 1, 2, 3, 0, 1, 2, 3: the record holds
these indices and the option texts of the bank at them. -/
theorem answers_resolved_witness :
    (handleSubmit calmEnv (withScores sampleScores)).written.isSome = true ∧
    ((handleSubmit calmEnv (withScores sampleScores)).written.map
      fun file => file.2.rawAnswers) = some [0, 1, 2, 3, 0, 1, 2, 3] ∧
    ((handleSubmit calmEnv (withScores sampleScores)).written.map
      fun file => file.2.answers[1]?) = some (some (utf16 "เอากระทะไฟฟ้าที่พกติดตัวไว้ออกมา")) ∧
    ∀ file, (handleSubmit calmEnv (withScores sampleScores)).written = some file →
      file.2.answers.length = 8 :=
  ⟨by decide, by decide, by decide,
    fun file h => (answers_resolved calmEnv (withScores sampleScores) file h).2.1⟩

/-! ## The name of the record file -/

theorem isISOTimestamp_form (t : JSString) (h : isISOTimestamp t = true) :
    ∃ y1 y2 y3 y4 m1 m2 d1 d2 h1 h2 n1 n2 s1 s2 f1 f2 f3,
      t = [y1, y2, y3, y4, 45, m1, m2, 45, d1, d2, 84, h1, h2, 58, n1, n2, 58, s1, s2, 46,
        f1, f2, f3, 90] ∧
      [y1, y2, y3, y4, m1, m2, d1, d2, h1, h2, n1, n2, s1, s2, f1, f2, f3].all isDecimalDigit
        = true := by
  unfold isISOTimestamp at h
  split at h
  · exact ⟨_, _, _, _, _, _, _, _, _, _, _, _, _, _, _, _, _, rfl, h⟩
  · cases h

theorem safeTimestamp_digit (c : Nat) (h : isDecimalDigit c = true) :
    (if c = 58 ∨ c = 46 then 45 else c) = c := by
  simp only [isDecimalDigit, decide_eq_true_eq] at h
  rw [if_neg (by omega)]

theorem safeTimestamp_injective (t t' : JSString) (h : isISOTimestamp t = true)
    (h' : isISOTimestamp t' = true)
    (heq : t.map (fun c => if c = 58 ∨ c = 46 then 45 else c)
      = t'.map (fun c => if c = 58 ∨ c = 46 then 45 else c)) : t = t' := by
  obtain ⟨y1, y2, y3, y4, m1, m2, d1, d2, h1, h2, n1, n2, s1, s2, f1, f2, f3, rfl, hd⟩ :=
    isISOTimestamp_form t h
  obtain ⟨z1, z2, z3, z4, k1, k2, e1, e2, i1, i2, o1, o2, u1, u2, g1, g2, g3, rfl, hd'⟩ :=
    isISOTimestamp_form t' h'
  simp only [List.all_cons, List.all_nil, Bool.and_true, Bool.and_eq_true] at hd hd'
  simp only [List.map_cons, List.map_nil, List.cons.injEq, and_true] at heq
  simp only [safeTimestamp_digit, hd, hd'] at heq
  simp only [List.cons.injEq, and_true]
  tauto

theorem isISOTimestamp_length (t : JSString) (h : isISOTimestamp t = true) : t.length = 24 := by
  obtain ⟨y1, y2, y3, y4, m1, m2, d1, d2, h1, h2, n1, n2, s1, s2, f1, f2, f3, rfl, -⟩ :=
    isISOTimestamp_form t h
  rfl

/-- C25: for timestamps of the form `toISOString()` gives, the name of the record file
determines the timestamp and the session identifier: two submissions get the same name
only if both their timestamps and their session identifiers are equal, so that
different session identifiers give different names also within one millisecond. -/
theorem jsonFilename_injective (t t' s s' : JSString) (ht : isISOTimestamp t = true)
    (ht' : isISOTimestamp t' = true) :
    (jsonFilename t s = jsonFilename t' s' ↔ t = t' ∧ s = s') ∧
    (s ≠ s' → jsonFilename t s ≠ jsonFilename t' s') ∧
    (t ≠ t' → jsonFilename t s ≠ jsonFilename t' s') := by
  have key : jsonFilename t s = jsonFilename t' s' → t = t' ∧ s = s' := by
    intro h
    unfold jsonFilename at h
    simp only [List.append_assoc] at h
    have h := List.append_cancel_left h
    have hlen : (t.map fun c => if c = 58 ∨ c = 46 then 45 else c).length
        = (t'.map fun c => if c = 58 ∨ c = 46 then 45 else c).length := by
      rw [List.length_map, List.length_map, isISOTimestamp_length t ht,
        isISOTimestamp_length t' ht']
    obtain ⟨h1, h2⟩ := List.append_inj h hlen
    have h2 := List.append_cancel_right (List.append_cancel_left h2)
    exact ⟨safeTimestamp_injective t t' ht ht' h1, h2⟩
  refine ⟨⟨key, ?_⟩, fun hs h => hs (key h).2, fun hne h => hne (key h).1⟩
  rintro ⟨rfl, rfl⟩
  rfl

/-- C25 on two submissions of the same millisecond with different session
identifiers: the names differ. -/
theorem jsonFilename_injective_witness :
    jsonFilename (utf16 "2026-11-06T01:41:00.000Z") (utf16 "0123456789abcdef")
      ≠ jsonFilename (utf16 "2026-11-06T01:41:00.000Z") (utf16 "0123456789abcdee") ∧
    jsonFilename (utf16 "2026-11-06T01:41:00.000Z") (utf16 "0123456789abcdef")
      = utf16 "resp_2026-11-06T01-41-00-000Z_0123456789abcdef.json" :=
  ⟨(jsonFilename_injective (utf16 "2026-11-06T01:41:00.000Z") (utf16 "2026-11-06T01:41:00.000Z")
      (utf16 "0123456789abcdef") (utf16 "0123456789abcdee") (by decide) (by decide)).2.1
      (by decide), by decide⟩

/-! ## The data directory -/

theorem handleSubmit_status_cases (env : Env) (req : Request) :
    ((handleSubmit env req).response.status = 400 ∧ (handleSubmit env req).written = none ∧
      (handleSubmit env req).excel = none) ∨
    (handleSubmit env req = submitFailed) ∨
    ((handleSubmit env req).response.status = 200 ∧
      (handleSubmit env req).response.success = true ∧
      (handleSubmit env req).written.isSome = true ∧ env.writeFails = false) := by
  unfold handleSubmit
  repeat' split
  all_goals simp_all [failure, submitFailed]

theorem jsonFilename_isResponseFile (t s : JSString) :
    (startsWith (utf16 "resp_") (jsonFilename t s) &&
      endsWith (utf16 ".json") (jsonFilename t s)) = true := by
  have h5 : (utf16 "resp_").length = 5 := by decide
  have h5' : (utf16 ".json").length = 5 := by decide
  have e1 : startsWith (utf16 "resp_") (jsonFilename t s) = true := by
    unfold startsWith jsonFilename
    simp only [List.append_assoc]
    rw [List.take_left']
    · simp
    · rfl
  have e2 : endsWith (utf16 ".json") (jsonFilename t s) = true := by
    unfold endsWith jsonFilename
    simp only [List.length_append, h5, h5']
    rw [List.drop_left']
    · simp
    · simp only [List.length_append, h5]
      omega
  rw [e1, e2]
  rfl

theorem writeFile_fresh {α : Type} (dir : List (JSString × α)) (name : JSString) (content : α)
    (h : ∀ f ∈ dir, f.1 ≠ name) : writeFile dir name content = dir ++ [(name, content)] := by
  unfold writeFile
  rw [if_neg]
  simp only [List.any_eq_true, beq_iff_eq, not_exists, not_and]
  exact h

theorem writeFile_length_le {α : Type} (dir : List (JSString × α)) (name : JSString)
    (content : α) (h : ∃ f ∈ dir, f.1 = name) :
    (writeFile dir name content).length = dir.length := by
  unfold writeFile
  rw [if_pos]
  · simp
  · simp only [List.any_eq_true, beq_iff_eq]
    exact h

theorem getResponseFiles_append {α : Type} (dir : List (JSString × α)) (t s : JSString)
    (content : α) :
    getResponseFiles (dir ++ [(jsonFilename t s, content)])
      = getResponseFiles dir ++ [(jsonFilename t s, content)] := by
  unfold getResponseFiles
  have h := jsonFilename_isResponseFile t s
  rw [List.filter_append]
  congr 1
  simp [List.filter_cons, h]

/-- Why the session identifiers matter: `writeFile` replaces a file of the same name,
so were two accepted submissions given the same timestamp and the same value of
`crypto.randomBytes(8)`, they would be written under one name and the directory would
hold one record, that of the second. -/
theorem same_name_overwrites :
    (handleSubmit calmEnv (eightAnswers (.str (utf16 "alice")) goodAnswers)).response.status
      = 200 ∧
    (handleSubmit calmEnv (eightAnswers (.str (utf16 "bob")) goodAnswers)).response.status
      = 200 ∧
    (directoryAfter
      (directoryAfter [] (handleSubmit calmEnv (eightAnswers (.str (utf16 "alice")) goodAnswers)))
      (handleSubmit calmEnv (eightAnswers (.str (utf16 "bob")) goodAnswers))).length = 1 ∧
    (directoryAfter
      (directoryAfter [] (handleSubmit calmEnv (eightAnswers (.str (utf16 "alice")) goodAnswers)))
      (handleSubmit calmEnv (eightAnswers (.str (utf16 "bob")) goodAnswers))).map
        (fun f => f.2.username) = [utf16 "bob"] := by
  decide

/-- One call of `handleSubmit` on any directory: a submission answered with 200 is
written exactly once, under the name made of its timestamp and session identifier, and
one answered with 400 is not written; so the directory is unchanged by a rejected
submission, and an accepted one adds exactly one record to it when no file of that
name exists yet (it replaces the file of that name otherwise). -/
theorem one_write_per_accepted (env : Env) (req : Request) (dir : List (JSString × Record)) :
    ((handleSubmit env req).response.status = 200 →
      ∃ cleanData,
        (handleSubmit env req).written
          = some (jsonFilename env.fileTimestamp env.sessionId, cleanData) ∧
        ((∀ f ∈ dir, f.1 ≠ jsonFilename env.fileTimestamp env.sessionId) →
          directoryAfter dir (handleSubmit env req)
            = dir ++ [(jsonFilename env.fileTimestamp env.sessionId, cleanData)] ∧
          (getResponseFiles (directoryAfter dir (handleSubmit env req))).length
            = (getResponseFiles dir).length + 1) ∧
        ((∃ f ∈ dir, f.1 = jsonFilename env.fileTimestamp env.sessionId) →
          (directoryAfter dir (handleSubmit env req)).length = dir.length)) ∧
    ((handleSubmit env req).response.status = 400 →
      (handleSubmit env req).written = none ∧
      directoryAfter dir (handleSubmit env req) = dir) := by
  constructor
  · intro h200
    have hw : (handleSubmit env req).written.isSome = true := by
      rcases handleSubmit_status_cases env req with h | h | h
      · omega
      · rw [h] at h200
        exact absurd h200 (by decide)
      · exact h.2.2.1
    obtain ⟨file, hfile⟩ := Option.isSome_iff_exists.mp hw
    obtain ⟨u, us, answers, items, v, r, scores, itemTexts, -, -, -, -, -, -, -, -, -, hname,
      -⟩ := handleSubmit_written env req file hfile
    obtain ⟨name, cleanData⟩ := file
    simp only at hname
    subst hname
    refine ⟨cleanData, hfile, ?_, ?_⟩
    · intro hfresh
      have e : directoryAfter dir (handleSubmit env req)
          = dir ++ [(jsonFilename env.fileTimestamp env.sessionId, cleanData)] := by
        unfold directoryAfter
        rw [hfile]
        exact writeFile_fresh dir _ cleanData hfresh
      rw [e, getResponseFiles_append, List.length_append]
      exact ⟨rfl, rfl⟩
    · intro hex
      unfold directoryAfter
      rw [hfile]
      exact writeFile_length_le dir _ cleanData hex
  · intro h400
    have hw : (handleSubmit env req).written = none := by
      rcases handleSubmit_status_cases env req with h | h | h
      · exact h.2.1
      · rw [h]
        rfl
      · omega
    refine ⟨hw, ?_⟩
    unfold directoryAfter
    rw [hw]

/-- One call on an empty directory: an accepted submission leaves one record in it, a
submission rejected for its ten answers leaves none. -/
theorem one_write_per_accepted_witness :
    (handleSubmit calmEnv (withScores sampleScores)).response.status = 200 ∧
    (getResponseFiles (directoryAfter [] (handleSubmit calmEnv (withScores sampleScores)))).length
      = 1 ∧
    (handleSubmit calmEnv validPayload).response.status = 400 ∧
    directoryAfter [] (handleSubmit calmEnv validPayload) = [] :=
  ⟨by decide,
    by
      obtain ⟨cleanData, -, h, -⟩ :=
        (one_write_per_accepted calmEnv (withScores sampleScores) []).1 (by decide)
      exact (h (by simp)).2,
    by decide,
    ((one_write_per_accepted calmEnv validPayload []).2 (by decide)).2⟩

theorem jsonFilename_cancel (t t' s s' : JSString) (ht : isISOTimestamp t = true)
    (ht' : isISOTimestamp t' = true) (h : jsonFilename t s = jsonFilename t' s') :
    t = t' ∧ s = s' := by
  unfold jsonFilename at h
  simp only [List.append_assoc] at h
  have h := List.append_cancel_left h
  have hlen : (t.map fun c => if c = 58 ∨ c = 46 then 45 else c).length
      = (t'.map fun c => if c = 58 ∨ c = 46 then 45 else c).length := by
    rw [List.length_map, List.length_map, isISOTimestamp_length t ht,
      isISOTimestamp_length t' ht']
  obtain ⟨h1, h2⟩ := List.append_inj h hlen
  have h2 := List.append_cancel_right (List.append_cancel_left h2)
  exact ⟨safeTimestamp_injective t t' ht ht' h1, h2⟩

theorem handleSubmit_written_name (env : Env) (req : Request) (file : JSString × Record)
    (h : (handleSubmit env req).written = some file) :
    file.1 = jsonFilename env.fileTimestamp env.sessionId := by
  obtain ⟨u, us, answers, items, v, r, scores, itemTexts, -, -, -, -, -, -, -, -, -, hname,
    -⟩ := handleSubmit_written env req file h
  exact hname

theorem directoryAfterAll_snoc (dir : List (JSString × Record)) (calls : List (Env × Request))
    (call : Env × Request) :
    directoryAfterAll dir (calls ++ [call])
      = directoryAfter (directoryAfterAll dir calls) (handleSubmit call.1 call.2) := by
  unfold directoryAfterAll
  rw [List.foldl_append]
  rfl

theorem mem_writeFile {α : Type} (dir : List (JSString × α)) (name : JSString) (content : α)
    (f : JSString × α) (h : f ∈ writeFile dir name content) : f.1 = name ∨ f ∈ dir := by
  unfold writeFile at h
  split at h
  · obtain ⟨g, hg, hf⟩ := List.mem_map.mp h
    split at hf
    · left
      rw [← hf]
    · right
      rw [← hf]
      exact hg
  · rcases List.mem_append.mp h with h | h
    · exact Or.inr h
    · left
      rw [List.mem_singleton.mp h]

theorem written_accepted (env : Env) (req : Request) (file : JSString × Record)
    (h : (handleSubmit env req).written = some file) : accepted (env, req) = true := by
  unfold accepted
  rcases handleSubmit_status_cases env req with h' | h' | h'
  · rw [h'.2.1] at h
    cases h
  · rw [h'] at h
    cases h
  · simp [h'.1]

theorem mem_directoryAfter (dir : List (JSString × Record)) (env : Env) (req : Request)
    (f : JSString × Record) (h : f ∈ directoryAfter dir (handleSubmit env req)) :
    (accepted (env, req) = true ∧ f.1 = jsonFilename env.fileTimestamp env.sessionId) ∨
      f ∈ dir := by
  unfold directoryAfter at h
  split at h
  · rename_i name cleanData hw
    have hname := handleSubmit_written_name env req (name, cleanData) hw
    simp only at hname
    rcases mem_writeFile dir name cleanData f h with h | h
    · exact Or.inl ⟨written_accepted env req _ hw, by rw [h, hname]⟩
    · exact Or.inr h
  · exact Or.inr h

theorem mem_directoryAfterAll (calls : List (Env × Request)) (f : JSString × Record)
    (h : f ∈ directoryAfterAll [] calls) :
    ∃ call ∈ calls.filter accepted,
      f.1 = jsonFilename call.1.fileTimestamp call.1.sessionId := by
  induction calls using List.reverseRecOn with
  | nil => simp [directoryAfterAll] at h
  | append_singleton calls call ih =>
    rw [directoryAfterAll_snoc] at h
    rcases mem_directoryAfter _ call.1 call.2 f h with h | h
    · exact ⟨call, by simp [h.1], h.2⟩
    · obtain ⟨c, hc, hf⟩ := ih h
      exact ⟨c, by rw [List.filter_append]; exact List.mem_append_left _ hc, hf⟩

theorem fresh_name (earlier : List (Env × Request)) (env : Env) (req : Request)
    (hiso : ∀ call ∈ (earlier ++ [(env, req)]).filter accepted,
      isISOTimestamp call.1.fileTimestamp = true)
    (hdistinct : ((earlier ++ [(env, req)]).filter accepted).Pairwise fun c d =>
      c.1.sessionId ≠ d.1.sessionId ∨ c.1.fileTimestamp ≠ d.1.fileTimestamp)
    (hacc : accepted (env, req) = true) :
    ∀ f ∈ directoryAfterAll [] earlier, f.1 ≠ jsonFilename env.fileTimestamp env.sessionId := by
  intro f hf heq
  obtain ⟨c, hc, hname⟩ := mem_directoryAfterAll earlier f hf
  rw [hname] at heq
  have hlast : [(env, req)].filter accepted = [(env, req)] := by simp [hacc]
  rw [List.filter_append, hlast] at hiso hdistinct
  have hcs := (List.pairwise_append.mp hdistinct).2.2 c hc (env, req) (by simp)
  have hinj := jsonFilename_cancel c.1.fileTimestamp env.fileTimestamp c.1.sessionId
    env.sessionId (hiso c (List.mem_append_left _ hc)) (hiso (env, req) (by simp)) heq
  rcases hcs with h | h
  · exact h hinj.2
  · exact h hinj.1

theorem step_count (earlier : List (Env × Request)) (env : Env) (req : Request)
    (hfresh : accepted (env, req) = true → ∀ f ∈ directoryAfterAll [] earlier,
      f.1 ≠ jsonFilename env.fileTimestamp env.sessionId) :
    (getResponseFiles (directoryAfterAll [] (earlier ++ [(env, req)]))).length
      = (getResponseFiles (directoryAfterAll [] earlier)).length
        + if accepted (env, req) then 1 else 0 := by
  rw [directoryAfterAll_snoc]
  rcases handleSubmit_status_cases env req with h | h | h
  · have e := ((one_write_per_accepted env req (directoryAfterAll [] earlier)).2 h.1).2
    simp only at e ⊢
    rw [e]
    simp [accepted, h.1]
  · simp [accepted, h, directoryAfter, submitFailed, failure]
  · obtain ⟨cleanData, -, hs, -⟩ :=
      (one_write_per_accepted env req (directoryAfterAll [] earlier)).1 h.1
    have hacc : accepted (env, req) = true := by simp [accepted, h.1]
    simp only at hs ⊢
    rw [(hs (hfresh hacc)).2]
    simp [hacc]

theorem records_count (calls : List (Env × Request))
    (hiso : ∀ call ∈ calls.filter accepted, isISOTimestamp call.1.fileTimestamp = true)
    (hdistinct : (calls.filter accepted).Pairwise fun c d =>
      c.1.sessionId ≠ d.1.sessionId ∨ c.1.fileTimestamp ≠ d.1.fileTimestamp) :
    (getResponseFiles (directoryAfterAll [] calls)).length = calls.countP accepted := by
  induction calls using List.reverseRecOn with
  | nil => rfl
  | append_singleton calls call ih =>
    obtain ⟨env, req⟩ := call
    have hiso' : ∀ c ∈ calls.filter accepted, isISOTimestamp c.1.fileTimestamp = true := by
      intro c hc
      exact hiso c (by rw [List.filter_append]; exact List.mem_append_left _ hc)
    have hdistinct' : (calls.filter accepted).Pairwise fun c d =>
        c.1.sessionId ≠ d.1.sessionId ∨ c.1.fileTimestamp ≠ d.1.fileTimestamp := by
      rw [List.filter_append] at hdistinct
      exact (List.pairwise_append.mp hdistinct).1
    rw [step_count calls env req (fresh_name calls env req hiso hdistinct),
      ih hiso' hdistinct', List.countP_append]
    simp [List.countP_cons]

/-- C24: `handleSubmit` writes one record, under the name made of its timestamp and
session identifier, for a submission it answers with 200, and none for one it answers
with 400. For submissions handled one after the other from an empty data directory,
where each accepted one gets a timestamp of the form `toISOString()` gives and no two
accepted ones get both the same session identifier and the same timestamp, an
accepted submission adds its record behind the records already there, none of which
is replaced, so that the number of records grows by exactly one; a rejected
submission leaves the directory as it was; and the number of records is the number of
accepted submissions. -/
theorem one_record_per_accepted (earlier : List (Env × Request)) (env : Env) (req : Request)
    (hiso : ∀ call ∈ (earlier ++ [(env, req)]).filter accepted,
      isISOTimestamp call.1.fileTimestamp = true)
    (hdistinct : ((earlier ++ [(env, req)]).filter accepted).Pairwise fun c d =>
      c.1.sessionId ≠ d.1.sessionId ∨ c.1.fileTimestamp ≠ d.1.fileTimestamp) :
    ((handleSubmit env req).response.status = 200 →
      ∃ cleanData,
        (handleSubmit env req).written
          = some (jsonFilename env.fileTimestamp env.sessionId, cleanData) ∧
        directoryAfterAll [] (earlier ++ [(env, req)])
          = directoryAfterAll [] earlier
            ++ [(jsonFilename env.fileTimestamp env.sessionId, cleanData)] ∧
        (getResponseFiles (directoryAfterAll [] (earlier ++ [(env, req)]))).length
          = (getResponseFiles (directoryAfterAll [] earlier)).length + 1) ∧
    ((handleSubmit env req).response.status = 400 →
      (handleSubmit env req).written = none ∧
      directoryAfterAll [] (earlier ++ [(env, req)]) = directoryAfterAll [] earlier) ∧
    (getResponseFiles (directoryAfterAll [] (earlier ++ [(env, req)]))).length
      = (earlier ++ [(env, req)]).countP accepted := by
  refine ⟨?_, ?_, records_count _ hiso hdistinct⟩
  · intro h200
    have hfresh := fresh_name earlier env req hiso hdistinct (by simp [accepted, h200])
    obtain ⟨cleanData, hw, hs, -⟩ :=
      (one_write_per_accepted env req (directoryAfterAll [] earlier)).1 h200
    refine ⟨cleanData, hw, ?_, ?_⟩
    · rw [directoryAfterAll_snoc]
      exact (hs hfresh).1
    · rw [directoryAfterAll_snoc]
      exact (hs hfresh).2
  · intro h400
    have h := (one_write_per_accepted env req (directoryAfterAll [] earlier)).2 h400
    refine ⟨h.1, ?_⟩
    rw [directoryAfterAll_snoc]
    exact h.2

/-- C24 on two accepted submissions of the same millisecond with different session
identifiers, followed by one rejected for its ten answers: the directory holds two
records after the first two, and the third leaves it as it was. -/
theorem one_record_per_accepted_witness :
    (getResponseFiles (directoryAfterAll []
      [(calmEnv, eightAnswers (.str (utf16 "alice")) goodAnswers),
        (laterEnv, eightAnswers (.str (utf16 "bob")) goodAnswers)])).length = 2 ∧
    directoryAfterAll []
      [(calmEnv, eightAnswers (.str (utf16 "alice")) goodAnswers),
        (laterEnv, eightAnswers (.str (utf16 "bob")) goodAnswers),
        (calmEnv, validPayload)]
      = directoryAfterAll []
        [(calmEnv, eightAnswers (.str (utf16 "alice")) goodAnswers),
          (laterEnv, eightAnswers (.str (utf16 "bob")) goodAnswers)] :=
  ⟨(one_record_per_accepted [(calmEnv, eightAnswers (.str (utf16 "alice")) goodAnswers)]
      laterEnv (eightAnswers (.str (utf16 "bob")) goodAnswers) (by decide) (by decide)).2.2.trans
      (by decide),
   ((one_record_per_accepted
      [(calmEnv, eightAnswers (.str (utf16 "alice")) goodAnswers),
        (laterEnv, eightAnswers (.str (utf16 "bob")) goodAnswers)]
      calmEnv validPayload (by decide) (by decide)).2.1 (by decide)).2⟩

/-! ## The rows of the spreadsheet -/

theorem orElse_str (s : JSString) : orElse (.str s) (.str []) = .str s := by
  cases s with
  | nil => rfl
  | cons c cs => rfl

theorem exportLoop_eq_appendLoop (data items : JSVal)
    (hitems : member data (utf16 "items") = .ok items) (htruthy : items.truthy = true) :
    ∀ (n j : Nat) (rowData : RowData),
      exportLoop data n j rowData = appendLoop data n j rowData := by
  intro n
  induction n with
  | zero => intro j rowData; rfl
  | succ n ih =>
    intro j rowData
    unfold exportLoop appendLoop
    cases ha : member data (utf16 "answers") with
    | error t => rfl
    | ok answers =>
      cases he : elementAt answers j with
      | error t => simp only [he]
      | ok answer =>
        simp only [he, hitems, htruthy, if_true]
        cases hi : elementAt items j with
        | error t => simp only [hi]
        | ok e =>
          simp only [hi]
          exact ih _ _

theorem exportRowData_eq_appendRowData (data items : JSVal) (suggestion ip : JSString)
    (hs : member data (utf16 "suggestion") = .ok (.str suggestion))
    (hip : member data (utf16 "ip") = .ok (.str ip))
    (hitems : member data (utf16 "items") = .ok items) (htruthy : items.truthy = true) :
    exportRowData data = appendRowData data := by
  unfold exportRowData appendRowData
  rw [hs, hip]
  cases member data (utf16 "sessionId") <;> cases member data (utf16 "timestamp") <;>
    cases member data (utf16 "username") <;>
    simp only [orElse_str, exportLoop_eq_appendLoop data items hitems htruthy]

theorem toValue_members (r : Record) :
    member r.toValue (utf16 "sessionId") = .ok (.str r.sessionId) ∧
    member r.toValue (utf16 "timestamp") = .ok (.str r.timestamp) ∧
    member r.toValue (utf16 "username") = .ok (.str r.username) ∧
    member r.toValue (utf16 "suggestion") = .ok (.str r.suggestion) ∧
    member r.toValue (utf16 "ip") = .ok (.str r.ip) ∧
    member r.toValue (utf16 "answers") = .ok (.arr (r.answers.map .str)) ∧
    member r.toValue (utf16 "items") = .ok (.arr (r.items.map .str)) ∧
    member r.toValue (utf16 "personalityType") = .ok (.str r.personalityType) ∧
    member r.toValue (utf16 "personalityName") = .ok (.str r.personalityName) ∧
    member r.toValue (utf16 "personalityScores")
      = .ok (.obj (r.personalityScores.map fun e => (e.1, .num (.ofInt e.2)))) :=
  ⟨rfl, rfl, rfl, rfl, rfl, rfl, rfl, rfl, rfl, rfl⟩

theorem appendLoop_keys (data : JSVal) (answers items : List JSVal)
    (ha : member data (utf16 "answers") = .ok (.arr answers))
    (hi : member data (utf16 "items") = .ok (.arr items)) :
    ∀ (n i : Nat) (rowData : RowData), ∃ result, appendLoop data n i rowData = .ok result ∧
      result.map Prod.fst = rowData.map Prod.fst ++
        (List.range' (i + 1) n).flatMap fun q => [utf16 "q" ++ natText q, utf16 "item" ++ natText q]
    := by
  intro n
  induction n with
  | zero => intro i rowData; exact ⟨rowData, rfl, by simp⟩
  | succ n ih =>
    intro i rowData
    unfold appendLoop
    simp only [ha, hi, elementAt]
    obtain ⟨result, h1, h2⟩ := ih (i + 1) (rowData ++
      [(utf16 "q" ++ natText (i + 1),
          match answers.getD i .undefined with
          | .undefined => .str []
          | v => v),
        (utf16 "item" ++ natText (i + 1), orElse (items.getD i .undefined) (.str []))])
    refine ⟨result, h1, ?_⟩
    rw [h2]
    simp [List.range'_succ, List.flatMap_cons]

theorem appendRowData_toValue (r : Record) :
    ∃ rowData, appendRowData r.toValue = .ok rowData ∧
      rowData.map Prod.fst = [utf16 "sessionId", utf16 "timestamp", utf16 "username",
        utf16 "suggestion", utf16 "ip", utf16 "q1", utf16 "item1", utf16 "q2", utf16 "item2",
        utf16 "q3", utf16 "item3", utf16 "q4", utf16 "item4", utf16 "q5", utf16 "item5",
        utf16 "q6", utf16 "item6", utf16 "q7", utf16 "item7", utf16 "q8", utf16 "item8",
        utf16 "personalityType", utf16 "personalityName", utf16 "scoreC", utf16 "scoreP",
        utf16 "scoreF", utf16 "scoreL"] := by
  obtain ⟨m1, m2, m3, m4, m5, m6, m7, m8, m9, m10⟩ := toValue_members r
  obtain ⟨result, h1, h2⟩ := appendLoop_keys r.toValue _ _ m6 m7 TOTAL_QUESTIONS 0
    [(utf16 "sessionId", .str r.sessionId), (utf16 "timestamp", .str r.timestamp),
      (utf16 "username", .str r.username), (utf16 "suggestion", .str r.suggestion),
      (utf16 "ip", .str r.ip)]
  unfold appendRowData
  simp only [m1, m2, m3, m4, m5, h1, resultCells, scoreCells, m8, m9, m10]
  refine ⟨_, rfl, ?_⟩
  simp only [List.map_append, h2]
  rfl

/-- C26: the column list that `handleExport` builds by looping over `TOTAL_QUESTIONS`
equals, in headers, keys, widths and order, the literal list of `appendToExcelFile`:
27 columns, from the session id to the IP address; and for every record (so for every
record `handleSubmit` produces) both functions build the same `rowData`, which has a
value for the key of each column. -/
theorem export_matches_append :
    exportColumns = appendColumns ∧ exportColumns.length = 27 ∧
    exportColumns.map (fun column => column.header)
      = [utf16 "Session ID", utf16 "Timestamp", utf16 "Username", utf16 "Q1", utf16 "Q2",
        utf16 "Q3", utf16 "Q4", utf16 "Q5", utf16 "Q6", utf16 "Q7", utf16 "Q8",
        utf16 "Item 1", utf16 "Item 2", utf16 "Item 3", utf16 "Item 4", utf16 "Item 5",
        utf16 "Item 6", utf16 "Item 7", utf16 "Item 8", utf16 "Result Type",
        utf16 "Result Name", utf16 "Score C", utf16 "Score P", utf16 "Score F",
        utf16 "Score L", utf16 "Suggestion", utf16 "IP Address"] ∧
    ∀ r : Record, exportRowData r.toValue = appendRowData r.toValue ∧
      ∃ rowData, appendRowData r.toValue = .ok rowData ∧ rowData.length = 27 ∧
        ∀ column ∈ exportColumns, column.key ∈ rowData.map Prod.fst := by
  refine ⟨by decide, by decide, by decide, fun r => ⟨?_, ?_⟩⟩
  · obtain ⟨-, -, -, m4, m5, -, m7, -⟩ := toValue_members r
    exact exportRowData_eq_appendRowData r.toValue _ r.suggestion r.ip m4 m5 m7 rfl
  · obtain ⟨rowData, h1, h2⟩ := appendRowData_toValue r
    refine ⟨rowData, h1, ?_, ?_⟩
    · have := congrArg List.length h2
      rw [List.length_map] at this
      rw [this]
      rfl
    · rw [h2]
      decide

/-- C26 on the record of the sample submission: both functions build the same row, in
which `q2` is the text of the second answer and `scoreC` the stored score. -/
theorem export_matches_append_witness :
    exportRowData sampleRecord.toValue = appendRowData sampleRecord.toValue ∧
    ((appendRowData sampleRecord.toValue).toOption.bind fun rowData =>
      rowData.lookup (utf16 "q2")) = some (.str (utf16 "เอากระทะไฟฟ้าที่พกติดตัวไว้ออกมา")) ∧
    ((exportRowData sampleRecord.toValue).toOption.bind fun rowData =>
      rowData.lookup (utf16 "scoreC")) = some (numLit 99) :=
  ⟨(export_matches_append.2.2.2 sampleRecord).1, rfl, rfl⟩

/-! ## The full export -/

theorem elementAt_ok (value : JSVal) (j : Nat) (h1 : value ≠ .undefined) (h2 : value ≠ .null) :
    ∃ e, elementAt value j = .ok e := by
  cases value with
  | undefined => exact absurd rfl h1
  | null => exact absurd rfl h2
  | bool b => exact ⟨_, rfl⟩
  | num x => exact ⟨_, rfl⟩
  | str s => exact ⟨_, rfl⟩
  | arr es => exact ⟨_, rfl⟩
  | obj fs => exact ⟨_, rfl⟩

theorem elementAt_ok_of_truthy (value : JSVal) (j : Nat) (h : value.truthy = true) :
    ∃ e, elementAt value j = .ok e := by
  apply elementAt_ok
  · rintro rfl
    cases h
  · rintro rfl
    cases h

theorem exportLoop_ok (data answers items : JSVal)
    (ha : member data (utf16 "answers") = .ok answers)
    (h1 : answers ≠ .undefined) (h2 : answers ≠ .null)
    (hi : member data (utf16 "items") = .ok items) :
    ∀ (n j : Nat) (rowData : RowData), ∃ result, exportLoop data n j rowData = .ok result := by
  intro n
  induction n with
  | zero => intro j rowData; exact ⟨rowData, rfl⟩
  | succ n ih =>
    intro j rowData
    obtain ⟨answer, he⟩ := elementAt_ok answers j h1 h2
    unfold exportLoop
    simp only [ha, he, hi]
    by_cases ht : items.truthy = true
    · obtain ⟨e, hitem⟩ := elementAt_ok_of_truthy items j ht
      simp only [ht, if_true, hitem]
      exact ih _ _
    · simp only [ht]
      exact ih _ _

theorem exportable_form (data : JSVal) (h : exportable data = true) :
    ∃ fields answers, data = .obj fields ∧
      fields.lookup (utf16 "answers") = some answers ∧ answers ≠ .undefined ∧ answers ≠ .null ∧
      (∀ es, fields.lookup (utf16 "timestamp") ≠ some (.arr es)) ∧
      (∀ fs, fields.lookup (utf16 "timestamp") ≠ some (.obj fs)) := by
  cases data with
  | obj fields =>
    simp only [exportable, Bool.and_eq_true] at h
    obtain ⟨ha, ht⟩ := h
    cases hl : fields.lookup (utf16 "answers") with
    | none => simp [hl] at ha
    | some answers =>
      refine ⟨fields, answers, rfl, hl, ?_, ?_, ?_, ?_⟩
      · rintro rfl
        simp [hl] at ha
      · rintro rfl
        simp [hl] at ha
      · intro es hes
        simp [hes] at ht
      · intro fs hfs
        simp [hfs] at ht
  | _ => simp [exportable] at h

theorem exportRowData_ok (data : JSVal) (h : exportable data = true) :
    ∃ rowData, exportRowData data = .ok rowData := by
  obtain ⟨fields, answers, rfl, ha, h1, h2, -, -⟩ := exportable_form data h
  obtain ⟨result, hloop⟩ := exportLoop_ok (.obj fields) answers
    ((fields.lookup (utf16 "items")).getD .undefined) (by simp [member, ha]) h1 h2 rfl
    TOTAL_QUESTIONS 0
    [(utf16 "sessionId", (fields.lookup (utf16 "sessionId")).getD .undefined),
      (utf16 "timestamp", (fields.lookup (utf16 "timestamp")).getD .undefined),
      (utf16 "username", (fields.lookup (utf16 "username")).getD .undefined),
      (utf16 "suggestion", orElse ((fields.lookup (utf16 "suggestion")).getD .undefined) (.str [])),
      (utf16 "ip", orElse ((fields.lookup (utf16 "ip")).getD .undefined) (.str []))]
  unfold exportRowData
  simp only [member, hloop, resultCells, scoreCells]
  exact ⟨_, rfl⟩

theorem timestampOf_ok (parseDate : JSString → Option Int) (data : JSVal)
    (h : exportable data = true) : (timestampOf parseDate data).isOk = true := by
  obtain ⟨fields, answers, rfl, -, -, -, h1, h2⟩ := exportable_form data h
  unfold timestampOf
  simp only [member]
  cases hl : fields.lookup (utf16 "timestamp") with
  | none => rfl
  | some timestamp =>
    cases timestamp with
    | arr es => exact absurd hl (h1 es)
    | obj fs => exact absurd hl (h2 fs)
    | num x =>
      cases x with
      | finite negative ds n =>
        have key : ∀ (c : Prop) [Decidable c] (a b : Option Int),
            (if c then (Except.ok a : Except Thrown (Option Int)) else .ok b).isOk = true := by
          intro c _ a b
          split <;> rfl
        exact key _ _ _
      | _ => rfl
    | _ => rfl

theorem mapM_ok_of_forall {α β : Type} (f : α → Except Thrown β) (l : List α)
    (h : ∀ x ∈ l, ∃ y, f x = .ok y) : ∃ ys, l.mapM f = .ok ys ∧ ys.length = l.length := by
  induction l with
  | nil => exact ⟨[], rfl, rfl⟩
  | cons x xs ih =>
    obtain ⟨y, hy⟩ := h x (by simp)
    obtain ⟨ys, hys, hlen⟩ := ih fun z hz => h z (by simp [hz])
    refine ⟨y :: ys, ?_, by simp [hlen]⟩
    simp only [List.mapM_cons, hy, hys, bind, Except.bind, pure, Except.pure]

theorem sortByTimestamp_ok (parseDate : JSString → Option Int) (allData : List JSVal)
    (h : ∀ data ∈ allData, exportable data = true) :
    ∃ sorted, sortByTimestamp parseDate allData = .ok sorted ∧ sorted.Perm allData := by
  unfold sortByTimestamp
  rw [if_neg]
  · exact ⟨_, rfl, List.perm_insertionSort _ _⟩
  · rintro ⟨-, hall⟩
    have : (allData.all fun a => (timestampOf parseDate a).isOk) = true :=
      List.all_eq_true.mpr fun a ha => timestampOf_ok parseDate a (h a ha)
    rw [this] at hall
    cases hall

theorem exportable_toValue (r : Record) : exportable r.toValue = true := rfl

theorem length_filterMap_content {α : Type} (files : List (JSString × Option α)) :
    (files.filterMap fun f => f.2).length = (files.filter fun f => f.2.isSome).length := by
  induction files with
  | nil => rfl
  | cons f fs ih =>
    obtain ⟨name, content⟩ := f
    cases content with
    | none => simpa using ih
    | some v => simpa using ih

/-- C27, as stated, fails: a directory whose only record file holds the JSON text
`\x7b\x7d`, which parses, makes the export answer 500, since the row shaping reads
`data.answers[j]` of every parsed file; so does a file that holds `null`, and so does
either of them next to a record that `handleSubmit` wrote. -/
theorem export_fails_on_other_json :
    (getResponseFiles [(utf16 "resp_a.json", some (JSVal.obj []))]).length = 1 ∧
    handleExport noDates [(utf16 "resp_a.json", some (.obj []))]
      = .json ⟨500, false, utf16 "Export ล้มเหลว"⟩ ∧
    handleExport noDates [(utf16 "resp_a.json", some .null)]
      = .json ⟨500, false, utf16 "Export ล้มเหลว"⟩ ∧
    handleExport noDates [(utf16 "resp_1.json", some sampleRecord.toValue),
      (utf16 "resp_a.json", some (.obj []))] = .json ⟨500, false, utf16 "Export ล้มเหลว"⟩ :=
  ⟨by decide, rfl, rfl, rfl⟩

/-- C27 (amended): with no record file in the directory `handleExport` answers 200 with
`success: false`; with at least one, every file that cannot be read or does not parse
as JSON is skipped, and when every parsed file is an object whose `answers` is neither
missing nor `null` and whose `timestamp` is not an object or array, as every record
written by `handleSubmit` is, the reply is the workbook with the export columns and
one data row per file that parses. -/
theorem export_skips_unreadable (parseDate : JSString → Option Int)
    (dir : List (JSString × Option JSVal)) :
    ((getResponseFiles dir).length = 0 →
      handleExport parseDate dir = .json ⟨200, false, utf16 "ยังไม่มีข้อมูลให้ export"⟩) ∧
    ((getResponseFiles dir).length ≠ 0 →
      ((getResponseFiles dir).all fun f => f.2.all exportable) = true →
      ∃ rows, handleExport parseDate dir = .workbook exportColumns rows ∧
        rows.length = ((getResponseFiles dir).filter fun f => f.2.isSome).length) ∧
    (∀ records : List (JSString × Record),
      ((getResponseFiles (storedFiles records)).all fun f => f.2.all exportable) = true) := by
  refine ⟨fun h0 => ?_, fun hne hall => ?_, fun records => ?_⟩
  · unfold handleExport
    simp only [h0, if_true]
  · have hdata : ∀ data ∈ (getResponseFiles dir).filterMap (fun f => f.2),
        exportable data = true := by
      intro data hd
      obtain ⟨f, hf, hfd⟩ := List.mem_filterMap.mp hd
      have := List.all_eq_true.mp hall f hf
      rw [hfd] at this
      exact this
    obtain ⟨sorted, hsort, hperm⟩ := sortByTimestamp_ok parseDate _ hdata
    obtain ⟨rows, hrows, hlen⟩ := mapM_ok_of_forall exportRowData sorted
      fun data hd => exportRowData_ok data (hdata data (hperm.mem_iff.mp hd))
    refine ⟨rows, ?_, ?_⟩
    · unfold handleExport
      simp only [hne, if_false, hsort, hrows]
    · rw [hlen, hperm.length_eq, length_filterMap_content]
  · apply List.all_eq_true.mpr
    intro f hf
    have hmem : f ∈ storedFiles records := by
      unfold getResponseFiles at hf
      exact (List.mem_filter.mp hf).1
    unfold storedFiles at hmem
    obtain ⟨g, -, rfl⟩ := List.mem_map.mp hmem
    rfl

/-- The amended C27 on a directory with a record written by `handleSubmit`, a record
file that does not parse and a file of another name: the export is a workbook with one
data row. -/
theorem export_skips_unreadable_witness :
    (getResponseFiles [(utf16 "resp_1.json", some sampleRecord.toValue),
      (utf16 "resp_2.json", none), (utf16 "notes.txt", none)]).length = 2 ∧
    ∃ rows, handleExport noDates [(utf16 "resp_1.json", some sampleRecord.toValue),
        (utf16 "resp_2.json", none), (utf16 "notes.txt", none)]
        = .workbook exportColumns rows ∧ rows.length = 1 :=
  ⟨by decide,
    (export_skips_unreadable noDates [(utf16 "resp_1.json", some sampleRecord.toValue),
      (utf16 "resp_2.json", none), (utf16 "notes.txt", none)]).2.1 (by decide) (by decide)⟩

namespace App

/-! ## The submission of the result -/

theorem submitSuggestion_frame (title : JSString → JSString) (s : State) (value : JSString)
    (success : Option Bool) :
    (submitSuggestion title s value success).1 = s ∨
    (submitSuggestion title s value success).1 = { s with page := .final } := by
  unfold submitSuggestion
  split
  · left; rfl
  · split
    · right; rfl
    · left; rfl

theorem submitSuggestion_payload (title : JSString → JSString) (s : State) (value : JSString)
    (success : Option Bool) (payload : Payload)
    (h : (submitSuggestion title s value success).2 = some payload) :
    payload.personalityType = submitSuggestionType s.personalityScores ∧
    payload.personalityScores = s.personalityScores ∧ payload.username = s.userName ∧
    payload.answers = s.selectedAnswers := by
  unfold submitSuggestion at h
  split at h
  · cases h
  · split at h <;>
    · simp only [Option.some.injEq] at h
      subst h
      exact ⟨rfl, rfl, rfl, rfl⟩

/-- C30: the two copies of the personality resolver agree: for every value of the four
counters the key `renderSummary` uses equals the key `submitSuggestion` computes, every
payload `submitSuggestion` sends carries as `personalityType` the key `renderSummary`
uses for the same counters (so, after the last question, the key of the result shown),
and `submitSuggestion` changes none of `selectedAnswers`, `collectedItems`,
`personalityScores`, `userName` and `currentQuestion`. -/
theorem resolver_copies_agree :
    (∀ scores : Scores, renderSummaryType scores = submitSuggestionType scores) ∧
    (∀ (title : JSString → JSString) (s : State) (value : JSString) (success : Option Bool)
      (payload : Payload), (submitSuggestion title s value success).2 = some payload →
        payload.personalityType = renderSummaryType s.personalityScores) ∧
    (∀ (QUESTIONS : List Question) (title : JSString → JSString) (s : State)
      (value : JSString) (success : Option Bool) (payload : Payload),
      s.currentQuestion + 1 = QUESTIONS.length →
      (submitSuggestion title (nextQuestion QUESTIONS s) value success).2 = some payload →
        (nextQuestion QUESTIONS s).summaryType = some payload.personalityType) ∧
    (∀ (title : JSString → JSString) (s : State) (value : JSString) (success : Option Bool),
      (submitSuggestion title s value success).1.selectedAnswers = s.selectedAnswers ∧
      (submitSuggestion title s value success).1.collectedItems = s.collectedItems ∧
      (submitSuggestion title s value success).1.personalityScores = s.personalityScores ∧
      (submitSuggestion title s value success).1.userName = s.userName ∧
      (submitSuggestion title s value success).1.currentQuestion = s.currentQuestion) := by
  refine ⟨fun scores => rfl, ?_, ?_, ?_⟩
  · intro title s value success payload h
    exact (submitSuggestion_payload title s value success payload h).1
  · intro QUESTIONS title s value success payload hlast h
    obtain ⟨-, -, -, h4, -, hcases⟩ := nextQuestion_cases QUESTIONS s
    rcases hcases with ⟨q, hq, -⟩ | ⟨-, -, hsum⟩
    · rw [List.getElem?_eq_none (by omega)] at hq
      cases hq
    · rw [hsum, (submitSuggestion_payload title _ value success payload h).1, h4]
      rfl
  · intro title s value success
    rcases submitSuggestion_frame title s value success with h | h <;> rw [h] <;>
      exact ⟨rfl, rfl, rfl, rfl, rfl⟩

/-- C30 on the sample bank: after the third question, answered so that `L` leads, the
summary shows the result of `L` and the payload carries `L`. -/
theorem resolver_copies_agree_witness :
    (nextQuestion sampleBank { atQuestion 2 with personalityScores := ⟨1, 0, 0, 2⟩ }).summaryType
      = some (utf16 "L") ∧
    ((submitSuggestion (fun key => key)
      (nextQuestion sampleBank { atQuestion 2 with personalityScores := ⟨1, 0, 0, 2⟩ })
      (utf16 " nice ") (some true)).2.map fun payload => payload.personalityType)
      = some (utf16 "L") ∧
    renderSummaryType ⟨1, 0, 0, 2⟩ = submitSuggestionType ⟨1, 0, 0, 2⟩ :=
  ⟨by decide, by decide, resolver_copies_agree.1 ⟨1, 0, 0, 2⟩⟩

end App

end Production
